import Mathlib

/-!
# Iverson sequencer MIDI mapping and Zilah 14-bit CC aggregation

A shallow embedding of `src/modules/Zilah.cpp` (the `FourteenBit` register and the three
`CcAggregator` strategies) and of `src/modules/Iverson.cpp` (the MIDI mapping table with
`doLearn`, `midiToParm`, `pageLights`, and the persistence pair `dataToJson` /
`dataFromJson`), followed by theorems about them.

Conventions of the embedding:
* `u_int8_t` / `u_int16_t` / 64-bit values are natural numbers reduced with an explicit `%`;
  C `int` values are integers.
* `std::vector` is `List`; `std::find_if` followed by `erase` is `List.eraseP`.
* A float parameter value is an exact rational; the cast `(int) v` truncates towards zero.
* A nullable `json_t*` is an `Option Json`.
* `MidiOutput.setNote` and `pageLights` return `none` where the source writes outside
  `currentNotes` or indexes outside `midiOutputs`: such a run has no defined result.
-/

namespace Zilah

/-- Conversion to `u_int8_t`. -/
def u8 (x : Nat) : Nat := x % 256

/-- Conversion to `u_int16_t`. -/
def u16 (x : Nat) : Nat := x % 65536

/-- The 14-bit helper of Zilah.cpp: `value` is a `u_int16_t`, constructed as 0. -/
structure FourteenBit where
  value : Nat := 0
deriving DecidableEq, Repr

/-- `FourteenBit::setMsb`: keep the low seven bits, or in `msb << 7`. -/
def FourteenBit.setMsb (f : FourteenBit) (msb : Nat) : FourteenBit :=
  let shiftedMsb := u16 (u16 (u8 msb) <<< 7)
  let value := u16 (f.value &&& 0b0000000001111111)
  { value := u16 (value ||| shiftedMsb) }

/-- `FourteenBit::setLsb`: keep bits 7..13, or in `lsb`. -/
def FourteenBit.setLsb (f : FourteenBit) (lsb : Nat) : FourteenBit :=
  let value := u16 (f.value &&& 0b0011111110000000)
  { value := u16 (value ||| u8 lsb) }

/-- `FourteenBit::getNormalised`, the float quotient taken as an exact rational. -/
def FourteenBit.getNormalised (f : FourteenBit) : ℚ :=
  (f.value : ℚ) / (0b0011111111111111 : ℚ)

/-- The aggregator `LsbOrMSbWithZeroingMidi10`. -/
structure LsbOrMSbWithZeroingMidi10 where
  fourteenBit : FourteenBit := {}
deriving DecidableEq, Repr

/-- `LsbOrMSbWithZeroingMidi10::setMsb`. -/
def LsbOrMSbWithZeroingMidi10.setMsb (a : LsbOrMSbWithZeroingMidi10) (msb : Nat) :
    LsbOrMSbWithZeroingMidi10 :=
  { fourteenBit := (a.fourteenBit.setMsb msb).setLsb 0 }

/-- `LsbOrMSbWithZeroingMidi10::setLsb`. -/
def LsbOrMSbWithZeroingMidi10.setLsb (a : LsbOrMSbWithZeroingMidi10) (lsb : Nat) :
    LsbOrMSbWithZeroingMidi10 :=
  { fourteenBit := a.fourteenBit.setLsb lsb }

/-- `CcAggregator::get` for the zeroing aggregator. -/
def LsbOrMSbWithZeroingMidi10.get (a : LsbOrMSbWithZeroingMidi10) : ℚ :=
  a.fourteenBit.getNormalised

/-- One call on an aggregator: `setMsb v` or `setLsb v`, the argument a `u_int8_t`. -/
inductive Call where
  | msb (v : Nat)
  | lsb (v : Nat)
deriving DecidableEq, Repr

/-- Apply one call to the zeroing aggregator. -/
def LsbOrMSbWithZeroingMidi10.call (a : LsbOrMSbWithZeroingMidi10) :
    Call → LsbOrMSbWithZeroingMidi10
  | .msb v => a.setMsb v
  | .lsb v => a.setLsb v

/-- The zeroing aggregator after a sequence of calls on a freshly constructed one. -/
def LsbOrMSbWithZeroingMidi10.run (calls : List Call) : LsbOrMSbWithZeroingMidi10 :=
  calls.foldl LsbOrMSbWithZeroingMidi10.call {}

/-- The aggregator `LsbOrMSbWithoutZeroing`. -/
structure LsbOrMSbWithoutZeroing where
  fourteenBit : FourteenBit := {}
deriving DecidableEq, Repr

/-- `LsbOrMSbWithoutZeroing::setMsb`. -/
def LsbOrMSbWithoutZeroing.setMsb (a : LsbOrMSbWithoutZeroing) (msb : Nat) :
    LsbOrMSbWithoutZeroing :=
  { fourteenBit := a.fourteenBit.setMsb msb }

/-- `LsbOrMSbWithoutZeroing::setLsb`. -/
def LsbOrMSbWithoutZeroing.setLsb (a : LsbOrMSbWithoutZeroing) (lsb : Nat) :
    LsbOrMSbWithoutZeroing :=
  { fourteenBit := a.fourteenBit.setLsb lsb }

/-- `CcAggregator::get` for the aggregator without zeroing. -/
def LsbOrMSbWithoutZeroing.get (a : LsbOrMSbWithoutZeroing) : ℚ :=
  a.fourteenBit.getNormalised

/-- The aggregator `MsbFirstWaitForLsb`: the register, the stored `msb` and `isMsbSet`. -/
structure MsbFirstWaitForLsb where
  fourteenBit : FourteenBit := {}
  msb : Nat := 0
  isMsbSet : Bool := false
deriving DecidableEq, Repr

/-- `MsbFirstWaitForLsb::setMsb`: store `m` (a `u_int8_t`) and raise the flag. -/
def MsbFirstWaitForLsb.setMsb (a : MsbFirstWaitForLsb) (m : Nat) : MsbFirstWaitForLsb :=
  { a with msb := u8 m, isMsbSet := true }

/-- `MsbFirstWaitForLsb::setLsb`. -/
def MsbFirstWaitForLsb.setLsb (a : MsbFirstWaitForLsb) (l : Nat) : MsbFirstWaitForLsb :=
  if a.isMsbSet then
    { a with fourteenBit := (a.fourteenBit.setMsb a.msb).setLsb l, isMsbSet := false }
  else
    { a with fourteenBit := a.fourteenBit.setLsb l }

/-- `CcAggregator::get` for `MsbFirstWaitForLsb`. -/
def MsbFirstWaitForLsb.get (a : MsbFirstWaitForLsb) : ℚ :=
  a.fourteenBit.getNormalised

end Zilah

namespace sspo

/-- The cast `(int) v` of a float parameter value, truncating towards zero. -/
def castInt (v : ℚ) : Int := Int.tdiv v.num v.den

/-- A MIDI message as the host queues deliver it: `getStatus()`, `getNote()` (the note or the
controller number) and `getValue()`. -/
structure Message where
  status : Int
  note : Int
  value : Int
deriving DecidableEq, Repr

/-- `Iverson::MidiMapping`; every field is -1 when not set. -/
structure MidiMapping where
  controller : Int := -1
  note : Int := -1
  cc : Int := -1
  paramId : Int := -1
deriving DecidableEq, Repr

instance : Inhabited MidiMapping := ⟨{ controller := -1, note := -1, cc := -1, paramId := -1 }⟩

/-- `MidiMapping::reset`. -/
def MidiMapping.reset (_m : MidiMapping) : MidiMapping :=
  { controller := -1, note := -1, cc := -1, paramId := -1 }

/-- Modelled from the spec: the `Track` of Iverson.h (not under src): an active flag, a loop
length, a play index (-1 when not playing) and a 64-bit step pattern, bit i = step i. The
accessors below read and write exactly these fields. -/
structure Track where
  active : Bool := false
  length : Int := 0
  index : Int := -1
  sequence : Nat := 0
deriving DecidableEq, Repr

instance : Inhabited Track := ⟨{ active := false, length := 0, index := -1, sequence := 0 }⟩

/-- Modelled from the spec: `Track::getActive` of Iverson.h. -/
def Track.getActive (t : Track) : Bool := t.active

/-- Modelled from the spec: `Track::getLength` of Iverson.h. -/
def Track.getLength (t : Track) : Int := t.length

/-- Modelled from the spec: `Track::getIndex` of Iverson.h. -/
def Track.getIndex (t : Track) : Int := t.index

/-- Modelled from the spec: `Track::getSequence` of Iverson.h followed by `to_ullong()`. -/
def Track.getSequence (t : Track) : Nat := t.sequence

/-- Modelled from the spec: `Track::setActive` of Iverson.h. -/
def Track.setActive (t : Track) (a : Bool) : Track := { t with active := a }

/-- Modelled from the spec: `Track::setLength` of Iverson.h. -/
def Track.setLength (t : Track) (l : Int) : Track := { t with length := l }

/-- Modelled from the spec: `Track::setIndex` of Iverson.h. -/
def Track.setIndex (t : Track) (i : Int) : Track := { t with index := i }

/-- Modelled from the spec: `Track::setSequence` of Iverson.h; the argument is converted to
the 64-bit pattern. -/
def Track.setSequence (t : Track) (v : Int) : Track :=
  { t with sequence := (v % 18446744073709551616).toNat }

/-- Modelled from the spec: `Track::getStep` of Iverson.h, bit `i` of the pattern. -/
def Track.getStep (t : Track) (i : Int) : Bool :=
  decide (0 ≤ i) && t.sequence.testBit i.toNat

/-- Modelled from the spec: the constants of `IversonComp` (Iverson.h, not under src) that
Iverson.cpp uses: the bounds of the parameter ranges, the grid width and the track count. -/
structure Comp where
  GRID_1_1_PARAM : Int
  GRID_16_8_PARAM : Int
  ACTIVE_1_PARAM : Int
  ACTIVE_8_PARAM : Int
  PAGE_ONE_PARAM : Int
  PAGE_FOUR_PARAM : Int
  SET_LENGTH_PARAM : Int
  RESET_PARAM : Int
  GRID_WIDTH : Int
  TRACK_COUNT : Nat
deriving DecidableEq, Repr

/-- Modelled from the spec: a concrete parameter numbering for the examples: the widget code
of Iverson.cpp places the grid at `GRID_1_1_PARAM + t * 16 + s` for 8 tracks of 16 columns and
`pageLights` divides the parameter id by the grid width, so the grid is 0..127; the toggles,
page selects and buttons follow in this order. -/
def Comp.layout : Comp where
  GRID_1_1_PARAM := 0
  GRID_16_8_PARAM := 127
  ACTIVE_1_PARAM := 128
  ACTIVE_8_PARAM := 135
  PAGE_ONE_PARAM := 136
  PAGE_FOUR_PARAM := 139
  SET_LENGTH_PARAM := 142
  RESET_PARAM := 140
  GRID_WIDTH := 16
  TRACK_COUNT := 8

/-- `Iverson::MidiOutput`: the two arrays and the messages handed to `sendMessage`, oldest
first. -/
structure MidiOutput where
  currentCC : Int → Int
  currentNotes : Int → Bool
  sent : List Message

/-- `MidiOutput::reset`. -/
def MidiOutput.reset (o : MidiOutput) : MidiOutput :=
  { o with currentCC := fun _ => -1, currentNotes := fun _ => false }

/-- `MidiOutput::setCC`. -/
def MidiOutput.setCC (o : MidiOutput) (cc val : Int) : MidiOutput :=
  if val = o.currentCC cc then o
  else
    { o with
      currentCC := fun j => if j = cc then val else o.currentCC j
      sent := o.sent ++ [{ status := 0xb, note := cc, value := val }] }

/-- Modelled from the spec: `Comp::MAX_MIDI` of Iverson.h (not under src), the length of the
arrays `currentCC` and `currentNotes`: the MIDI note and controller numbers are 0..127. -/
def MAX_MIDI : Int := 128

/-- `MidiOutput::setNote`. The setters `setNote` and `setValue` of the message keep the low
seven bits of their argument. The write `currentNotes[note]` is inside the array for a note in
0..MAX_MIDI-1 only: for any other note the call has no defined result. -/
def MidiOutput.setNote (o : MidiOutput) (note velocity : Int) : Option MidiOutput :=
  let sent :=
    if velocity > 0 then
      o.sent ++ [{ status := 0x9, note := note % 128, value := velocity % 128 }]
    else if velocity = 0 then o.sent ++ [{ status := 0x9, note := note % 128, value := 0 }]
    else o.sent
  if 0 ≤ note ∧ note < MAX_MIDI then
    some
      { o with
        sent := sent
        currentNotes := fun j => if j = note then decide (velocity > 0) else o.currentNotes j }
  else none

/-- The module state that Iverson.cpp reads and writes: the tracks, page and flags of the
composite, the parameter bank, the two input queues (oldest message first), the two outputs,
the mapping table and the learn mapping. -/
structure Iverson where
  tracks : List Track
  page : Int
  isLearning : Bool
  isClearMapping : Bool
  isClearAllMapping : Bool
  isSetLength : Bool
  params : Int → ℚ
  midiInputQueues : List Message × List Message
  midiOutputs : MidiOutput × MidiOutput
  midiMappings : List MidiMapping
  midiLearnMapping : MidiMapping

/-- The first block of `doLearn`: clear all mappings. -/
def clearAllStep (s : Iverson) : Iverson :=
  if s.isClearAllMapping then { s with midiMappings := [], isClearAllMapping := false } else s

/-- The predicate of the find "parameter selected" / "existing map to this parameter". -/
def sameParam (l x : MidiMapping) : Bool := x.paramId == l.paramId

/-- The predicate of the find "midi note selected" / "existing map to this midi note". -/
def sameNote (l x : MidiMapping) : Bool :=
  x.note != -1 && x.note == l.note && x.controller == l.controller

/-- The predicate of the find "existing map to this midi cc". -/
def sameCc (l x : MidiMapping) : Bool := x.cc != -1 && x.cc == l.cc

/-- One `find_if` with the erase and the resets of the clear-mapping block. -/
def clearFound (p : MidiMapping → MidiMapping → Bool) (s : Iverson) : Iverson :=
  if s.midiMappings.any (p s.midiLearnMapping) then
    { s with
      midiMappings := s.midiMappings.eraseP (p s.midiLearnMapping)
      midiLearnMapping := s.midiLearnMapping.reset
      isClearMapping := false
      isLearning := false }
  else s

/-- The second block of `doLearn`: clear one mapping. -/
def clearMappingStep (s : Iverson) : Iverson :=
  if s.isClearMapping then
    let s1 := if s.midiLearnMapping.paramId != -1 then clearFound sameParam s else s
    clearFound sameNote s1
  else s

/-- The condition "we have all required params". -/
def isComplete (l : MidiMapping) : Bool :=
  l.controller != -1 && (l.cc != -1 || l.note != -1) && l.paramId != -1

/-- The three find-and-erase steps and the `push_back` of the commit. -/
def commit (maps : List MidiMapping) (l : MidiMapping) : List MidiMapping :=
  let m1 := maps.eraseP (sameParam l)
  let m2 := m1.eraseP (sameNote l)
  let m3 := m2.eraseP (sameCc l)
  m3 ++ [l]

/-- The start of the learn block: commit a complete learn mapping and reset it. -/
def commitStep (s : Iverson) : Iverson :=
  if isComplete s.midiLearnMapping then
    { s with
      midiMappings := commit s.midiMappings s.midiLearnMapping
      midiLearnMapping := s.midiLearnMapping.reset }
  else s

/-- The body of the drain loop of `doLearn` for one message shifted from queue `q`. -/
def learnMessage (q : Int) (l : MidiMapping) (msg : Message) : MidiMapping :=
  if msg.status = 0x9 then { l with controller := q, note := msg.note }
  else if msg.status = 0xb then { l with controller := q, cc := msg.note }
  else l

/-- The drain loops of `doLearn`: queue 0, then queue 1, each until empty. -/
def drainStep (s : Iverson) : Iverson :=
  let l0 := s.midiInputQueues.1.foldl (learnMessage 0) s.midiLearnMapping
  let l1 := s.midiInputQueues.2.foldl (learnMessage 1) l0
  { s with midiLearnMapping := l1, midiInputQueues := ([], []) }

/-- The integers `lo, lo + 1, ..., hi` of a loop `for (i = lo; i <= hi; ++i)`. -/
def idRange (lo hi : Int) : List Int :=
  (List.range (hi + 1 - lo).toNat).map (fun (k : Nat) => lo + (k : Int))

/-- The first id of the list whose parameter value is non-zero after the cast to int. -/
def firstPressed (params : Int → ℚ) (ids : List Int) : Option Int :=
  ids.find? (fun i => castInt (params i) != 0)

/-- The four parameter scans of `doLearn`, each returning at its first hit. -/
def scanStep (c : Comp) (s : Iverson) : Iverson :=
  let setId (i : Int) : Iverson := { s with midiLearnMapping := { s.midiLearnMapping with paramId := i } }
  match firstPressed s.params (idRange c.GRID_1_1_PARAM c.GRID_16_8_PARAM) with
  | some i => setId i
  | none =>
    match firstPressed s.params (idRange c.ACTIVE_1_PARAM c.ACTIVE_8_PARAM) with
    | some i => setId i
    | none =>
      match firstPressed s.params (idRange c.PAGE_ONE_PARAM c.PAGE_FOUR_PARAM) with
      | some i => setId i
      | none =>
        match firstPressed s.params [c.SET_LENGTH_PARAM, c.RESET_PARAM] with
        | some lb => setId lb
        | none => s

/-- The learn block of `doLearn`. -/
def learnStep (c : Comp) (s : Iverson) : Iverson :=
  scanStep c (drainStep (commitStep s))

/-- `Iverson::doLearn`. -/
def Iverson.doLearn (c : Comp) (s : Iverson) : Iverson :=
  let s1 := clearAllStep s
  let s2 := clearMappingStep s1
  if s2.isLearning then learnStep c s2 else s2

/-- `params[i].setValue (v)`. -/
def setValue (params : Int → ℚ) (i : Int) (v : ℚ) : Int → ℚ :=
  fun j => if j = i then v else params j

/-- The body of the loop of `midiToParm` for one message shifted from queue `q`. -/
def dispatchMessage (q : Int) (maps : List MidiMapping) (params : Int → ℚ) (msg : Message) :
    Int → ℚ :=
  if msg.status = 0x8 then
    maps.foldl (fun p m => if m.note = msg.note ∧ m.controller = q then setValue p m.paramId 0 else p)
      params
  else if msg.status = 0x9 then
    maps.foldl
      (fun p m =>
        if m.note = msg.note ∧ m.controller = q then
          setValue p m.paramId (if msg.value = 0 then 0 else 1)
        else p)
      params
  else if msg.status = 0xb then
    maps.foldl
      (fun p m =>
        if m.cc = msg.note ∧ m.controller = q then
          setValue p m.paramId (if msg.value = 0 then 0 else 1)
        else p)
      params
  else params

/-- `Iverson::midiToParm`: queue 0, then queue 1, each until empty. -/
def Iverson.midiToParm (s : Iverson) : Iverson :=
  let p0 := s.midiInputQueues.1.foldl (dispatchMessage 0 s.midiMappings) s.params
  let p1 := s.midiInputQueues.2.foldl (dispatchMessage 1 s.midiMappings) p0
  { s with params := p1, midiInputQueues := ([], []) }

/-- The struct `MidiFeedbackVelocity` with its initialisers. -/
structure MidiFeedbackVelocity where
  none : Int := 0
  activeStep : Int := 1
  loop : Int := 3
  loopStep : Int := 5
  index : Int := 5
  indexStep : Int := 3
deriving DecidableEq, Repr

/-- The global `midiFeedback`. -/
def midiFeedback : MidiFeedbackVelocity := {}

/-- The read `iverson->tracks[t]`; in the source an index outside the tracks is undefined,
here it reads a default track. -/
def Iverson.track (s : Iverson) (t : Int) : Track :=
  if 0 ≤ t then s.tracks.getD t.toNat default else default

/-- Modelled from the spec: `getStateGridIndex (page, t, i)` of Iverson.h (not under src):
whether the step of track `t` shown at column `i` of the page is active. -/
def Iverson.getStateGridIndex (c : Comp) (s : Iverson) (page t i : Int) : Bool :=
  (s.track t).getStep (i + page * c.GRID_WIDTH)

/-- The body of the loop of `pageLights` for one mapping: the `setNote` call it makes, as
(controller, note, velocity), or nothing when no branch applies. -/
def pageLightsNote (c : Comp) (s : Iverson) (mm : MidiMapping) : Option (Int × Int × Int) :=
  if !s.isLearning then
    if mm.paramId ≤ c.GRID_16_8_PARAM then
      let t := Int.tdiv mm.paramId c.GRID_WIDTH
      let i := mm.paramId - t * c.GRID_WIDTH
      let midiColor :=
        if (s.track t).getIndex ≠ i + s.page * c.GRID_WIDTH then
          if (s.track t).getLength - 1 = i + s.page * c.GRID_WIDTH then
            (if s.getStateGridIndex c s.page t i then midiFeedback.loopStep else midiFeedback.loop)
          else
            (if s.getStateGridIndex c s.page t i then midiFeedback.activeStep
             else midiFeedback.none)
        else midiFeedback.index
      some (mm.controller, mm.note, midiColor)
    else if mm.paramId ≥ c.ACTIVE_1_PARAM ∧ mm.paramId ≤ c.ACTIVE_8_PARAM then
      let t := mm.paramId - c.ACTIVE_1_PARAM
      some (mm.controller, mm.note, if (s.track t).getActive then 1 else 0)
    else if mm.paramId ≥ c.PAGE_ONE_PARAM ∧ mm.paramId ≤ c.PAGE_FOUR_PARAM then
      let pageIndex := mm.paramId - c.PAGE_ONE_PARAM
      some (mm.controller, mm.note, if pageIndex = s.page then 1 else 0)
    else if mm.paramId = c.SET_LENGTH_PARAM then
      some (mm.controller, mm.note, if s.isSetLength then 1 else 0)
    else none
  else some (mm.controller, mm.note, 1)

/-- The call `midiOutputs[controller].setNote (note, velocity)`; the vector holds two outputs,
so a controller other than 0 and 1 is outside it and the call has no defined result. -/
def setNoteOn (outs : MidiOutput × MidiOutput) (controller note velocity : Int) :
    Option (MidiOutput × MidiOutput) :=
  if controller = 0 then (outs.1.setNote note velocity).map (fun o => (o, outs.2))
  else if controller = 1 then (outs.2.setNote note velocity).map (fun o => (outs.1, o))
  else none

/-- One pass of the loop of `pageLights`: the call for the mapping `mm`, if a branch applies. -/
def pageLightsStep (c : Comp) (s : Iverson) (outs : MidiOutput × MidiOutput)
    (mm : MidiMapping) : Option (MidiOutput × MidiOutput) :=
  match pageLightsNote c s mm with
  | some (k, n, v) => setNoteOn outs k n v
  | none => some outs

/-- The loop of `pageLights` over the mappings `maps`, in table order; it has a result when
every call has one. -/
def pageLightsLoop (c : Comp) (s : Iverson) :
    List MidiMapping → MidiOutput × MidiOutput → Option (MidiOutput × MidiOutput)
  | [], outs => some outs
  | mm :: rest, outs =>
    match pageLightsStep c s outs mm with
    | some outs1 => pageLightsLoop c s rest outs1
    | none => none

/-- `Iverson::pageLights`. -/
def Iverson.pageLights (c : Comp) (s : Iverson) : Option Iverson :=
  (pageLightsLoop c s s.midiMappings s.midiOutputs).map
    (fun outs => { s with midiOutputs := outs })

/-- A JSON document as jansson holds it, restricted to the value kinds Iverson.cpp uses. -/
inductive Json where
  | null
  | boolean (b : Bool)
  | integer (n : Int)
  | array (items : List Json)
  | object (members : List (String × Json))

/-- `json_object_get`: the member of that key, NULL for a NULL or non-object value. -/
def json_object_get (j : Option Json) (key : String) : Option Json :=
  match j with
  | some (Json.object members) => members.lookup key
  | _ => none

/-- `json_array_get`: the item at that index, NULL when there is none. -/
def json_array_get (j : Option Json) (i : Nat) : Option Json :=
  match j with
  | some (Json.array items) => items[i]?
  | _ => none

/-- `json_array_size`: 0 for a NULL or non-array value. -/
def json_array_size (j : Option Json) : Nat :=
  match j with
  | some (Json.array items) => items.length
  | _ => 0

/-- `json_integer_value`: 0 for a non-integer value. -/
def json_integer_value (j : Json) : Int :=
  match j with
  | Json.integer n => n
  | _ => 0

/-- `json_boolean_value`: whether the value is JSON true. -/
def json_boolean_value (j : Json) : Bool :=
  match j with
  | Json.boolean b => b
  | _ => false

/-- Conversion to a 32-bit `int`. -/
def toInt32 (x : Int) : Int := (x + 2147483648) % 4294967296 - 2147483648

/-- Conversion to `int64_t`. -/
def toInt64 (x : Int) : Int :=
  (x + 9223372036854775808) % 18446744073709551616 - 9223372036854775808

/-- Conversion to a 64-bit unsigned value. -/
def toUInt64 (x : Int) : Int := x % 18446744073709551616

/-- The stored high word `(sequence >> 32u) & 0xffffffff`. -/
def sequenceHi (t : Track) : Nat := (t.getSequence >>> 32) &&& 0xffffffff

/-- The stored low word `sequence & 0xffffffff`. -/
def sequenceLow (t : Track) : Nat := t.getSequence &&& 0xffffffff

/-- The object stored for one mapping. -/
def mappingToJson (m : MidiMapping) : Json :=
  Json.object
    [("controller", Json.integer m.controller), ("note", Json.integer m.note),
     ("cc", Json.integer m.cc), ("paramId", Json.integer m.paramId)]

/-- `Iverson::dataToJson`, without the four members written by the host MIDI ports. -/
def Iverson.dataToJson (c : Comp) (s : Iverson) : Json :=
  let perTrack (f : Track → Json) : Json :=
    Json.array ((List.range c.TRACK_COUNT).map (fun i => f (s.tracks.getD i default)))
  Json.object
    [("actives", perTrack (fun t => Json.boolean t.getActive)),
     ("lengths", perTrack (fun t => Json.integer t.getLength)),
     ("index", perTrack (fun t => Json.integer t.getIndex)),
     ("sequenceHi", perTrack (fun t => Json.integer (sequenceHi t))),
     ("sequenceLow", perTrack (fun t => Json.integer (sequenceLow t))),
     ("midiBinding", Json.array (s.midiMappings.map mappingToJson))]

/-- One loop `for (t = 0; t < TRACK_COUNT; ++t)` of `dataFromJson` over the member `key`:
track `t` is updated by `f` with item `t` of the array when both the member and the item
exist. -/
def loadTracks (c : Comp) (rootJ : Option Json) (key : String) (f : Track → Json → Track)
    (tracks : List Track) : List Track :=
  let arrJ := json_object_get rootJ key
  tracks.mapIdx (fun t tr =>
    if t < c.TRACK_COUNT then
      match arrJ with
      | some _ =>
        match json_array_get arrJ t with
        | some itemJ => f tr itemJ
        | none => tr
      | none => tr
    else tr)

/-- The update of the sequenceHi loop: `to_ulong()` plus the shifted high word, in 64 bits. -/
def addSequenceHi (tr : Track) (itemJ : Json) : Track :=
  tr.setSequence (toUInt64 ((tr.getSequence : Int) + toInt64 (json_integer_value itemJ * 4294967296)))

/-- `midiMappings.resize (n)`: keep the first `n` entries, fill up with fresh mappings. -/
def resize (maps : List MidiMapping) (n : Nat) : List MidiMapping :=
  maps.take n ++ List.replicate (n - maps.length) (default : MidiMapping)

/-- The assignments of one iteration of the midiBinding loop. -/
def loadMapping (mm : Json) (m : MidiMapping) : MidiMapping :=
  let m1 :=
    match json_object_get (some mm) "controller" with
    | some controllerJ => { m with controller := toInt32 (json_integer_value controllerJ) }
    | none => m
  let m2 :=
    match json_object_get (some mm) "note" with
    | some noteJ => { m1 with note := toInt32 (json_integer_value noteJ) }
    | none => m1
  let m3 :=
    match json_object_get (some mm) "cc" with
    | some ccJ => { m2 with cc := toInt32 (json_integer_value ccJ) }
    | none => m2
  match json_object_get (some mm) "paramId" with
  | some paramJ => { m3 with paramId := toInt32 (json_integer_value paramJ) }
  | none => m3

/-- The midiBinding part of `dataFromJson`: the resize and the loop over the items. -/
def loadMappings (rootJ : Option Json) (maps : List MidiMapping) : List MidiMapping :=
  let midiBindingJ := json_object_get rootJ "midiBinding"
  (resize maps (json_array_size midiBindingJ)).mapIdx (fun i m =>
    match midiBindingJ with
    | some _ =>
      match json_array_get midiBindingJ i with
      | some mm => loadMapping mm m
      | none => m
    | none => m)

/-- `Iverson::dataFromJson`, without the four members read by the host MIDI ports. -/
def Iverson.dataFromJson (c : Comp) (s : Iverson) (rootJ : Option Json) : Iverson :=
  let t1 := loadTracks c rootJ "actives" (fun tr j => tr.setActive (json_boolean_value j)) s.tracks
  let t2 := loadTracks c rootJ "lengths" (fun tr j => tr.setLength (json_integer_value j)) t1
  let t3 := loadTracks c rootJ "index" (fun tr j => tr.setIndex (json_integer_value j)) t2
  let t4 := loadTracks c rootJ "sequenceLow" (fun tr j => tr.setSequence (json_integer_value j)) t3
  let t5 := loadTracks c rootJ "sequenceHi" addSequenceHi t4
  { s with tracks := t5, midiMappings := loadMappings rootJ s.midiMappings }

/-- What the surroundings of the module may do between two `doLearn` cycles: queue any
messages, set any parameter values and set the three engine flags. -/
structure CycleInput where
  queues : List Message × List Message
  params : Int → ℚ
  isLearning : Bool
  isClearMapping : Bool
  isClearAllMapping : Bool

/-- One cycle: the surroundings act, then `doLearn` runs. -/
def cycle (c : Comp) (s : Iverson) (i : CycleInput) : Iverson :=
  Iverson.doLearn c
    { s with
      midiInputQueues := i.queues
      params := i.params
      isLearning := i.isLearning
      isClearMapping := i.isClearMapping
      isClearAllMapping := i.isClearAllMapping }

/-- Any sequence of `doLearn` cycles. -/
def runCycles (c : Comp) (s : Iverson) (inputs : List CycleInput) : Iverson :=
  inputs.foldl (cycle c) s

/-- A freshly constructed `MidiOutput`. -/
def MidiOutput.fresh : MidiOutput :=
  { currentCC := fun _ => -1, currentNotes := fun _ => false, sent := [] }

/-- A module state with no tracks data, no mappings, all flags off, all parameters 0 and
empty queues; the examples below change single fields of it. -/
def Iverson.idle : Iverson :=
  { tracks := List.replicate 8 default
    page := 0
    isLearning := false
    isClearMapping := false
    isClearAllMapping := false
    isSetLength := false
    params := fun _ => 0
    midiInputQueues := ([], [])
    midiOutputs := (MidiOutput.fresh, MidiOutput.fresh)
    midiMappings := []
    midiLearnMapping := {} }

/-- The learn scenario: learning on, a note-on for note 60 queued on controller 0 and the
grid parameter 5 held at 1. -/
def learnScenario : Iverson :=
  { Iverson.idle with
    isLearning := true
    params := fun i => if i = 5 then 1 else 0
    midiInputQueues := ([{ status := 0x9, note := 60, value := 100 }], []) }

/-- A table of three committed mappings with the clear-all flag raised. -/
def clearAllScenario : Iverson :=
  { Iverson.idle with
    isClearAllMapping := true
    midiMappings :=
      [{ controller := 0, note := 60, cc := -1, paramId := 5 },
       { controller := 0, note := 61, cc := -1, paramId := 6 },
       { controller := 1, note := -1, cc := 20, paramId := 7 }] }

/-- Learning with CC 20 of controller 0 bound to parameter 5 and the complete learn mapping
CC 20 of controller 1 for parameter 6. -/
def otherControllerScenario : Iverson :=
  { Iverson.idle with
    isLearning := true
    midiMappings := [{ controller := 0, note := -1, cc := 20, paramId := 5 }]
    midiLearnMapping := { controller := 1, note := -1, cc := 20, paramId := 6 } }

/-- Two learn cycles that bind CC 20 of controller 0 to parameter 5 and capture CC 20 of
controller 1 for parameter 6: the first queues the CC on controller 0 with parameter 5 held,
the second queues the CC on controller 1 with parameter 6 held. -/
def otherControllerCycles : List CycleInput :=
  [{ queues := ([{ status := 0xb, note := 20, value := 127 }], [])
     params := fun i => if i = 5 then 1 else 0
     isLearning := true, isClearMapping := false, isClearAllMapping := false },
   { queues := ([], [{ status := 0xb, note := 20, value := 127 }])
     params := fun i => if i = 6 then 1 else 0
     isLearning := true, isClearMapping := false, isClearAllMapping := false }]

/-- Learning with note 60 of controller 0 bound to parameter 5 (and CC 20 of controller 1 to
parameter 7) and the complete learn mapping note 60 of controller 0 for parameter 6. -/
def rebindScenario : Iverson :=
  { Iverson.idle with
    isLearning := true
    midiMappings :=
      [{ controller := 0, note := 60, cc := -1, paramId := 5 },
       { controller := 1, note := -1, cc := 20, paramId := 7 }]
    midiLearnMapping := { controller := 0, note := 60, cc := -1, paramId := 6 } }

/-- The dispatch scenario: CC 20 of controller 1 bound to parameter 7, parameter 7 at the
value `before`, and one CC 20 message of value `v` queued on controller 1. -/
def dispatchScenario (before : ℚ) (v : Int) : Iverson :=
  { Iverson.idle with
    params := fun i => if i = 7 then before else 0
    midiInputQueues := ([], [{ status := 0xb, note := 20, value := v }])
    midiMappings := [{ controller := 1, note := -1, cc := 20, paramId := 7 }] }

/-- The feedback scenario: track 0 with length 4, steps 0 and 2 active, play index 1, page 0;
pad 40 of controller 0 bound to the grid parameter `column` of track 0. -/
def feedbackScenario (column : Int) : Iverson :=
  { Iverson.idle with
    tracks :=
      { active := true, length := 4, index := 1, sequence := 0b101 } :: List.replicate 7 default
    midiMappings := [{ controller := 0, note := 40, cc := -1, paramId := column }] }

/-- A saved state whose track 0 holds the all-ones pattern and whose track 1 holds a pattern
with bit 63 clear and bit 31 set. -/
def savedScenario : Iverson :=
  { Iverson.idle with
    tracks :=
      { active := true, length := 64, index := 63, sequence := 0xFFFFFFFFFFFFFFFF } ::
      { active := false, length := 33, index := -1, sequence := 0x7000000080000001 } ::
      List.replicate 6 default }

/-- A state to load into, whose tracks all hold another pattern. -/
def priorScenario : Iverson :=
  { Iverson.idle with
    tracks := List.replicate 8 { active := true, length := 7, index := 2, sequence := 0xABCDEF0123456789 } }

/-- The uniqueness invariants of the mapping table: no two entries with equal paramId, no two
with equal (controller, note) where the note is set, no two with equal (controller, cc) where
the cc is set. -/
def UniqueBindings (maps : List MidiMapping) : Prop :=
  maps.Pairwise (fun a b => a.paramId ≠ b.paramId) ∧
  maps.Pairwise (fun a b => a.note ≠ -1 → ¬ (a.controller = b.controller ∧ a.note = b.note)) ∧
  maps.Pairwise (fun a b => a.cc ≠ -1 → ¬ (a.controller = b.controller ∧ a.cc = b.cc))

instance (maps : List MidiMapping) : Decidable (UniqueBindings maps) := by
  unfold UniqueBindings
  exact inferInstance

/-- The invariant the commit maintains: as `UniqueBindings`, with a set cc number unique over
both controllers. -/
def UniqueControls (maps : List MidiMapping) : Prop :=
  maps.Pairwise (fun a b => a.paramId ≠ b.paramId) ∧
  maps.Pairwise (fun a b => a.note ≠ -1 → ¬ (a.controller = b.controller ∧ a.note = b.note)) ∧
  maps.Pairwise (fun a b => a.cc ≠ -1 → a.cc ≠ b.cc)


/-- The value range of a C `int`. -/
def isInt32 (x : Int) : Prop := -2147483648 ≤ x ∧ x < 2147483648

instance (x : Int) : Decidable (isInt32 x) := by
  unfold isInt32
  exact inferInstance

/-- A mapping whose four `int` fields are in the range of the type. -/
def MidiMapping.wellTyped (m : MidiMapping) : Prop :=
  isInt32 m.controller ∧ isInt32 m.note ∧ isInt32 m.cc ∧ isInt32 m.paramId

instance (m : MidiMapping) : Decidable m.wellTyped := by
  unfold MidiMapping.wellTyped
  exact inferInstance

/-- A saved state with three mappings, one of them with only the default fields. -/
def savedMappingsScenario : Iverson :=
  { Iverson.idle with
    midiMappings :=
      [{ controller := 0, note := 60, cc := -1, paramId := 5 },
       { controller := -1, note := -1, cc := -1, paramId := -1 },
       { controller := 1, note := -1, cc := 20, paramId := 130 }] }

/-- A state to load into, whose table holds four other mappings. -/
def priorMappingsScenario : Iverson :=
  { Iverson.idle with
    midiMappings := List.replicate 4 { controller := 1, note := 1, cc := 1, paramId := 1 } }

/-- A document that holds only the member sequenceLow, with the item 1 for each of 8 tracks. -/
def lowOnlyDocument : Json :=
  Json.object [("sequenceLow", Json.array (List.replicate 8 (Json.integer 1)))]

/-- A document that holds only the member lengths, with the item 16 for each of 8 tracks. -/
def lengthsOnlyDocument : Json :=
  Json.object [("lengths", Json.array (List.replicate 8 (Json.integer 16)))]

/-- Two learn cycles from the idle module: in the first a note-on for note 60 and a CC 20
arrive on controller 0 while the grid parameter 5 is held, the second runs with nothing new. -/
def noteAndCcCycles : List CycleInput :=
  [{ queues := ([{ status := 0x9, note := 60, value := 100 },
                 { status := 0xb, note := 20, value := 127 }], [])
     params := fun i => if i = 5 then 1 else 0
     isLearning := true, isClearMapping := false, isClearAllMapping := false },
   { queues := ([], [])
     params := fun _ => 0
     isLearning := true, isClearMapping := false, isClearAllMapping := false }]

/-- Whether the message `msg` shifted from queue `q` addresses the mapping `m`: the same
controller, and the note of a note-off or note-on, or the number of a CC. -/
def drives (q : Int) (msg : Message) (m : MidiMapping) : Prop :=
  m.controller = q ∧
    (((msg.status = 0x8 ∨ msg.status = 0x9) ∧ m.note = msg.note) ∨
      (msg.status = 0xb ∧ m.cc = msg.note))

instance (q : Int) (msg : Message) (m : MidiMapping) : Decidable (drives q msg m) := by
  unfold drives
  exact inferInstance

/-- Two mappings of controller 0, one bound only by note 60 and one bound only by CC 60, with
a note-on for note 60 and a message of status 0xe queued on controller 0. -/
def frameScenario : Iverson :=
  { Iverson.idle with
    params := fun _ => 1 / 2
    midiInputQueues :=
      ([{ status := 0x9, note := 60, value := 0 }, { status := 0xe, note := 60, value := 0 }], [])
    midiMappings :=
      [{ controller := 0, note := 60, cc := -1, paramId := 5 },
       { controller := 0, note := -1, cc := 60, paramId := 6 }] }

/-- The clear-mapping cycle after the menu action: the table binds note 60 of controller 0 to
parameter 5, the learn mapping holds note 60 of controller 0 and the unmapped parameter 9. -/
def clearByNoteScenario : Iverson :=
  { Iverson.idle with
    isLearning := true
    isClearMapping := true
    midiMappings := [{ controller := 0, note := 60, cc := -1, paramId := 5 }]
    midiLearnMapping := { controller := 0, note := 60, cc := -1, paramId := 9 } }

/-- A clear-mapping cycle whose learn mapping names the mapped parameter 5 and the note 61 of
another entry. -/
def clearByParamScenario : Iverson :=
  { Iverson.idle with
    isLearning := true
    isClearMapping := true
    midiMappings :=
      [{ controller := 0, note := 61, cc := -1, paramId := 6 },
       { controller := 0, note := 60, cc := -1, paramId := 5 }]
    midiLearnMapping := { controller := 0, note := 61, cc := -1, paramId := 5 } }

/-- The parameters `doLearn` scans: the grid steps, the track toggles, the page selects,
SET_LENGTH and RESET. -/
def Comp.learnable (c : Comp) (i : Int) : Prop :=
  (c.GRID_1_1_PARAM ≤ i ∧ i ≤ c.GRID_16_8_PARAM) ∨
  (c.ACTIVE_1_PARAM ≤ i ∧ i ≤ c.ACTIVE_8_PARAM) ∨
  (c.PAGE_ONE_PARAM ≤ i ∧ i ≤ c.PAGE_FOUR_PARAM) ∨
  i = c.SET_LENGTH_PARAM ∨ i = c.RESET_PARAM

instance (c : Comp) (i : Int) : Decidable (c.learnable i) := by
  unfold Comp.learnable
  exact inferInstance

/-- A learn cycle with a complete learn mapping, one committed mapping, empty queues and all
parameters at 0. -/
def commitScenario : Iverson :=
  { Iverson.idle with
    isLearning := true
    midiMappings := [{ controller := 0, note := 60, cc := -1, paramId := 5 }]
    midiLearnMapping := { controller := 1, note := -1, cc := 20, paramId := 130 } }

end sspo

namespace Zilah

/-- The argument of a call. -/
def Call.arg : Call → Nat
  | .msb v => v
  | .lsb v => v

/-- Apply one call to the aggregator without zeroing. -/
def LsbOrMSbWithoutZeroing.call (a : LsbOrMSbWithoutZeroing) : Call → LsbOrMSbWithoutZeroing
  | .msb v => a.setMsb v
  | .lsb v => a.setLsb v

/-- The aggregator without zeroing after a sequence of calls on a freshly constructed one. -/
def LsbOrMSbWithoutZeroing.run (calls : List Call) : LsbOrMSbWithoutZeroing :=
  calls.foldl LsbOrMSbWithoutZeroing.call {}

/-- Apply one call to `MsbFirstWaitForLsb`. -/
def MsbFirstWaitForLsb.call (a : MsbFirstWaitForLsb) : Call → MsbFirstWaitForLsb
  | .msb v => a.setMsb v
  | .lsb v => a.setLsb v

/-- `MsbFirstWaitForLsb` after a sequence of calls on a freshly constructed one. -/
def MsbFirstWaitForLsb.run (calls : List Call) : MsbFirstWaitForLsb :=
  calls.foldl MsbFirstWaitForLsb.call {}

end Zilah


namespace sspo

/-- The messages of both queues in the order the drain loops shift them, each with the index
of its queue. -/
def drainOrder (queues : List Message × List Message) : List (Int × Message) :=
  queues.1.map (fun msg => ((0 : Int), msg)) ++ queues.2.map (fun msg => ((1 : Int), msg))

/-- The parameters in the order the scans of `doLearn` visit them. -/
def scanOrder (c : Comp) : List Int :=
  idRange c.GRID_1_1_PARAM c.GRID_16_8_PARAM ++ idRange c.ACTIVE_1_PARAM c.ACTIVE_8_PARAM ++
    idRange c.PAGE_ONE_PARAM c.PAGE_FOUR_PARAM ++ [c.SET_LENGTH_PARAM, c.RESET_PARAM]

/-- A learn scan with the track toggle 130 and the grid steps 9 and 3 pressed, and a learn
mapping that holds parameter 77. -/
def scanScenario : Iverson :=
  { Iverson.idle with
    isLearning := true
    params := fun i => if i = 130 ∨ i = 9 ∨ i = 3 then 1 else 0
    midiLearnMapping := { controller := -1, note := -1, cc := -1, paramId := 77 } }

/-- A drain with a note-on 60, a CC 20 and a note-off on controller 0 and a note-on 61 on
controller 1. -/
def drainScenario : Iverson :=
  { Iverson.idle with
    isLearning := true
    midiInputQueues :=
      ([{ status := 0x9, note := 60, value := 100 }, { status := 0xb, note := 20, value := 1 },
        { status := 0x8, note := 62, value := 0 }],
       [{ status := 0x9, note := 61, value := 100 }]) }

/-- The part of `Iverson::process` before the call of `iverson->step()` (Iverson.h, not under
src): `doLearn`, then `midiToParm` when `paramMidiUpdateDivider.process()` of the host clock
divider returns true; that result is the argument `midiDue`. -/
def Iverson.processMidi (c : Comp) (s : Iverson) (midiDue : Bool) : Iverson :=
  let s1 := s.doLearn c
  if midiDue then s1.midiToParm else s1

/-- A cycle with the clear-all flag and the learn flag both set, three committed mappings, a
complete learn mapping and a note-on queued on controller 0. -/
def clearAllWhileLearningScenario : Iverson :=
  { clearAllScenario with
    isLearning := true
    midiInputQueues := ([{ status := 0x9, note := 61, value := 100 }], [])
    midiLearnMapping := { controller := 1, note := -1, cc := 20, paramId := 130 } }

/-- A learn cycle with note 60 of controller 0 bound to parameter 5 (at 1/2) and a note-on for
note 60 queued on controller 0. -/
def divertScenario : Iverson :=
  { Iverson.idle with
    isLearning := true
    params := fun i => if i = 5 then 1 / 2 else 0
    midiInputQueues := ([{ status := 0x9, note := 60, value := 100 }], [])
    midiMappings := [{ controller := 0, note := 60, cc := -1, paramId := 5 }] }

/-- What keeps the indexing with a table entry in bounds: the controller is 0 or 1 and the
paramId is one of the parameters `doLearn` scans. -/
def entryInBounds (c : Comp) (m : MidiMapping) : Prop :=
  (m.controller = 0 ∨ m.controller = 1) ∧ c.learnable m.paramId

instance (c : Comp) (m : MidiMapping) : Decidable (entryInBounds c m) := by
  unfold entryInBounds
  exact inferInstance

/-- The same for the learn mapping, whose fields may also be unset. -/
def pendingInBounds (c : Comp) (l : MidiMapping) : Prop :=
  (l.controller = -1 ∨ l.controller = 0 ∨ l.controller = 1) ∧
    (l.paramId = -1 ∨ c.learnable l.paramId)

instance (c : Comp) (l : MidiMapping) : Decidable (pendingInBounds c l) := by
  unfold pendingInBounds
  exact inferInstance

/-- Modelled from the spec: what Iverson.cpp relies on for the constants of Iverson.h (not
under src): the grid parameters start at 0 and fill `TRACK_COUNT` rows of `GRID_WIDTH`, there
is one toggle per track, and the toggles, page selects and the two buttons come after the
grid. -/
def Comp.gridFirst (c : Comp) : Prop :=
  c.GRID_1_1_PARAM = 0 ∧ 0 < c.GRID_WIDTH ∧ c.GRID_1_1_PARAM ≤ c.GRID_16_8_PARAM ∧
    c.GRID_16_8_PARAM < c.GRID_WIDTH * c.TRACK_COUNT ∧
    c.GRID_16_8_PARAM < c.ACTIVE_1_PARAM ∧ c.ACTIVE_8_PARAM - c.ACTIVE_1_PARAM < c.TRACK_COUNT ∧
    c.GRID_16_8_PARAM < c.PAGE_ONE_PARAM ∧ c.GRID_16_8_PARAM < c.SET_LENGTH_PARAM ∧
    c.GRID_16_8_PARAM < c.RESET_PARAM

instance (c : Comp) : Decidable c.gridFirst := by
  unfold Comp.gridFirst
  exact inferInstance

/-- Four cycles from the idle module: two learn cycles bind note 60 of controller 0 to
parameter 5, then, with `isClearMapping` and `isLearning` set as the menu action "Clear Midi
Mapping" sets them, a note-on for the unmapped note 62 arrives while the unmapped parameter 9
is held. -/
def clearModeCycles : List CycleInput :=
  [{ queues := ([{ status := 0x9, note := 60, value := 100 }], [])
     params := fun i => if i = 5 then 1 else 0
     isLearning := true, isClearMapping := false, isClearAllMapping := false },
   { queues := ([], [])
     params := fun _ => 0
     isLearning := true, isClearMapping := false, isClearAllMapping := false },
   { queues := ([{ status := 0x9, note := 62, value := 100 }], [])
     params := fun i => if i = 9 then 1 else 0
     isLearning := true, isClearMapping := true, isClearAllMapping := false }]

/-- Two learn cycles from the idle module that bind CC 20 of controller 1 to the grid
parameter 7. -/
def ccLearnCycles : List CycleInput :=
  [{ queues := ([], [{ status := 0xb, note := 20, value := 127 }])
     params := fun i => if i = 7 then 1 else 0
     isLearning := true, isClearMapping := false, isClearAllMapping := false },
   { queues := ([], [])
     params := fun _ => 0
     isLearning := true, isClearMapping := false, isClearAllMapping := false }]

end sspo

namespace Zilah

/-- The three aggregator banks of the module `Zilah`, 32 registers each. -/
structure ZilahModule where
  midi10Aggregator : List LsbOrMSbWithZeroingMidi10
  lsbOrMsbWithoutZeroing : List LsbOrMSbWithoutZeroing
  msbFirstWaitForLsb : List MsbFirstWaitForLsb
deriving DecidableEq, Repr

/-- The module after construction: every bank holds 32 fresh aggregators. -/
def ZilahModule.fresh : ZilahModule :=
  { midi10Aggregator := List.replicate 32 {}
    lsbOrMsbWithoutZeroing := List.replicate 32 {}
    msbFirstWaitForLsb := List.replicate 32 {} }

/-- The body of the loop of `Zilah::process` for one message shifted from the queue, without
the LED pulses. -/
def ZilahModule.processMessage (z : ZilahModule) (msg : sspo.Message) : ZilahModule :=
  if msg.status = 0xb then
    let cc := msg.note
    let val := msg.value
    if cc < 32 then
      { midi10Aggregator :=
          List.modify (fun a => a.setMsb val.toNat) cc.toNat z.midi10Aggregator
        lsbOrMsbWithoutZeroing :=
          List.modify (fun a => a.setMsb val.toNat) cc.toNat z.lsbOrMsbWithoutZeroing
        msbFirstWaitForLsb :=
          List.modify (fun a => a.setMsb val.toNat) cc.toNat z.msbFirstWaitForLsb }
    else if cc < 64 then
      { midi10Aggregator :=
          List.modify (fun a => a.setLsb val.toNat) (cc - 32).toNat z.midi10Aggregator
        lsbOrMsbWithoutZeroing :=
          List.modify (fun a => a.setLsb val.toNat) (cc - 32).toNat z.lsbOrMsbWithoutZeroing
        msbFirstWaitForLsb :=
          List.modify (fun a => a.setLsb val.toNat) (cc - 32).toNat z.msbFirstWaitForLsb }
    else z
  else z

/-- The message loop of `Zilah::process`: the queue is shifted until empty. -/
def ZilahModule.process (z : ZilahModule) (queue : List sspo.Message) : ZilahModule :=
  queue.foldl ZilahModule.processMessage z

end Zilah

namespace sspo

/-- The velocity that the specification gives for a grid-step mapping of parameter `paramId`,
in its words: with track t = paramId div GRID_WIDTH, column i = paramId mod GRID_WIDTH and step
position p = i + page * GRID_WIDTH, INDEX (5) if p is the play index of track t, whether or not
the step is active; otherwise, if p = length - 1, LOOP_STEP (5) when step p is active and
LOOP (3) when it is not; otherwise ACTIVE_STEP (1) when step p is active and NONE (0) when it is
not. -/
def specGridVelocity (c : Comp) (s : Iverson) (paramId : Int) : Int :=
  if paramId % c.GRID_WIDTH + s.page * c.GRID_WIDTH
      = (s.track (paramId / c.GRID_WIDTH)).getIndex then 5
  else if paramId % c.GRID_WIDTH + s.page * c.GRID_WIDTH
      = (s.track (paramId / c.GRID_WIDTH)).getLength - 1 then
    (if (s.track (paramId / c.GRID_WIDTH)).getStep
        (paramId % c.GRID_WIDTH + s.page * c.GRID_WIDTH) then 5 else 3)
  else
    (if (s.track (paramId / c.GRID_WIDTH)).getStep
        (paramId % c.GRID_WIDTH + s.page * c.GRID_WIDTH) then 1 else 0)

/-- The note messages that the loop of `pageLights` hands to the output of controller `k` for
the mappings `maps`, in table order: one message of status 0x9 for each call that
`pageLightsNote` gives for a mapping of that controller. -/
def pageLightsSent (c : Comp) (s : Iverson) (k : Int) (maps : List MidiMapping) :
    List Message :=
  ((maps.filterMap (pageLightsNote c s)).filter (fun call => decide (call.1 = k))).map
    (fun call => { status := 0x9, note := call.2.1, value := call.2.2 })

/-- Whether every mapping of the table names one of the two outputs and a note in 0..127. -/
def notesInRange (maps : List MidiMapping) : Prop :=
  ∀ mm ∈ maps, (mm.controller = 0 ∨ mm.controller = 1) ∧ 0 ≤ mm.note ∧ mm.note ≤ 127

instance (maps : List MidiMapping) : Decidable (notesInRange maps) := by
  unfold notesInRange
  exact inferInstance

/-- The feedback scenario with a table of four pads: track 0 with length 4, steps 0 and 2
active, play index 1, page 0; pads 40, 41 and 42 of controller 0 bound to the columns 3, 1
and 2 of track 0, and pad 50 of controller 1 bound to column 0. -/
def feedbackTableScenario : Iverson :=
  { feedbackScenario 3 with
    midiMappings :=
      [{ controller := 0, note := 40, cc := -1, paramId := 3 },
       { controller := 0, note := 41, cc := -1, paramId := 1 },
       { controller := 1, note := 50, cc := -1, paramId := 0 },
       { controller := 0, note := 42, cc := -1, paramId := 2 }] }

/-- The value that the loop body of `midiToParm` writes for the message `msg`: 0 for a
note-off, and for a note-on or a CC `msg.getValue() == 0 ? 0 : 1`. -/
def dispatchValue (msg : Message) : ℚ :=
  if msg.status = 0x8 then 0 else if msg.value = 0 then 0 else 1

/-- Whether the message `msg` shifted from queue `q` sets parameter `i`: whether it addresses
a mapping of the table `maps` whose parameter is `i`. -/
def setsParam (maps : List MidiMapping) (i : Int) (q : Int) (msg : Message) : Prop :=
  ∃ m ∈ maps, drives q msg m ∧ m.paramId = i

instance (maps : List MidiMapping) (i : Int) (q : Int) (msg : Message) :
    Decidable (setsParam maps i q msg) := by
  unfold setsParam
  exact inferInstance

/-- A dispatch with several messages per queue: pad 60 of controller 0 bound to parameter 3,
CC 20 of controller 1 bound to parameter 7, pad 61 of controller 1 bound to parameter 3 too and
pad 60 of controller 0 bound to parameter 9 too; parameters 3 and 9 at 0 and parameter 7 at 1;
on controller 0 a note-on 60 of velocity 100 and then an unbound CC 99, on controller 1 a CC 20
of value 0, then an unbound note-on 62 and a message of status 0xc. -/
def dispatchQueueScenario : Iverson :=
  { Iverson.idle with
    params := fun i => if i = 7 then 1 else 0
    midiInputQueues :=
      ([{ status := 0x9, note := 60, value := 100 }, { status := 0xb, note := 99, value := 1 }],
       [{ status := 0xb, note := 20, value := 0 }, { status := 0x9, note := 62, value := 90 },
        { status := 0xc, note := 20, value := 5 }])
    midiMappings :=
      [{ controller := 0, note := 60, cc := -1, paramId := 3 },
       { controller := 1, note := -1, cc := 20, paramId := 7 },
       { controller := 1, note := 61, cc := -1, paramId := 3 },
       { controller := 0, note := 60, cc := -1, paramId := 9 }] }

/-- A learn cycle with a scan and a drain: the scan scenario (learning on, the learn mapping
holding parameter 77, the track toggle 130 and the grid steps 9 and 3 pressed) with a note-on
60 queued on controller 0 and a CC 21 queued on controller 1. -/
def learnScanScenario : Iverson :=
  { scanScenario with
    midiInputQueues :=
      ([{ status := 0x9, note := 60, value := 100 }], [{ status := 0xb, note := 21, value := 1 }]) }

end sspo

namespace Zilah

/-- A queue with two CC messages for register 3, a note-on between them and a CC outside the
fourteen-bit range at the end. -/
def routeQueue : List sspo.Message :=
  [{ status := 0xb, note := 3, value := 100 }, { status := 0x9, note := 3, value := 5 },
   { status := 0xb, note := 35, value := 7 }, { status := 0xb, note := 70, value := 1 }]

end Zilah

namespace Zilah

theorem and_7F (r : Nat) : r &&& 0b0000000001111111 = r % 128 :=
  Nat.and_pow_two_sub_one_eq_mod r 7

theorem and_3F80 (r : Nat) : r &&& 0b0011111110000000 = r / 128 % 128 * 128 := by
  have h : (0b0011111110000000 : Nat) = (2 ^ 7 - 1) <<< 7 := by decide
  have h2 : r / 128 % 128 * 128 = ((r >>> 7) % 2 ^ 7) <<< 7 := by
    rw [Nat.shiftLeft_eq, Nat.shiftRight_eq_div_pow]; rfl
  rw [h, h2]
  apply Nat.eq_of_testBit_eq
  intro i
  rw [Nat.testBit_and, Nat.testBit_shiftLeft, Nat.testBit_two_pow_sub_one,
    Nat.testBit_shiftLeft, Nat.testBit_mod_two_pow, Nat.testBit_shiftRight]
  by_cases h1 : 7 ≤ i <;> by_cases h3 : i - 7 < 7 <;> simp [h1, h3]

theorem or_low (a b : Nat) (hb : b < 128) : a * 128 ||| b = a * 128 + b := by
  have h := Nat.mul_add_lt_is_or (i := 7) hb a
  rw [Nat.mul_comm] at h
  exact h.symm

theorem shl_or (m l : Nat) (hl : l ≤ 127) : (m <<< 7) ||| l = m * 128 + l := by
  rw [Nat.shiftLeft_eq]
  exact or_low m l (by omega)

theorem setMsb_value (f : FourteenBit) (m : Nat) (hm : m ≤ 127) :
    (f.setMsb m).value = m * 128 + f.value % 128 := by
  simp only [FourteenBit.setMsb, u16, u8, and_7F, Nat.shiftLeft_eq]
  rw [Nat.lor_comm, show m % 256 % 65536 * 2 ^ 7 % 65536 = m * 128 by omega,
    Nat.mod_eq_of_lt (a := f.value % 128) (by omega), or_low _ _ (by omega)]
  omega

theorem setLsb_value (f : FourteenBit) (l : Nat) (hl : l ≤ 127) :
    (f.setLsb l).value = f.value / 128 % 128 * 128 + l := by
  simp only [FourteenBit.setLsb, u16, u8, and_3F80]
  rw [Nat.mod_eq_of_lt (a := f.value / 128 % 128 * 128) (by omega),
    Nat.mod_eq_of_lt (a := l) (by omega), or_low _ _ (by omega)]
  omega

theorem setLsb_lt (f : FourteenBit) (l : Nat) : (f.setLsb l).value < 16384 := by
  simp only [FourteenBit.setLsb, u16, u8, and_3F80]
  have h1 : f.value / 128 % 128 * 128 % 65536 < 2 ^ 14 := by omega
  have h2 : l % 256 < 2 ^ 14 := by omega
  have h3 := Nat.or_lt_two_pow h1 h2
  omega

theorem zeroing_call_lt (a : LsbOrMSbWithZeroingMidi10) (k : Call) :
    (a.call k).fourteenBit.value < 16384 := by
  cases k with
  | msb v => exact setLsb_lt _ _
  | lsb v => exact setLsb_lt _ _

theorem zeroing_foldl_lt (calls : List Call) (a : LsbOrMSbWithZeroingMidi10)
    (ha : a.fourteenBit.value < 16384) :
    (calls.foldl LsbOrMSbWithZeroingMidi10.call a).fourteenBit.value < 16384 := by
  induction calls generalizing a with
  | nil => exact ha
  | cons k rest ih => exact ih _ (zeroing_call_lt a k)

theorem zeroing_run_lt (calls : List Call) :
    (LsbOrMSbWithZeroingMidi10.run calls).fourteenBit.value < 16384 :=
  zeroing_foldl_lt calls {} (by decide)

/-- C9: for the zeroing aggregator and every m, l in 0..127: from every prior register value
`setMsb m` leaves the register at `m * 128` (bits 7..13 hold m, the low seven bits are zero),
so `get` after `setMsb m` equals `get` after `setMsb m; setLsb 0`; `setLsb l` keeps bits 7..13
and makes the low seven bits l, and on every register the aggregator can hold (any calls on a
fresh one) it changes nothing above bit 6. -/
theorem zeroing_setMsb_setLsb (m l : Nat) (hm : m ≤ 127) (hl : l ≤ 127) :
    (∀ a : LsbOrMSbWithZeroingMidi10,
      (a.setMsb m).fourteenBit.value = m * 128 ∧
      (a.setMsb m).fourteenBit.value / 128 % 128 = m ∧
      (a.setMsb m).fourteenBit.value % 128 = 0 ∧
      (a.setMsb m).get = ((a.setMsb m).setLsb 0).get ∧
      (a.setLsb l).fourteenBit.value / 128 % 128 = a.fourteenBit.value / 128 % 128 ∧
      (a.setLsb l).fourteenBit.value % 128 = l) ∧
    (∀ calls : List Call,
      ((LsbOrMSbWithZeroingMidi10.run calls).setLsb l).fourteenBit.value / 128
        = (LsbOrMSbWithZeroingMidi10.run calls).fourteenBit.value / 128 ∧
      ((LsbOrMSbWithZeroingMidi10.run calls).setLsb l).fourteenBit.value % 128 = l) := by
  constructor
  · intro a
    have h1 : (a.setMsb m).fourteenBit.value = m * 128 := by
      simp only [LsbOrMSbWithZeroingMidi10.setMsb]
      rw [setLsb_value _ 0 (by omega), setMsb_value _ m hm]
      omega
    have h2 : ((a.setMsb m).setLsb 0).fourteenBit.value = m * 128 := by
      simp only [LsbOrMSbWithZeroingMidi10.setLsb]
      rw [setLsb_value _ 0 (by omega), h1]
      omega
    have h3 : (a.setLsb l).fourteenBit.value = a.fourteenBit.value / 128 % 128 * 128 + l := by
      simp only [LsbOrMSbWithZeroingMidi10.setLsb]
      exact setLsb_value _ l hl
    refine ⟨h1, by omega, by omega, ?_, by omega, by omega⟩
    simp only [LsbOrMSbWithZeroingMidi10.get, FourteenBit.getNormalised, h1, h2]
  · intro calls
    have hr := zeroing_run_lt calls
    have h3 : ((LsbOrMSbWithZeroingMidi10.run calls).setLsb l).fourteenBit.value
        = (LsbOrMSbWithZeroingMidi10.run calls).fourteenBit.value / 128 % 128 * 128 + l := by
      simp only [LsbOrMSbWithZeroingMidi10.setLsb]
      exact setLsb_value _ l hl
    omega

/-- C9 at m = 5, l = 10. -/
theorem zeroing_setMsb_setLsb_witness :
    (∀ a : LsbOrMSbWithZeroingMidi10,
      (a.setMsb 5).fourteenBit.value = 5 * 128 ∧
      (a.setMsb 5).fourteenBit.value / 128 % 128 = 5 ∧
      (a.setMsb 5).fourteenBit.value % 128 = 0 ∧
      (a.setMsb 5).get = ((a.setMsb 5).setLsb 0).get ∧
      (a.setLsb 10).fourteenBit.value / 128 % 128 = a.fourteenBit.value / 128 % 128 ∧
      (a.setLsb 10).fourteenBit.value % 128 = 10) ∧
    (∀ calls : List Call,
      ((LsbOrMSbWithZeroingMidi10.run calls).setLsb 10).fourteenBit.value / 128
        = (LsbOrMSbWithZeroingMidi10.run calls).fourteenBit.value / 128 ∧
      ((LsbOrMSbWithZeroingMidi10.run calls).setLsb 10).fourteenBit.value % 128 = 10) :=
  zeroing_setMsb_setLsb 5 10 (by decide) (by decide)

/-- C10: for `MsbFirstWaitForLsb`, all m, l, l2 in 0..127 and every prior state: `setMsb m`
leaves the register and `get` unchanged and records m as pending; a following `setLsb l`
makes the register `(m << 7) | l` and clears the flag; a further `setLsb l2` makes it
`(m << 7) | l2` (the MSB m untouched); of several `setMsb` before the `setLsb` the last is
committed; `setMsb 5; setLsb 10` gives `(5 << 7) | 10`, then `setLsb 20` gives
`(5 << 7) | 20`. -/
theorem msbFirst_setMsb_setLsb (a : MsbFirstWaitForLsb) (m0 m l l2 : Nat)
    (hm : m ≤ 127) (hl : l ≤ 127) (hl2 : l2 ≤ 127) :
    (a.setMsb m).fourteenBit = a.fourteenBit ∧
    (a.setMsb m).get = a.get ∧
    (a.setMsb m).msb = m ∧
    (a.setMsb m).isMsbSet = true ∧
    ((a.setMsb m).setLsb l).fourteenBit.value = (m <<< 7) ||| l ∧
    ((a.setMsb m).setLsb l).isMsbSet = false ∧
    (((a.setMsb m).setLsb l).setLsb l2).fourteenBit.value = (m <<< 7) ||| l2 ∧
    (((a.setMsb m).setLsb l).setLsb l2).fourteenBit.value / 128 = m ∧
    (((a.setMsb m0).setMsb m).setLsb l).fourteenBit.value = (m <<< 7) ||| l ∧
    ((a.setMsb 5).setLsb 10).fourteenBit.value = (5 <<< 7) ||| 10 ∧
    (((a.setMsb 5).setLsb 10).setLsb 20).fourteenBit.value = (5 <<< 7) ||| 20 := by
  have key : ∀ (b : MsbFirstWaitForLsb) (x y : Nat), x ≤ 127 → y ≤ 127 →
      ((b.setMsb x).setLsb y).fourteenBit.value = x * 128 + y ∧
      ((b.setMsb x).setLsb y).isMsbSet = false := by
    intro b x y hx hy
    have hx8 : u8 x = x := by unfold u8; omega
    simp only [MsbFirstWaitForLsb.setMsb, MsbFirstWaitForLsb.setLsb, if_true, hx8]
    rw [setLsb_value _ y hy, setMsb_value _ x hx]
    exact ⟨by omega, trivial⟩
  have key2 : ∀ (b : MsbFirstWaitForLsb) (x y z : Nat), x ≤ 127 → y ≤ 127 → z ≤ 127 →
      (((b.setMsb x).setLsb y).setLsb z).fourteenBit.value = x * 128 + z := by
    intro b x y z hx hy hz
    obtain ⟨h1, h2⟩ := key b x y hx hy
    have h3 : (((b.setMsb x).setLsb y).setLsb z).fourteenBit
        = ((b.setMsb x).setLsb y).fourteenBit.setLsb z := by
      rw [MsbFirstWaitForLsb.setLsb.eq_1 ((b.setMsb x).setLsb y), h2]
      simp
    rw [h3, setLsb_value _ z hz, h1]
    omega
  have hm8 : u8 m = m := by unfold u8; omega
  refine ⟨rfl, rfl, hm8, rfl, ?_, (key a m l hm hl).2, ?_, ?_, ?_, ?_, ?_⟩
  · rw [shl_or m l hl]; exact (key a m l hm hl).1
  · rw [shl_or m l2 hl2]; exact key2 a m l l2 hm hl hl2
  · rw [key2 a m l l2 hm hl hl2]; omega
  · rw [shl_or m l hl]; exact (key (a.setMsb m0) m l hm hl).1
  · rw [shl_or 5 10 (by omega)]; exact (key a 5 10 (by omega) (by omega)).1
  · rw [shl_or 5 20 (by omega)]; exact key2 a 5 10 20 (by omega) (by omega) (by omega)

/-- C10 on a freshly constructed aggregator with m0 = 3, m = 5, l = 10, l2 = 20. -/
theorem msbFirst_setMsb_setLsb_witness :
    ((({} : MsbFirstWaitForLsb).setMsb 5).setLsb 10).fourteenBit.value = (5 <<< 7) ||| 10 ∧
    (((({} : MsbFirstWaitForLsb).setMsb 5).setLsb 10).setLsb 20).fourteenBit.value
      = (5 <<< 7) ||| 20 :=
  ⟨(msbFirst_setMsb_setLsb {} 3 5 10 20 (by decide) (by decide) (by decide)).2.2.2.2.1,
   (msbFirst_setMsb_setLsb {} 3 5 10 20 (by decide) (by decide)
      (by decide)).2.2.2.2.2.2.1⟩

end Zilah

namespace sspo

theorem mem_idRange (lo hi i : Int) : i ∈ idRange lo hi ↔ lo ≤ i ∧ i ≤ hi := by
  unfold idRange
  rw [List.mem_map]
  constructor
  · rintro ⟨k, hk, rfl⟩
    rw [List.mem_range] at hk
    omega
  · rintro ⟨h1, h2⟩
    refine ⟨(i - lo).toNat, ?_, ?_⟩
    · rw [List.mem_range]
      omega
    · omega

theorem firstPressed_only (params : Int → ℚ) (ids : List Int) (P : Int) (hP : P ∈ ids)
    (hPv : castInt (params P) ≠ 0) (ho : ∀ i ∈ ids, i ≠ P → castInt (params i) = 0) :
    firstPressed params ids = some P := by
  induction ids with
  | nil => simp at hP
  | cons a rest ih =>
    by_cases ha : a = P
    · subst ha
      have hb : (castInt (params a) != 0) = true := by simpa using hPv
      simp [firstPressed, List.find?, hb]
    · have h0 : castInt (params a) = 0 := ho a (List.mem_cons_self _ _) ha
      have hP2 : P ∈ rest := by
        rcases List.mem_cons.mp hP with h | h
        · exact absurd h.symm ha
        · exact h
      have h := ih hP2 (fun i hi => ho i (List.mem_cons_of_mem _ hi))
      simpa [firstPressed, List.find?, h0] using h

theorem scanStep_frame (c : Comp) (s : Iverson) :
    (scanStep c s).midiMappings = s.midiMappings ∧ (scanStep c s).params = s.params ∧
    (scanStep c s).midiInputQueues = s.midiInputQueues ∧
    (scanStep c s).isLearning = s.isLearning ∧
    (scanStep c s).isClearMapping = s.isClearMapping ∧
    (scanStep c s).isClearAllMapping = s.isClearAllMapping ∧
    (scanStep c s).midiLearnMapping.controller = s.midiLearnMapping.controller ∧
    (scanStep c s).midiLearnMapping.note = s.midiLearnMapping.note ∧
    (scanStep c s).midiLearnMapping.cc = s.midiLearnMapping.cc := by
  unfold scanStep
  split
  · simp
  · split
    · simp
    · split
      · simp
      · split <;> simp

theorem scanStep_of_grid (c : Comp) (s : Iverson) (P : Int)
    (h : firstPressed s.params (idRange c.GRID_1_1_PARAM c.GRID_16_8_PARAM) = some P) :
    scanStep c s = { s with midiLearnMapping := { s.midiLearnMapping with paramId := P } } := by
  simp only [scanStep, h]

theorem doLearn_of_learning (c : Comp) (s : Iverson) (hall : s.isClearAllMapping = false)
    (hclr : s.isClearMapping = false) (hlearn : s.isLearning = true) :
    s.doLearn c = scanStep c (drainStep (commitStep s)) := by
  simp [Iverson.doLearn, clearAllStep, clearMappingStep, learnStep, hall, hclr, hlearn]

theorem commitStep_of_complete (s : Iverson) (h : isComplete s.midiLearnMapping = true) :
    commitStep s = { s with
      midiMappings := commit s.midiMappings s.midiLearnMapping
      midiLearnMapping := s.midiLearnMapping.reset } := by
  simp [commitStep, h]

theorem commitStep_of_incomplete (s : Iverson) (h : isComplete s.midiLearnMapping = false) :
    commitStep s = s := by
  simp [commitStep, h]

/-- C7: with `isClearAllMapping` set and `isClearMapping`, `isLearning` clear, one `doLearn`
cycle empties the mapping table, resets `isClearAllMapping` and leaves the learn mapping as it
was. -/
theorem doLearn_clearAll (c : Comp) (s : Iverson) (hall : s.isClearAllMapping = true)
    (hclr : s.isClearMapping = false) (hlearn : s.isLearning = false) :
    (s.doLearn c).midiMappings = [] ∧ (s.doLearn c).isClearAllMapping = false ∧
    (s.doLearn c).midiLearnMapping = s.midiLearnMapping := by
  simp [Iverson.doLearn, clearAllStep, clearMappingStep, hall, hclr, hlearn]

/-- C7 on a table of three committed mappings. -/
theorem doLearn_clearAll_witness :
    clearAllScenario.midiMappings.length = 3 ∧
    (clearAllScenario.doLearn Comp.layout).midiMappings = [] ∧
    (clearAllScenario.doLearn Comp.layout).isClearAllMapping = false ∧
    (clearAllScenario.doLearn Comp.layout).midiLearnMapping = clearAllScenario.midiLearnMapping :=
  ⟨by decide, doLearn_clearAll Comp.layout clearAllScenario rfl rfl rfl⟩

/-- C4 as stated fails: after one `doLearn` cycle of the learn scenario the mapping table does
not contain the mapping of note 60 on controller 0 to the pressed grid parameter. -/
theorem learn_one_cycle_not_committed :
    ¬ ({ controller := 0, note := 60, cc := -1, paramId := 5 } : MidiMapping) ∈
      (learnScenario.doLearn Comp.layout).midiMappings := by
  decide

/-- C4 amended: from an empty table and an empty learn mapping, learning on and both clear
flags off, a note-on for note 60 queued on controller 0 and a grid parameter P at 1 (the other
grid parameters at 0): one `doLearn` cycle leaves the table empty and the learn mapping at
the complete (controller 0, note 60, cc -1, paramId P); the second cycle commits it, so the
table is exactly that mapping. -/
theorem learn_two_cycles_commit (c : Comp) (s : Iverson) (P v : Int)
    (hc : 0 ≤ c.GRID_1_1_PARAM)
    (hgrid : c.GRID_1_1_PARAM ≤ P ∧ P ≤ c.GRID_16_8_PARAM)
    (htable : s.midiMappings = []) (hlm : s.midiLearnMapping = {})
    (hlearn : s.isLearning = true) (hclr : s.isClearMapping = false)
    (hall : s.isClearAllMapping = false)
    (hq : s.midiInputQueues = ([{ status := 0x9, note := 60, value := v }], []))
    (hP : s.params P = 1)
    (hothers : ∀ i, c.GRID_1_1_PARAM ≤ i → i ≤ c.GRID_16_8_PARAM → i ≠ P → s.params i = 0) :
    (s.doLearn c).midiMappings = [] ∧
    (s.doLearn c).midiLearnMapping = { controller := 0, note := 60, cc := -1, paramId := P } ∧
    ((s.doLearn c).doLearn c).midiMappings
      = [{ controller := 0, note := 60, cc := -1, paramId := P }] := by
  have hfp : firstPressed s.params (idRange c.GRID_1_1_PARAM c.GRID_16_8_PARAM) = some P := by
    apply firstPressed_only
    · exact (mem_idRange _ _ _).mpr hgrid
    · rw [hP]; decide
    · intro i hi hne
      rw [hothers i ((mem_idRange _ _ _).mp hi).1 ((mem_idRange _ _ _).mp hi).2 hne]
      decide
  have hPne : P ≠ -1 := by omega
  have e0 : commitStep s = s := commitStep_of_incomplete s (by rw [hlm]; rfl)
  have e1 : s.doLearn c = { drainStep s with
      midiLearnMapping := { (drainStep s).midiLearnMapping with paramId := P } } := by
    rw [doLearn_of_learning c s hall hclr hlearn, e0]
    exact scanStep_of_grid c (drainStep s) P hfp
  have e2 : (drainStep s).midiLearnMapping = { controller := 0, note := 60, cc := -1, paramId := -1 } := by
    simp [drainStep, hq, hlm, learnMessage]
  have t1 : (s.doLearn c).midiMappings = [] := by rw [e1]; exact htable
  have l1 : (s.doLearn c).midiLearnMapping
      = { controller := 0, note := 60, cc := -1, paramId := P } := by
    rw [e1]; simp only [e2]
  refine ⟨t1, l1, ?_⟩
  have f1 : (s.doLearn c).isClearAllMapping = false := by rw [e1]; exact hall
  have f2 : (s.doLearn c).isClearMapping = false := by rw [e1]; exact hclr
  have f3 : (s.doLearn c).isLearning = true := by rw [e1]; exact hlearn
  have hcomp : isComplete (s.doLearn c).midiLearnMapping = true := by
    rw [l1]; simp [isComplete, hPne]
  rw [doLearn_of_learning c _ f1 f2 f3, (scanStep_frame c _).1, commitStep_of_complete _ hcomp]
  simp only [drainStep, t1, l1]
  simp [commit]

/-- C4 amended, on the learn scenario with the grid parameter 5. -/
theorem learn_two_cycles_commit_witness :
    (learnScenario.doLearn Comp.layout).midiMappings = [] ∧
    (learnScenario.doLearn Comp.layout).midiLearnMapping
      = { controller := 0, note := 60, cc := -1, paramId := 5 } ∧
    ((learnScenario.doLearn Comp.layout).doLearn Comp.layout).midiMappings
      = [{ controller := 0, note := 60, cc := -1, paramId := 5 }] :=
  learn_two_cycles_commit Comp.layout learnScenario 5 100 (by decide) (by decide) rfl rfl rfl
    rfl rfl rfl (by decide) (by intro i _ _ hne; simp [learnScenario, hne])

/-- C6 at the failing input: committing CC 20 of controller 1 for parameter 6 evicts the entry
that binds CC 20 of controller 0 to parameter 5, although that entry matches the learn mapping
neither in paramId nor in (controller, note) nor in (controller, cc). The input is reached
from the idle module by two learn cycles. -/
theorem commit_evicts_other_controller_cc :
    otherControllerScenario.midiMappings
      = [{ controller := 0, note := -1, cc := 20, paramId := 5 }] ∧
    otherControllerScenario.midiLearnMapping
      = { controller := 1, note := -1, cc := 20, paramId := 6 } ∧
    (otherControllerScenario.doLearn Comp.layout).midiMappings
      = [{ controller := 1, note := -1, cc := 20, paramId := 6 }] ∧
    (runCycles Comp.layout Iverson.idle otherControllerCycles).midiMappings
      = otherControllerScenario.midiMappings ∧
    (runCycles Comp.layout Iverson.idle otherControllerCycles).midiLearnMapping
      = otherControllerScenario.midiLearnMapping ∧
    ((runCycles Comp.layout Iverson.idle otherControllerCycles).doLearn Comp.layout).midiMappings
      = [{ controller := 1, note := -1, cc := 20, paramId := 6 }] := by
  decide

end sspo

namespace sspo

theorem eraseP_none_left {α : Type} (p : α → Bool) (l : List α)
    (h : l.Pairwise (fun a b => ¬ (p a = true ∧ p b = true))) :
    ∀ x ∈ l.eraseP p, p x = false := by
  induction l with
  | nil => simp
  | cons a rest ih =>
    rw [List.pairwise_cons] at h
    by_cases ha : p a = true
    · rw [List.eraseP_cons_of_pos ha]
      intro x hx
      have hn := h.1 x hx
      cases hpx : p x with
      | false => rfl
      | true => exact absurd ⟨ha, hpx⟩ hn
    · rw [List.eraseP_cons_of_neg ha]
      intro x hx
      rcases List.mem_cons.mp hx with rfl | hx
      · simpa using ha
      · exact ih h.2 x hx

theorem sameParam_unique (l : MidiMapping) (maps : List MidiMapping)
    (h : maps.Pairwise (fun a b => a.paramId ≠ b.paramId)) :
    maps.Pairwise (fun a b => ¬ (sameParam l a = true ∧ sameParam l b = true)) := by
  refine h.imp ?_
  intro a b hab hp
  simp only [sameParam, beq_iff_eq] at hp
  exact hab (hp.1.trans hp.2.symm)

theorem sameNote_unique (l : MidiMapping) (maps : List MidiMapping)
    (h : maps.Pairwise
      (fun a b => a.note ≠ -1 → ¬ (a.controller = b.controller ∧ a.note = b.note))) :
    maps.Pairwise (fun a b => ¬ (sameNote l a = true ∧ sameNote l b = true)) := by
  refine h.imp ?_
  intro a b hab hp
  simp only [sameNote, Bool.and_eq_true, bne_iff_ne, ne_eq, beq_iff_eq] at hp
  exact hab hp.1.1.1 ⟨hp.1.2.trans hp.2.2.symm, hp.1.1.2.trans hp.2.1.2.symm⟩

theorem sameCc_unique (l : MidiMapping) (maps : List MidiMapping)
    (h : maps.Pairwise (fun a b => a.cc ≠ -1 → a.cc ≠ b.cc)) :
    maps.Pairwise (fun a b => ¬ (sameCc l a = true ∧ sameCc l b = true)) := by
  refine h.imp ?_
  intro a b hab hp
  simp only [sameCc, Bool.and_eq_true, bne_iff_ne, ne_eq, beq_iff_eq] at hp
  exact hab hp.1.1 (hp.1.2.trans hp.2.2.symm)

theorem UniqueControls.sublist {l₁ l₂ : List MidiMapping} (hs : l₁.Sublist l₂)
    (h : UniqueControls l₂) : UniqueControls l₁ :=
  ⟨h.1.sublist hs, h.2.1.sublist hs, h.2.2.sublist hs⟩

theorem UniqueControls.eraseP (p : MidiMapping → Bool) {maps : List MidiMapping}
    (h : UniqueControls maps) : UniqueControls (maps.eraseP p) :=
  h.sublist (List.eraseP_sublist maps)

theorem UniqueControls.nil : UniqueControls [] :=
  ⟨List.Pairwise.nil, List.Pairwise.nil, List.Pairwise.nil⟩

theorem UniqueControls.toBindings {maps : List MidiMapping} (h : UniqueControls maps) :
    UniqueBindings maps :=
  ⟨h.1, h.2.1, h.2.2.imp (fun hab hcc hp => hab hcc hp.2)⟩

theorem UniqueControls.commit {maps : List MidiMapping} (l : MidiMapping)
    (h : UniqueControls maps) : UniqueControls (commit maps l) := by
  have h1 : UniqueControls (maps.eraseP (sameParam l)) := h.eraseP _
  have h2 : UniqueControls ((maps.eraseP (sameParam l)).eraseP (sameNote l)) := h1.eraseP _
  have h3 : UniqueControls
      (((maps.eraseP (sameParam l)).eraseP (sameNote l)).eraseP (sameCc l)) := h2.eraseP _
  have n1 : ∀ x ∈ maps.eraseP (sameParam l), sameParam l x = false :=
    eraseP_none_left _ _ (sameParam_unique l maps h.1)
  have n2 : ∀ x ∈ (maps.eraseP (sameParam l)).eraseP (sameNote l), sameNote l x = false :=
    eraseP_none_left _ _ (sameNote_unique l _ h1.2.1)
  have n3 : ∀ x ∈ ((maps.eraseP (sameParam l)).eraseP (sameNote l)).eraseP (sameCc l),
      sameCc l x = false :=
    eraseP_none_left _ _ (sameCc_unique l _ h2.2.2)
  have s3 := List.eraseP_sublist (p := sameCc l) ((maps.eraseP (sameParam l)).eraseP (sameNote l))
  have s2 := List.eraseP_sublist (p := sameNote l) (maps.eraseP (sameParam l))
  unfold sspo.commit
  refine ⟨?_, ?_, ?_⟩
  · rw [List.pairwise_append]
    refine ⟨h3.1, List.pairwise_singleton _ _, ?_⟩
    intro x hx y hy
    rw [List.mem_singleton] at hy
    subst hy
    have := n1 x (s2.subset (s3.subset hx))
    simpa [sameParam] using this
  · rw [List.pairwise_append]
    refine ⟨h3.2.1, List.pairwise_singleton _ _, ?_⟩
    intro x hx y hy hne hp
    rw [List.mem_singleton] at hy
    subst hy
    have := n2 x (s3.subset hx)
    simp [sameNote, hne, hp.1, hp.2] at this
    exact hne (hp.2.trans this)
  · rw [List.pairwise_append]
    refine ⟨h3.2.2, List.pairwise_singleton _ _, ?_⟩
    intro x hx y hy hne hp
    rw [List.mem_singleton] at hy
    subst hy
    have := n3 x hx
    simp [sameCc, hne, hp] at this
    exact hne (hp.trans this)

/-- Every property of the table that holds for the empty table and survives an erase and a
commit survives a `doLearn` cycle. -/
theorem doLearn_table_induct (Q : List MidiMapping → Prop) (h0 : Q [])
    (herase : ∀ (p : MidiMapping → Bool) (l : List MidiMapping), Q l → Q (l.eraseP p))
    (hcommit : ∀ (l : List MidiMapping) (m : MidiMapping), Q l → Q (commit l m))
    (c : Comp) (s : Iverson) (h : Q s.midiMappings) : Q (s.doLearn c).midiMappings := by
  have a1 : Q (clearAllStep s).midiMappings := by
    unfold clearAllStep
    split
    · exact h0
    · exact h
  have hfound : ∀ (p : MidiMapping → MidiMapping → Bool) (t : Iverson),
      Q t.midiMappings → Q (clearFound p t).midiMappings := by
    intro p t ht
    unfold clearFound
    split
    · exact herase _ _ ht
    · exact ht
  have a2 : Q (clearMappingStep (clearAllStep s)).midiMappings := by
    unfold clearMappingStep
    split
    · apply hfound
      split
      · exact hfound _ _ a1
      · exact a1
    · exact a1
  unfold Iverson.doLearn
  simp only
  split
  · unfold learnStep
    rw [(scanStep_frame c _).1]
    show Q (commitStep _).midiMappings
    unfold commitStep
    split
    · exact hcommit _ _ a2
    · exact a2
  · exact a2

theorem runCycles_table_induct (Q : List MidiMapping → Prop) (h0 : Q [])
    (herase : ∀ (p : MidiMapping → Bool) (l : List MidiMapping), Q l → Q (l.eraseP p))
    (hcommit : ∀ (l : List MidiMapping) (m : MidiMapping), Q l → Q (commit l m))
    (c : Comp) (inputs : List CycleInput) (s : Iverson) (h : Q s.midiMappings) :
    Q (runCycles c s inputs).midiMappings := by
  induction inputs generalizing s with
  | nil => exact h
  | cons i rest ih =>
    exact ih _ (doLearn_table_induct Q h0 herase hcommit c _ h)

/-- C1: starting from an empty mapping table, after any sequence of `doLearn` cycles, with any
queued messages, parameter values and flag settings before each cycle, the table holds no two
entries with equal paramId, no two with equal (controller, note) where the note is set, and
no two with equal (controller, cc) where the cc is set. -/
theorem runCycles_uniqueBindings (c : Comp) (s : Iverson) (inputs : List CycleInput)
    (hempty : s.midiMappings = []) :
    UniqueBindings (runCycles c s inputs).midiMappings := by
  apply UniqueControls.toBindings
  apply runCycles_table_induct UniqueControls UniqueControls.nil
  · intro p l h
    exact h.eraseP p
  · intro l m h
    exact h.commit m
  · rw [hempty]
    exact UniqueControls.nil

/-- C1 on two learn cycles of the learn scenario followed by a cycle with the flags off. -/
theorem runCycles_uniqueBindings_witness :
    learnScenario.midiMappings = [] ∧
    UniqueBindings (runCycles Comp.layout learnScenario
      [⟨([{ status := 0x9, note := 60, value := 100 }], []), fun i => if i = 5 then 1 else 0,
          true, false, false⟩,
       ⟨([], [{ status := 0xb, note := 20, value := 1 }]), fun i => if i = 6 then 1 else 0,
          true, false, false⟩,
       ⟨([], []), fun _ => 0, false, false, false⟩]).midiMappings :=
  ⟨rfl, runCycles_uniqueBindings Comp.layout learnScenario _ rfl⟩

end sspo

namespace sspo

/-- C5: on a table that satisfies the uniqueness invariants and holds an entry bound to
(controller cn, note n) with paramId P, a `doLearn` cycle in learn mode with the complete learn
mapping (controller cn, note n, cc -1, paramId Q), Q ≠ P, removes the entry for P: the table
afterwards is some of the old entries, none with paramId P and none with (controller cn,
note n), followed by the new mapping as the last entry, and no entry has paramId P. -/
theorem commit_evicts_same_note (c : Comp) (s : Iverson) (e : MidiMapping) (cn n P Q : Int)
    (hinv : UniqueBindings s.midiMappings) (he : e ∈ s.midiMappings)
    (hec : e.controller = cn) (hen : e.note = n) (hep : e.paramId = P)
    (hlm : s.midiLearnMapping = { controller := cn, note := n, cc := -1, paramId := Q })
    (hcomplete : isComplete s.midiLearnMapping = true) (hQP : Q ≠ P)
    (hlearn : s.isLearning = true) (hclr : s.isClearMapping = false)
    (hall : s.isClearAllMapping = false) :
    ∃ kept : List MidiMapping,
      (s.doLearn c).midiMappings
        = kept ++ [{ controller := cn, note := n, cc := -1, paramId := Q }] ∧
      kept.Sublist s.midiMappings ∧
      (∀ x ∈ kept, x.paramId ≠ P) ∧
      (∀ x ∈ kept, ¬ (x.controller = cn ∧ x.note = n)) ∧
      e ∉ kept ∧
      (∀ x ∈ (s.doLearn c).midiMappings, x.paramId ≠ P) := by
  have hn : n ≠ -1 := by
    rw [hlm] at hcomplete
    simp [isComplete] at hcomplete
    exact hcomplete.1.2
  have htab : (s.doLearn c).midiMappings = commit s.midiMappings s.midiLearnMapping := by
    rw [doLearn_of_learning c s hall hclr hlearn, (scanStep_frame c _).1,
      commitStep_of_complete s hcomplete]
    rfl
  have s1 := List.eraseP_sublist (p := sameParam s.midiLearnMapping) s.midiMappings
  have s2 := List.eraseP_sublist (p := sameNote s.midiLearnMapping)
    (List.eraseP (sameParam s.midiLearnMapping) s.midiMappings)
  have s3 := List.eraseP_sublist (p := sameCc s.midiLearnMapping)
    (List.eraseP (sameNote s.midiLearnMapping)
      (List.eraseP (sameParam s.midiLearnMapping) s.midiMappings))
  have n2 : ∀ x ∈ List.eraseP (sameNote s.midiLearnMapping)
      (List.eraseP (sameParam s.midiLearnMapping) s.midiMappings),
      sameNote s.midiLearnMapping x = false :=
    eraseP_none_left _ _ (sameNote_unique _ _ (hinv.2.1.sublist s1))
  have hnote : ∀ x ∈ List.eraseP (sameCc s.midiLearnMapping)
      (List.eraseP (sameNote s.midiLearnMapping)
        (List.eraseP (sameParam s.midiLearnMapping) s.midiMappings)),
      ¬ (x.controller = cn ∧ x.note = n) := by
    intro x hx hp
    have h := n2 x (s3.subset hx)
    rw [hlm] at h
    simp [sameNote, hp.1, hp.2, hn] at h
  have hnot_e : e ∉ List.eraseP (sameCc s.midiLearnMapping)
      (List.eraseP (sameNote s.midiLearnMapping)
        (List.eraseP (sameParam s.midiLearnMapping) s.midiMappings)) :=
    fun hmem => hnote e hmem ⟨hec, hen⟩
  have hparam : ∀ x ∈ List.eraseP (sameCc s.midiLearnMapping)
      (List.eraseP (sameNote s.midiLearnMapping)
        (List.eraseP (sameParam s.midiLearnMapping) s.midiMappings)), x.paramId ≠ P := by
    intro x hx hxP
    have hxm : x ∈ s.midiMappings := ((s3.trans s2).trans s1).subset hx
    have hsym : Symmetric (fun a b : MidiMapping => a.paramId ≠ b.paramId) :=
      fun a b hab => fun h => hab h.symm
    have hxe : x = e := by
      by_contra hne
      exact hinv.1.forall hsym hxm he hne (hxP.trans hep.symm)
    exact hnot_e (hxe ▸ hx)
  refine ⟨_, ?_, (s3.trans s2).trans s1, hparam, hnote, hnot_e, ?_⟩
  · rw [htab, hlm]
    rfl
  · intro x hx
    rw [htab] at hx
    unfold commit at hx
    rcases List.mem_append.mp hx with h | h
    · exact hparam x h
    · rw [List.mem_singleton] at h
      rw [h, hlm]
      exact hQP

/-- C5 on the table holding note 60 of controller 0 for parameter 5, learning the same note
for parameter 6. -/
theorem commit_evicts_same_note_witness :
    ∃ kept : List MidiMapping,
      (rebindScenario.doLearn Comp.layout).midiMappings
        = kept ++ [{ controller := 0, note := 60, cc := -1, paramId := 6 }] ∧
      kept.Sublist rebindScenario.midiMappings ∧
      (∀ x ∈ kept, x.paramId ≠ 5) ∧
      (∀ x ∈ kept, ¬ (x.controller = 0 ∧ x.note = 60)) ∧
      ({ controller := 0, note := 60, cc := -1, paramId := 5 } : MidiMapping) ∉ kept ∧
      (∀ x ∈ (rebindScenario.doLearn Comp.layout).midiMappings, x.paramId ≠ 5) :=
  commit_evicts_same_note Comp.layout rebindScenario
    { controller := 0, note := 60, cc := -1, paramId := 5 } 0 60 5 6
    (by
      refine ⟨?_, ?_, ?_⟩ <;>
        simp [rebindScenario, Iverson.idle])
    (by simp [rebindScenario, Iverson.idle]) rfl rfl rfl rfl (by decide) (by decide) rfl rfl rfl

end sspo

namespace sspo

theorem foldl_setValue (hit : MidiMapping → Prop) [DecidablePred hit] (v : ℚ)
    (maps : List MidiMapping) (params : Int → ℚ) (i : Int) :
    (maps.foldl (fun p m => if hit m then setValue p m.paramId v else p) params) i
      = if ∃ m ∈ maps, hit m ∧ m.paramId = i then v else params i := by
  induction maps generalizing params with
  | nil => simp
  | cons a rest ih =>
    rw [List.foldl_cons, ih]
    by_cases hr : ∃ m ∈ rest, hit m ∧ m.paramId = i
    · have hr2 : ∃ m ∈ a :: rest, hit m ∧ m.paramId = i := by
        obtain ⟨m, hm, h⟩ := hr
        exact ⟨m, List.mem_cons_of_mem _ hm, h⟩
      rw [if_pos hr, if_pos hr2]
    · rw [if_neg hr]
      by_cases ha : hit a ∧ a.paramId = i
      · have hr2 : ∃ m ∈ a :: rest, hit m ∧ m.paramId = i :=
          ⟨a, List.mem_cons_self _ _, ha⟩
        rw [if_pos hr2, if_pos ha.1]
        simp [setValue, ha.2]
      · have hr2 : ¬ ∃ m ∈ a :: rest, hit m ∧ m.paramId = i := by
          rintro ⟨m, hm, h⟩
          rcases List.mem_cons.mp hm with rfl | hm
          · exact ha h
          · exact hr ⟨m, hm, h⟩
        rw [if_neg hr2]
        by_cases hh : hit a
        · rw [if_pos hh]
          have hne : ¬ i = a.paramId := fun h => ha ⟨hh, h.symm⟩
          simp [setValue, hne]
        · rw [if_neg hh]

theorem dispatchMessage_hit (q : Int) (maps : List MidiMapping) (params : Int → ℚ)
    (msg : Message) (m : MidiMapping) (hm : m ∈ maps) (hc : m.controller = q) :
    (msg.status = 0x8 → m.note = msg.note →
      dispatchMessage q maps params msg m.paramId = 0) ∧
    (msg.status = 0x9 → m.note = msg.note →
      dispatchMessage q maps params msg m.paramId = if msg.value = 0 then 0 else 1) ∧
    (msg.status = 0xb → m.cc = msg.note →
      dispatchMessage q maps params msg m.paramId = if msg.value = 0 then 0 else 1) := by
  refine ⟨?_, ?_, ?_⟩
  · intro hs hn
    unfold dispatchMessage
    rw [if_pos hs]
    rw [foldl_setValue (fun m => m.note = msg.note ∧ m.controller = q)]
    exact if_pos ⟨m, hm, ⟨hn, hc⟩, rfl⟩
  · intro hs hn
    have h8 : ¬ msg.status = 0x8 := by omega
    unfold dispatchMessage
    rw [if_neg h8, if_pos hs]
    rw [foldl_setValue (fun m => m.note = msg.note ∧ m.controller = q)]
    exact if_pos ⟨m, hm, ⟨hn, hc⟩, rfl⟩
  · intro hs hn
    have h8 : ¬ msg.status = 0x8 := by omega
    have h9 : ¬ msg.status = 0x9 := by omega
    unfold dispatchMessage
    rw [if_neg h8, if_neg h9, if_pos hs]
    rw [foldl_setValue (fun m => m.cc = msg.note ∧ m.controller = q)]
    exact if_pos ⟨m, hm, ⟨hn, hc⟩, rfl⟩

theorem dispatchMessage_apply (q : Int) (maps : List MidiMapping) (params : Int → ℚ)
    (msg : Message) (i : Int) :
    dispatchMessage q maps params msg i
      = if setsParam maps i q msg then dispatchValue msg else params i := by
  unfold dispatchMessage dispatchValue setsParam drives
  by_cases h8 : msg.status = 0x8
  · rw [if_pos h8, foldl_setValue (fun m => m.note = msg.note ∧ m.controller = q), if_pos h8]
    apply if_congr _ rfl rfl
    constructor
    · rintro ⟨m, hm, ⟨hn, hc⟩, hp⟩
      exact ⟨m, hm, ⟨hc, Or.inl ⟨Or.inl h8, hn⟩⟩, hp⟩
    · rintro ⟨m, hm, ⟨hc, hd⟩, hp⟩
      rcases hd with ⟨_, hn⟩ | ⟨hb, _⟩
      · exact ⟨m, hm, ⟨hn, hc⟩, hp⟩
      · omega
  · by_cases h9 : msg.status = 0x9
    · rw [if_neg h8, if_pos h9,
        foldl_setValue (fun m => m.note = msg.note ∧ m.controller = q), if_neg h8]
      apply if_congr _ rfl rfl
      constructor
      · rintro ⟨m, hm, ⟨hn, hc⟩, hp⟩
        exact ⟨m, hm, ⟨hc, Or.inl ⟨Or.inr h9, hn⟩⟩, hp⟩
      · rintro ⟨m, hm, ⟨hc, hd⟩, hp⟩
        rcases hd with ⟨_, hn⟩ | ⟨hb, _⟩
        · exact ⟨m, hm, ⟨hn, hc⟩, hp⟩
        · omega
    · by_cases hb : msg.status = 0xb
      · rw [if_neg h8, if_neg h9, if_pos hb,
          foldl_setValue (fun m => m.cc = msg.note ∧ m.controller = q), if_neg h8]
        apply if_congr _ rfl rfl
        constructor
        · rintro ⟨m, hm, ⟨hn, hc⟩, hp⟩
          exact ⟨m, hm, ⟨hc, Or.inr ⟨hb, hn⟩⟩, hp⟩
        · rintro ⟨m, hm, ⟨hc, hd⟩, hp⟩
          rcases hd with ⟨hs, _⟩ | ⟨_, hn⟩
          · omega
          · exact ⟨m, hm, ⟨hn, hc⟩, hp⟩
      · rw [if_neg h8, if_neg h9, if_neg hb]
        have hno : ¬ ∃ m ∈ maps,
            (m.controller = q ∧
              (((msg.status = 0x8 ∨ msg.status = 0x9) ∧ m.note = msg.note) ∨
                (msg.status = 0xb ∧ m.cc = msg.note))) ∧ m.paramId = i := by
          rintro ⟨m, _, ⟨_, hd⟩, _⟩
          rcases hd with ⟨hs, _⟩ | ⟨hs, _⟩
          · rcases hs with hs | hs
            · exact h8 hs
            · exact h9 hs
          · exact hb hs
        rw [if_neg hno]

theorem midiToParm_params (s : Iverson) :
    s.midiToParm.params
      = (drainOrder s.midiInputQueues).foldl
          (fun p (qm : Int × Message) => dispatchMessage qm.1 s.midiMappings p qm.2) s.params := by
  simp only [Iverson.midiToParm, drainOrder, List.foldl_append, List.foldl_map]

theorem foldl_dispatch_untouched (maps : List MidiMapping) (i : Int)
    (msgs : List (Int × Message)) (params : Int → ℚ)
    (h : ∀ qm ∈ msgs, ¬ setsParam maps i qm.1 qm.2) :
    msgs.foldl (fun p (qm : Int × Message) => dispatchMessage qm.1 maps p qm.2) params i
      = params i := by
  induction msgs generalizing params with
  | nil => rfl
  | cons x rest ih =>
    rw [List.foldl_cons, ih _ (fun qm hqm => h qm (List.mem_cons_of_mem _ hqm)),
      dispatchMessage_apply, if_neg (h x (List.mem_cons_self _ _))]

theorem foldl_dispatch_last (maps : List MidiMapping) (i : Int)
    (msgs : List (Int × Message)) (params : Int → ℚ) :
    msgs.foldl (fun p (qm : Int × Message) => dispatchMessage qm.1 maps p qm.2) params i
      = (match (msgs.filter (fun qm => decide (setsParam maps i qm.1 qm.2))).getLast? with
         | some qm => dispatchValue qm.2
         | none => params i) := by
  induction msgs using List.reverseRecOn with
  | nil => rfl
  | append_singleton l x ih =>
    rw [List.foldl_append, List.foldl_cons, List.foldl_nil, dispatchMessage_apply,
      List.filter_append]
    by_cases hx : setsParam maps i x.1 x.2
    · rw [if_pos hx]
      have : List.filter (fun qm => decide (setsParam maps i qm.1 qm.2)) [x] = [x] := by
        simp [List.filter, hx]
      rw [this, List.getLast?_append]
      simp
    · rw [if_neg hx, ih]
      have : List.filter (fun qm => decide (setsParam maps i qm.1 qm.2)) [x] = [] := by
        simp [List.filter, hx]
      rw [this, List.append_nil]

/-- C3: `midiToParm` processes every message of both queues, queue 0 first and each queue
from its oldest message. For a message at any position, shifted from controller queue q, and
every mapping m of the table with `m.controller = q`: a note-off (0x8) with `m.note` = its note
sets parameter `m.paramId` to 0; a note-on (0x9) with `m.note` = its note, and a CC (0xb) with
`m.cc` = its number, set it to 0 if the message value is 0 and to 1 otherwise; every matching
mapping is served, and the value stands at the end of `midiToParm` unless a later message sets
the same parameter. So at the end each parameter holds the value written by the last message
that addresses a mapping of it, and its old value if there is none. -/
theorem midiToParm_sets_matching (s : Iverson) :
    (∀ (pre post : List (Int × Message)) (q : Int) (msg : Message),
      drainOrder s.midiInputQueues = pre ++ (q, msg) :: post →
      s.midiToParm.params
        = post.foldl
            (fun p (qm : Int × Message) => dispatchMessage qm.1 s.midiMappings p qm.2)
            (dispatchMessage q s.midiMappings
              (pre.foldl
                (fun p (qm : Int × Message) => dispatchMessage qm.1 s.midiMappings p qm.2)
                s.params) msg) ∧
      ∀ m ∈ s.midiMappings, m.controller = q →
        (∀ params : Int → ℚ,
          (msg.status = 0x8 → m.note = msg.note →
            dispatchMessage q s.midiMappings params msg m.paramId = 0) ∧
          (msg.status = 0x9 → m.note = msg.note →
            dispatchMessage q s.midiMappings params msg m.paramId
              = if msg.value = 0 then 0 else 1) ∧
          (msg.status = 0xb → m.cc = msg.note →
            dispatchMessage q s.midiMappings params msg m.paramId
              = if msg.value = 0 then 0 else 1)) ∧
        ((∀ qm ∈ post, ∀ m2 ∈ s.midiMappings, drives qm.1 qm.2 m2 → m2.paramId ≠ m.paramId) →
          (msg.status = 0x8 → m.note = msg.note → s.midiToParm.params m.paramId = 0) ∧
          (msg.status = 0x9 → m.note = msg.note →
            s.midiToParm.params m.paramId = if msg.value = 0 then 0 else 1) ∧
          (msg.status = 0xb → m.cc = msg.note →
            s.midiToParm.params m.paramId = if msg.value = 0 then 0 else 1))) ∧
    (∀ i : Int,
      s.midiToParm.params i
        = (match ((drainOrder s.midiInputQueues).filter
              (fun qm => decide (∃ m ∈ s.midiMappings, drives qm.1 qm.2 m ∧ m.paramId = i))).getLast?
            with
           | some qm => if qm.2.status = 0x8 then 0 else if qm.2.value = 0 then 0 else 1
           | none => s.params i)) ∧
    s.midiToParm.midiInputQueues = ([], []) := by
  refine ⟨?_, ?_, rfl⟩
  · intro pre post q msg hord
    have hfold : s.midiToParm.params
        = post.foldl
            (fun p (qm : Int × Message) => dispatchMessage qm.1 s.midiMappings p qm.2)
            (dispatchMessage q s.midiMappings
              (pre.foldl
                (fun p (qm : Int × Message) => dispatchMessage qm.1 s.midiMappings p qm.2)
                s.params) msg) := by
      rw [midiToParm_params, hord, List.foldl_append, List.foldl_cons]
    refine ⟨hfold, ?_⟩
    intro m hm hc
    refine ⟨fun p => dispatchMessage_hit q s.midiMappings p msg m hm hc, ?_⟩
    intro hlater
    have hkeep : s.midiToParm.params m.paramId
        = dispatchMessage q s.midiMappings
            (pre.foldl
              (fun p (qm : Int × Message) => dispatchMessage qm.1 s.midiMappings p qm.2)
              s.params) msg m.paramId := by
      rw [hfold]
      apply foldl_dispatch_untouched
      rintro qm hqm ⟨m2, hm2, hd, hp⟩
      exact hlater qm hqm m2 hm2 hd hp
    have h := dispatchMessage_hit q s.midiMappings
      (pre.foldl
        (fun p (qm : Int × Message) => dispatchMessage qm.1 s.midiMappings p qm.2)
        s.params) msg m hm hc
    refine ⟨?_, ?_, ?_⟩
    · intro hs hn
      rw [hkeep]
      exact h.1 hs hn
    · intro hs hn
      rw [hkeep]
      exact h.2.1 hs hn
    · intro hs hn
      rw [hkeep]
      exact h.2.2 hs hn
  · intro i
    rw [midiToParm_params]
    exact foldl_dispatch_last s.midiMappings i (drainOrder s.midiInputQueues) s.params

/-- C3 on the dispatch scenario: with CC 20 of controller 1 bound to parameter 7, a CC 20 of
value 0 on controller 1 sets parameter 7 (before at 1) to 0, and one of value 127 sets it
(before at 0) to 1. With several messages queued, the note-on 60 that is first on controller 0
sets both parameters bound to pad 60 of controller 0 to 1, and the CC 20 of value 0 that is
first on controller 1 sets parameter 7 to 0. -/
theorem midiToParm_sets_matching_witness :
    (dispatchScenario 1 0).midiToParm.params 7 = 0 ∧
    (dispatchScenario 0 127).midiToParm.params 7 = 1 ∧
    dispatchQueueScenario.midiToParm.params 3 = 1 ∧
    dispatchQueueScenario.midiToParm.params 9 = 1 ∧
    dispatchQueueScenario.midiToParm.params 7 = 0 :=
  ⟨((midiToParm_sets_matching (dispatchScenario 1 0)).2.1 7).trans (by decide),
   ((midiToParm_sets_matching (dispatchScenario 0 127)).2.1 7).trans (by decide),
   ((midiToParm_sets_matching dispatchQueueScenario).2.1 3).trans (by decide),
   ((midiToParm_sets_matching dispatchQueueScenario).2.1 9).trans (by decide),
   ((midiToParm_sets_matching dispatchQueueScenario).2.1 7).trans (by decide)⟩

end sspo

namespace sspo

theorem tdiv_split (a w : Int) (ha : 0 ≤ a) (hw : 0 < w) :
    Int.tdiv a w = a / w ∧ a - a / w * w = a % w := by
  have h1 : Int.tdiv a w = a / w := Int.tdiv_eq_ediv ha (le_of_lt hw)
  refine ⟨h1, ?_⟩
  have h2 := Int.emod_add_ediv a w
  have h3 : w * (a / w) = a / w * w := Int.mul_comm _ _
  omega

theorem setNote_some (o : MidiOutput) (note velocity : Int) (hn : 0 ≤ note ∧ note ≤ 127)
    (hv : 0 ≤ velocity) :
    o.setNote note velocity
      = some
          { o with
            sent := o.sent ++ [{ status := 0x9, note := note, value := velocity % 128 }]
            currentNotes :=
              fun j => if j = note then decide (velocity > 0) else o.currentNotes j } := by
  have hr : 0 ≤ note ∧ note < MAX_MIDI := ⟨hn.1, by unfold MAX_MIDI; omega⟩
  have hm : note % 128 = note := Int.emod_eq_of_lt hn.1 (by omega)
  unfold MidiOutput.setNote
  simp only [if_pos hr, hm]
  by_cases hpos : velocity > 0
  · simp [hpos]
  · have h0 : velocity = 0 := by omega
    simp [h0]

theorem pageLightsNote_grid (c : Comp) (s : Iverson) (mm : MidiMapping)
    (hc : 0 ≤ c.GRID_1_1_PARAM) (hw : 0 < c.GRID_WIDTH) (hlearn : s.isLearning = false)
    (hgrid : c.GRID_1_1_PARAM ≤ mm.paramId ∧ mm.paramId ≤ c.GRID_16_8_PARAM) :
    pageLightsNote c s mm = some (mm.controller, mm.note, specGridVelocity c s mm.paramId) := by
  obtain ⟨hd, hm⟩ := tdiv_split mm.paramId c.GRID_WIDTH (by omega) hw
  unfold pageLightsNote specGridVelocity
  simp only [hlearn, Bool.not_false, if_true, if_pos hgrid.2, hd, hm,
    Iverson.getStateGridIndex, midiFeedback]
  by_cases h1 : (s.track (mm.paramId / c.GRID_WIDTH)).getIndex
      = mm.paramId % c.GRID_WIDTH + s.page * c.GRID_WIDTH
  · simp [h1]
  · have h1b : ¬ mm.paramId % c.GRID_WIDTH + s.page * c.GRID_WIDTH
        = (s.track (mm.paramId / c.GRID_WIDTH)).getIndex := fun h => h1 h.symm
    by_cases h2 : (s.track (mm.paramId / c.GRID_WIDTH)).getLength - 1
        = mm.paramId % c.GRID_WIDTH + s.page * c.GRID_WIDTH
    · simp [h1, h1b, h2]
    · have h2b : ¬ mm.paramId % c.GRID_WIDTH + s.page * c.GRID_WIDTH
          = (s.track (mm.paramId / c.GRID_WIDTH)).getLength - 1 := fun h => h2 h.symm
      simp [h1, h1b, h2, h2b]

theorem pageLightsNote_shape (c : Comp) (s : Iverson) (mm : MidiMapping) (k n v : Int)
    (h : pageLightsNote c s mm = some (k, n, v)) :
    k = mm.controller ∧ n = mm.note ∧ 0 ≤ v ∧ v ≤ 127 := by
  unfold pageLightsNote at h
  simp only [midiFeedback] at h
  split_ifs at h <;>
    simp only [Option.some.injEq, Prod.mk.injEq, reduceCtorEq] at h <;>
    obtain ⟨h1, h2, h3⟩ := h <;>
    subst h1 h2 h3 <;>
    simp

theorem pageLightsSent_cons (c : Comp) (s : Iverson) (k : Int) (mm : MidiMapping)
    (rest : List MidiMapping) :
    pageLightsSent c s k (mm :: rest)
      = pageLightsSent c s k [mm] ++ pageLightsSent c s k rest := by
  unfold pageLightsSent
  rw [← List.map_append, ← List.filter_append, ← List.filterMap_append]
  rfl

theorem pageLightsSent_append (c : Comp) (s : Iverson) (k : Int) (l₁ l₂ : List MidiMapping) :
    pageLightsSent c s k (l₁ ++ l₂) = pageLightsSent c s k l₁ ++ pageLightsSent c s k l₂ := by
  unfold pageLightsSent
  rw [List.filterMap_append, List.filter_append, List.map_append]

theorem pageLightsLoop_sent (c : Comp) (s : Iverson) (maps : List MidiMapping)
    (outs : MidiOutput × MidiOutput) (hrange : notesInRange maps) :
    ∃ outs1 : MidiOutput × MidiOutput,
      pageLightsLoop c s maps outs = some outs1 ∧
      outs1.1.sent = outs.1.sent ++ pageLightsSent c s 0 maps ∧
      outs1.2.sent = outs.2.sent ++ pageLightsSent c s 1 maps := by
  induction maps generalizing outs with
  | nil => exact ⟨outs, rfl, by simp [pageLightsSent], by simp [pageLightsSent]⟩
  | cons mm rest ih =>
    have hmm := hrange mm (List.mem_cons_self _ _)
    have hrest : notesInRange rest := fun x hx => hrange x (List.mem_cons_of_mem _ hx)
    rw [pageLightsSent_cons c s 0, pageLightsSent_cons c s 1]
    cases hcall : pageLightsNote c s mm with
    | none =>
      obtain ⟨outs1, h1, h2, h3⟩ := ih outs hrest
      refine ⟨outs1, ?_, ?_, ?_⟩
      · simp only [pageLightsLoop, pageLightsStep, hcall]
        exact h1
      · rw [h2]
        simp [pageLightsSent, hcall]
      · rw [h3]
        simp [pageLightsSent, hcall]
    | some call =>
      obtain ⟨k, n, v⟩ := call
      obtain ⟨hk, hn, hv0, hv1⟩ := pageLightsNote_shape c s mm k n v hcall
      have hnr : 0 ≤ n ∧ n ≤ 127 := by rw [hn]; exact hmm.2
      have hvm : v % 128 = v := Int.emod_eq_of_lt hv0 (by omega)
      rcases hmm.1 with h0 | h1
      · have hk0 : k = 0 := by rw [hk]; exact h0
        subst hk0
        obtain ⟨outs1, h1, h2, h3⟩ :=
          ih ({ outs.1 with
                sent := outs.1.sent ++ [{ status := 0x9, note := n, value := v % 128 }]
                currentNotes :=
                  fun j => if j = n then decide (v > 0) else outs.1.currentNotes j },
              outs.2) hrest
        refine ⟨outs1, ?_, ?_, ?_⟩
        · simp only [pageLightsLoop, pageLightsStep, hcall, setNoteOn, if_true,
            setNote_some outs.1 n v hnr hv0, Option.map_some']
          exact h1
        · rw [h2]
          simp [pageLightsSent, hcall, hvm]
        · rw [h3]
          simp [pageLightsSent, hcall]
      · have hk1 : k = 1 := by rw [hk]; exact h1
        subst hk1
        obtain ⟨outs1, h1, h2, h3⟩ :=
          ih (outs.1,
              { outs.2 with
                sent := outs.2.sent ++ [{ status := 0x9, note := n, value := v % 128 }]
                currentNotes :=
                  fun j => if j = n then decide (v > 0) else outs.2.currentNotes j }) hrest
        refine ⟨outs1, ?_, ?_, ?_⟩
        · simp only [pageLightsLoop, pageLightsStep, hcall, setNoteOn,
            setNote_some outs.2 n v hnr hv0, Option.map_some']
          exact h1
        · rw [h2]
          simp [pageLightsSent, hcall]
        · rw [h3]
          simp [pageLightsSent, hcall, hvm]

/-- C8: in `pageLights` with `isLearning` false, over a table whose mappings name one of the
two outputs and a note in 0..127: the run returns, and the messages it sends on each output
are, after those sent before, one note message of status 0x9 per call, for all mappings of
that controller in table order. For every mapping of the table with a grid-step paramId, at
any position of the table, the message at its place has the mapped note and the velocity of
the specification: with track t = paramId div GRID_WIDTH, column i = paramId mod GRID_WIDTH and
p = i + page * GRID_WIDTH, 5 if p is the play index of track t; else, if p = length - 1,
5 when step p is active and 3 when not; else 1 when step p is active and 0 when not. -/
theorem pageLights_grid_velocity (c : Comp) (s : Iverson)
    (hc : 0 ≤ c.GRID_1_1_PARAM) (hw : 0 < c.GRID_WIDTH) (hlearn : s.isLearning = false)
    (hrange : notesInRange s.midiMappings) :
    (∀ mm : MidiMapping, c.GRID_1_1_PARAM ≤ mm.paramId → mm.paramId ≤ c.GRID_16_8_PARAM →
      pageLightsNote c s mm
        = some (mm.controller, mm.note,
            if mm.paramId % c.GRID_WIDTH + s.page * c.GRID_WIDTH
                = (s.track (mm.paramId / c.GRID_WIDTH)).getIndex then 5
            else if mm.paramId % c.GRID_WIDTH + s.page * c.GRID_WIDTH
                = (s.track (mm.paramId / c.GRID_WIDTH)).getLength - 1 then
              (if (s.track (mm.paramId / c.GRID_WIDTH)).getStep
                  (mm.paramId % c.GRID_WIDTH + s.page * c.GRID_WIDTH) then 5 else 3)
            else
              (if (s.track (mm.paramId / c.GRID_WIDTH)).getStep
                  (mm.paramId % c.GRID_WIDTH + s.page * c.GRID_WIDTH) then 1 else 0))) ∧
    ∃ s1 : Iverson,
      s.pageLights c = some s1 ∧
      s1.midiOutputs.1.sent = s.midiOutputs.1.sent ++ pageLightsSent c s 0 s.midiMappings ∧
      s1.midiOutputs.2.sent = s.midiOutputs.2.sent ++ pageLightsSent c s 1 s.midiMappings ∧
      ∀ (pre post : List MidiMapping) (mm : MidiMapping), s.midiMappings = pre ++ mm :: post →
        c.GRID_1_1_PARAM ≤ mm.paramId → mm.paramId ≤ c.GRID_16_8_PARAM →
        (mm.controller = 0 →
          s1.midiOutputs.1.sent
            = s.midiOutputs.1.sent ++ pageLightsSent c s 0 pre
              ++ { status := 0x9, note := mm.note, value := specGridVelocity c s mm.paramId }
                :: pageLightsSent c s 0 post) ∧
        (mm.controller = 1 →
          s1.midiOutputs.2.sent
            = s.midiOutputs.2.sent ++ pageLightsSent c s 1 pre
              ++ { status := 0x9, note := mm.note, value := specGridVelocity c s mm.paramId }
                :: pageLightsSent c s 1 post) := by
  refine ⟨?_, ?_⟩
  · intro mm hlo hhi
    have h := pageLightsNote_grid c s mm hc hw hlearn ⟨hlo, hhi⟩
    unfold specGridVelocity at h
    exact h
  · obtain ⟨outs1, h1, h2, h3⟩ := pageLightsLoop_sent c s s.midiMappings s.midiOutputs hrange
    refine ⟨{ s with midiOutputs := outs1 }, ?_, h2, h3, ?_⟩
    · simp only [Iverson.pageLights, h1, Option.map_some']
    · intro pre post mm htab hlo hhi
      have hnote := pageLightsNote_grid c s mm hc hw hlearn ⟨hlo, hhi⟩
      have hone : ∀ k : Int, mm.controller = k →
          pageLightsSent c s k (pre ++ mm :: post)
            = pageLightsSent c s k pre
              ++ { status := 0x9, note := mm.note, value := specGridVelocity c s mm.paramId }
                :: pageLightsSent c s k post := by
        intro k hk
        rw [pageLightsSent_append, pageLightsSent_cons]
        simp [pageLightsSent, hnote, hk]
      constructor
      · intro h0
        show outs1.1.sent = _
        rw [h2, htab, hone 0 h0, List.append_assoc]
      · intro h1c
        show outs1.2.sent = _
        rw [h3, htab, hone 1 h1c, List.append_assoc]

/-- C8 on the feedback scenario with four pads (track 0 with length 4, steps 0 and 2 active,
index 1, page 0): the mapping of column 3 gets velocity 3 and the mapping of column 1 gets
velocity 5, and `pageLights` sends on controller 0 the notes 40, 41 and 42 with the velocities
3, 5 and 1 of the columns 3, 1 and 2, and on controller 1 the note 50 with the velocity 1 of
column 0. -/
theorem pageLights_grid_velocity_witness :
    pageLightsNote Comp.layout feedbackTableScenario
        { controller := 0, note := 40, cc := -1, paramId := 3 } = some (0, 40, 3) ∧
    pageLightsNote Comp.layout feedbackTableScenario
        { controller := 0, note := 41, cc := -1, paramId := 1 } = some (0, 41, 5) ∧
    ∃ s1 : Iverson,
      feedbackTableScenario.pageLights Comp.layout = some s1 ∧
      s1.midiOutputs.1.sent
        = [{ status := 0x9, note := 40, value := 3 }, { status := 0x9, note := 41, value := 5 },
           { status := 0x9, note := 42, value := 1 }] ∧
      s1.midiOutputs.2.sent = [{ status := 0x9, note := 50, value := 1 }] := by
  have h := pageLights_grid_velocity Comp.layout feedbackTableScenario (by decide) (by decide)
    rfl (by decide)
  obtain ⟨s1, h1, h2, h3, _⟩ := h.2
  exact ⟨(h.1 _ (by decide) (by decide)).trans (by decide),
    (h.1 _ (by decide) (by decide)).trans (by decide),
    s1, h1, h2.trans (by decide), h3.trans (by decide)⟩

end sspo

namespace sspo

theorem sequenceLow_eq (t : Track) : sequenceLow t = t.sequence % 4294967296 :=
  Nat.and_pow_two_sub_one_eq_mod t.sequence 32

theorem sequenceHi_eq (t : Track) : sequenceHi t = t.sequence / 4294967296 % 4294967296 := by
  unfold sequenceHi Track.getSequence
  rw [Nat.shiftRight_eq_div_pow]
  exact Nat.and_pow_two_sub_one_eq_mod _ 32

theorem restore_sequence (tr0 tr : Track) (h : tr.sequence < 18446744073709551616) :
    (addSequenceHi (tr0.setSequence (json_integer_value (Json.integer (sequenceLow tr))))
      (Json.integer (sequenceHi tr))).sequence = tr.sequence := by
  simp only [addSequenceHi, Track.setSequence, Track.getSequence, json_integer_value, toUInt64,
    toInt64, sequenceLow_eq, sequenceHi_eq]
  omega

theorem loadTracks_getElem? (c : Comp) (rootJ : Option Json) (key : String)
    (f : Track → Json → Track) (tracks : List Track) (i : Nat) (item : Json)
    (hi : i < c.TRACK_COUNT)
    (hitem : json_array_get (json_object_get rootJ key) i = some item) :
    (loadTracks c rootJ key f tracks)[i]? = tracks[i]?.map (fun tr => f tr item) := by
  unfold loadTracks
  simp only [List.getElem?_mapIdx, if_pos hi]
  cases hobj : json_object_get rootJ key with
  | none => simp [hobj, json_array_get] at hitem
  | some a =>
    rw [hobj] at hitem
    simp only [hitem]

theorem mem_of_getElem?_some {α : Type} (l : List α) (i : Nat) (a : α) (h : l[i]? = some a) :
    a ∈ l := by
  obtain ⟨hlt, rfl⟩ := List.getElem?_eq_some_iff.mp h
  exact List.getElem_mem hlt

theorem dataToJson_get (c : Comp) (saved : Iverson) (i : Nat) (hi : i < c.TRACK_COUNT) :
    json_array_get (json_object_get (some (saved.dataToJson c)) "actives") i
      = some (Json.boolean (saved.tracks.getD i default).getActive) ∧
    json_array_get (json_object_get (some (saved.dataToJson c)) "lengths") i
      = some (Json.integer (saved.tracks.getD i default).getLength) ∧
    json_array_get (json_object_get (some (saved.dataToJson c)) "index") i
      = some (Json.integer (saved.tracks.getD i default).getIndex) ∧
    json_array_get (json_object_get (some (saved.dataToJson c)) "sequenceLow") i
      = some (Json.integer (sequenceLow (saved.tracks.getD i default))) ∧
    json_array_get (json_object_get (some (saved.dataToJson c)) "sequenceHi") i
      = some (Json.integer (sequenceHi (saved.tracks.getD i default))) := by
  refine ⟨?_, ?_, ?_, ?_, ?_⟩ <;>
    simp [Iverson.dataToJson, json_object_get, json_array_get, List.lookup, hi]

/-- C2: for saved tracks with 64-bit patterns, `dataToJson` stores for every track
sequenceLow = sequence mod 2^32 and sequenceHi = sequence div 2^32, both below 2^32, and
`dataFromJson` on that document (low applied first, then the high word shifted by 32 and added
in 64 bits) restores each pattern whatever the tracks held before the load, together with the
active flag, length and index of every track. -/
theorem dataFromJson_dataToJson_tracks (c : Comp) (saved prior : Iverson)
    (hsaved : saved.tracks.length = c.TRACK_COUNT)
    (hprior : prior.tracks.length = c.TRACK_COUNT)
    (h64 : ∀ tr ∈ saved.tracks, tr.sequence < 18446744073709551616) :
    (∀ (i : Nat) (tr : Track), saved.tracks[i]? = some tr →
      json_array_get (json_object_get (some (saved.dataToJson c)) "sequenceLow") i
        = some (Json.integer ((tr.sequence % 4294967296 : Nat) : Int)) ∧
      json_array_get (json_object_get (some (saved.dataToJson c)) "sequenceHi") i
        = some (Json.integer ((tr.sequence / 4294967296 : Nat) : Int)) ∧
      tr.sequence % 4294967296 < 4294967296 ∧ tr.sequence / 4294967296 < 4294967296) ∧
    (prior.dataFromJson c (some (saved.dataToJson c))).tracks = saved.tracks := by
  have hget : ∀ (i : Nat) (tr : Track), saved.tracks[i]? = some tr →
      i < c.TRACK_COUNT ∧ saved.tracks.getD i default = tr := by
    intro i tr h
    have hlt : i < saved.tracks.length := (List.getElem?_eq_some_iff.mp h).1
    refine ⟨by omega, ?_⟩
    simp [List.getD, h]
  constructor
  · intro i tr h
    obtain ⟨hi, hd⟩ := hget i tr h
    have hlt := h64 tr (mem_of_getElem?_some _ _ _ h)
    have hj := dataToJson_get c saved i hi
    refine ⟨?_, ?_, by omega, by omega⟩
    · rw [hj.2.2.2.1, hd, sequenceLow_eq]
    · rw [hj.2.2.2.2, hd, sequenceHi_eq]
      have hmod : tr.sequence / 4294967296 % 4294967296 = tr.sequence / 4294967296 := by omega
      rw [hmod]
  · apply List.ext_getElem?
    intro i
    by_cases hi : i < c.TRACK_COUNT
    · have hs : i < saved.tracks.length := by omega
      have hp : i < prior.tracks.length := by omega
      have hse : saved.tracks[i]? = some saved.tracks[i] := List.getElem?_eq_getElem hs
      have hpe : prior.tracks[i]? = some prior.tracks[i] := List.getElem?_eq_getElem hp
      obtain ⟨-, hd⟩ := hget i _ hse
      have hlt := h64 _ (mem_of_getElem?_some _ _ _ hse)
      have hj := dataToJson_get c saved i hi
      simp only [Iverson.dataFromJson]
      rw [loadTracks_getElem? c _ "sequenceHi" _ _ i _ hi hj.2.2.2.2,
        loadTracks_getElem? c _ "sequenceLow" _ _ i _ hi hj.2.2.2.1,
        loadTracks_getElem? c _ "index" _ _ i _ hi hj.2.2.1,
        loadTracks_getElem? c _ "lengths" _ _ i _ hi hj.2.1,
        loadTracks_getElem? c _ "actives" _ _ i _ hi hj.1,
        hpe, hse, hd]
      simp only [Option.map_some', Option.some.injEq]
      have hq := restore_sequence
        (((prior.tracks[i].setActive (json_boolean_value (Json.boolean saved.tracks[i].getActive))).setLength
          (json_integer_value (Json.integer saved.tracks[i].getLength))).setIndex
          (json_integer_value (Json.integer saved.tracks[i].getIndex))) saved.tracks[i] hlt
      cases hx : saved.tracks[i] with
      | mk a l ix sq =>
        rw [hx] at hq
        simp only [addSequenceHi, Track.setSequence, Track.setIndex, Track.setLength,
          Track.setActive, Track.getActive, Track.getLength, Track.getIndex, json_boolean_value,
          json_integer_value, Track.mk.injEq, true_and] at hq ⊢
        exact hq
    · have hs : saved.tracks.length ≤ i := by omega
      have hp : prior.tracks.length ≤ i := by omega
      simp only [Iverson.dataFromJson, loadTracks, List.getElem?_mapIdx]
      rw [List.getElem?_eq_none hs, List.getElem?_eq_none hp]
      rfl

/-- C2 on two saved tracks, the first with the all-ones pattern, loaded over tracks that held
another pattern. -/
theorem dataFromJson_dataToJson_tracks_witness :
    savedScenario.tracks[0]?
      = some { active := true, length := 64, index := 63, sequence := 0xFFFFFFFFFFFFFFFF } ∧
    (priorScenario.dataFromJson Comp.layout (some (savedScenario.dataToJson Comp.layout))).tracks
      = savedScenario.tracks :=
  ⟨rfl, (dataFromJson_dataToJson_tracks Comp.layout savedScenario priorScenario rfl rfl
    (by decide)).2⟩

end sspo

namespace Zilah

/-- C11: for the aggregator without zeroing, all m, l in 0..127 and every register value at
most 0x3FFF: `setMsb m` sets bits 7..13 to m and leaves bits 0..6, `setLsb l` sets bits 0..6 to
l and leaves bits 7..13; the two commute and in either order give `(m << 7) | l`. -/
theorem withoutZeroing_setMsb_setLsb (a : LsbOrMSbWithoutZeroing) (m l : Nat) (hm : m ≤ 127)
    (hl : l ≤ 127) (hr : a.fourteenBit.value ≤ 0x3FFF) :
    (a.setMsb m).fourteenBit.value / 128 = m ∧
    (a.setMsb m).fourteenBit.value % 128 = a.fourteenBit.value % 128 ∧
    (a.setLsb l).fourteenBit.value % 128 = l ∧
    (a.setLsb l).fourteenBit.value / 128 = a.fourteenBit.value / 128 ∧
    (a.setMsb m).setLsb l = (a.setLsb l).setMsb m ∧
    ((a.setMsb m).setLsb l).fourteenBit.value = (m <<< 7) ||| l ∧
    ((a.setLsb l).setMsb m).fourteenBit.value = (m <<< 7) ||| l := by
  have h1 : (a.setMsb m).fourteenBit.value = m * 128 + a.fourteenBit.value % 128 :=
    setMsb_value _ m hm
  have h2 : (a.setLsb l).fourteenBit.value = a.fourteenBit.value / 128 % 128 * 128 + l :=
    setLsb_value _ l hl
  have h3 : ((a.setMsb m).setLsb l).fourteenBit.value = m * 128 + l := by
    have h := setLsb_value (a.setMsb m).fourteenBit l hl
    rw [h1] at h
    show ((a.setMsb m).fourteenBit.setLsb l).value = m * 128 + l
    omega
  have h4 : ((a.setLsb l).setMsb m).fourteenBit.value = m * 128 + l := by
    have h := setMsb_value (a.setLsb l).fourteenBit m hm
    rw [h2] at h
    show ((a.setLsb l).fourteenBit.setMsb m).value = m * 128 + l
    omega
  have hr2 : a.fourteenBit.value ≤ 16383 := hr
  refine ⟨by omega, by omega, by omega, by omega, ?_, ?_, ?_⟩
  · have hv : ((a.setMsb m).setLsb l).fourteenBit.value
        = ((a.setLsb l).setMsb m).fourteenBit.value := by rw [h3, h4]
    cases hx : (a.setMsb m).setLsb l with
    | mk f =>
      cases hy : (a.setLsb l).setMsb m with
      | mk g =>
        rw [hx, hy] at hv
        cases f
        cases g
        simp only at hv
        rw [hv]
  · rw [shl_or m l hl]; exact h3
  · rw [shl_or m l hl]; exact h4

/-- C11 at register 0x1234, m = 5, l = 10. -/
theorem withoutZeroing_setMsb_setLsb_witness :
    (({ fourteenBit := { value := 0x1234 } } : LsbOrMSbWithoutZeroing).setMsb 5).setLsb 10
      = (({ fourteenBit := { value := 0x1234 } } : LsbOrMSbWithoutZeroing).setLsb 10).setMsb 5 ∧
    ((({ fourteenBit := { value := 0x1234 } } : LsbOrMSbWithoutZeroing).setMsb 5).setLsb
      10).fourteenBit.value = (5 <<< 7) ||| 10 :=
  ⟨(withoutZeroing_setMsb_setLsb { fourteenBit := { value := 0x1234 } } 5 10 (by decide)
      (by decide) (by decide)).2.2.2.2.1,
   (withoutZeroing_setMsb_setLsb { fourteenBit := { value := 0x1234 } } 5 10 (by decide)
      (by decide) (by decide)).2.2.2.2.2.1⟩

end Zilah

namespace Zilah

theorem setMsb_le (f : FourteenBit) (m : Nat) (hm : m ≤ 127) : (f.setMsb m).value ≤ 16383 := by
  rw [setMsb_value f m hm]
  omega

theorem withoutZeroing_foldl_le (calls : List Call) (a : LsbOrMSbWithoutZeroing)
    (hargs : ∀ k ∈ calls, k.arg ≤ 127) (ha : a.fourteenBit.value ≤ 16383) :
    (calls.foldl LsbOrMSbWithoutZeroing.call a).fourteenBit.value ≤ 16383 := by
  induction calls generalizing a with
  | nil => exact ha
  | cons k rest ih =>
    apply ih _ (fun x hx => hargs x (List.mem_cons_of_mem _ hx))
    have hk := hargs k (List.mem_cons_self _ _)
    cases k with
    | msb v => exact setMsb_le _ v hk
    | lsb v => exact Nat.le_of_lt_succ (setLsb_lt _ v)

theorem msbFirst_foldl_le (calls : List Call) (a : MsbFirstWaitForLsb)
    (ha : a.fourteenBit.value ≤ 16383) :
    (calls.foldl MsbFirstWaitForLsb.call a).fourteenBit.value ≤ 16383 := by
  induction calls generalizing a with
  | nil => exact ha
  | cons k rest ih =>
    apply ih
    cases k with
    | msb v => exact ha
    | lsb v =>
      show (a.setLsb v).fourteenBit.value ≤ 16383
      unfold MsbFirstWaitForLsb.setLsb
      split
      · exact Nat.le_of_lt_succ (setLsb_lt _ v)
      · exact Nat.le_of_lt_succ (setLsb_lt _ v)

theorem getNormalised_bounds (f : FourteenBit) (h : f.value ≤ 16383) :
    0 ≤ f.getNormalised ∧ f.getNormalised ≤ 1 ∧
    (f.getNormalised = 1 ↔ f.value / 128 = 127 ∧ f.value % 128 = 127) := by
  unfold FourteenBit.getNormalised
  have hc : ((f.value : ℚ)) ≤ 16383 := by exact_mod_cast h
  have h0 : (0 : ℚ) ≤ (f.value : ℚ) := by exact_mod_cast Nat.zero_le _
  refine ⟨by positivity, ?_, ?_⟩
  · rw [div_le_one (by norm_num)]
    exact hc
  · rw [div_eq_one_iff_eq (by norm_num)]
    constructor
    · intro he
      have hv : f.value = 16383 := by exact_mod_cast he
      omega
    · intro hb
      have hv : f.value = 16383 := by omega
      rw [hv]
      norm_num

/-- C12: for each of the three strategies, from a freshly constructed aggregator and after any
sequence of `setMsb` / `setLsb` calls with arguments in 0..127, the register is in 0..16383, so
`get` = register / 16383 lies in [0, 1] and is 1 exactly when the register holds MSB 127 and
LSB 127; `get` is the same function of the register for all three. -/
theorem get_in_unit_interval (calls : List Call) (hargs : ∀ k ∈ calls, k.arg ≤ 127) :
    ((LsbOrMSbWithZeroingMidi10.run calls).fourteenBit.value ≤ 16383 ∧
      0 ≤ (LsbOrMSbWithZeroingMidi10.run calls).get ∧
      (LsbOrMSbWithZeroingMidi10.run calls).get ≤ 1 ∧
      ((LsbOrMSbWithZeroingMidi10.run calls).get = 1 ↔
        (LsbOrMSbWithZeroingMidi10.run calls).fourteenBit.value / 128 = 127 ∧
        (LsbOrMSbWithZeroingMidi10.run calls).fourteenBit.value % 128 = 127)) ∧
    ((LsbOrMSbWithoutZeroing.run calls).fourteenBit.value ≤ 16383 ∧
      0 ≤ (LsbOrMSbWithoutZeroing.run calls).get ∧
      (LsbOrMSbWithoutZeroing.run calls).get ≤ 1 ∧
      ((LsbOrMSbWithoutZeroing.run calls).get = 1 ↔
        (LsbOrMSbWithoutZeroing.run calls).fourteenBit.value / 128 = 127 ∧
        (LsbOrMSbWithoutZeroing.run calls).fourteenBit.value % 128 = 127)) ∧
    ((MsbFirstWaitForLsb.run calls).fourteenBit.value ≤ 16383 ∧
      0 ≤ (MsbFirstWaitForLsb.run calls).get ∧
      (MsbFirstWaitForLsb.run calls).get ≤ 1 ∧
      ((MsbFirstWaitForLsb.run calls).get = 1 ↔
        (MsbFirstWaitForLsb.run calls).fourteenBit.value / 128 = 127 ∧
        (MsbFirstWaitForLsb.run calls).fourteenBit.value % 128 = 127)) ∧
    (∀ (x : LsbOrMSbWithZeroingMidi10) (y : LsbOrMSbWithoutZeroing) (z : MsbFirstWaitForLsb),
      x.get = (x.fourteenBit.value : ℚ) / 16383 ∧ y.get = (y.fourteenBit.value : ℚ) / 16383 ∧
      z.get = (z.fourteenBit.value : ℚ) / 16383) := by
  have h1 : (LsbOrMSbWithZeroingMidi10.run calls).fourteenBit.value ≤ 16383 :=
    Nat.le_of_lt_succ (zeroing_run_lt calls)
  have h2 : (LsbOrMSbWithoutZeroing.run calls).fourteenBit.value ≤ 16383 :=
    withoutZeroing_foldl_le calls {} hargs (by decide)
  have h3 : (MsbFirstWaitForLsb.run calls).fourteenBit.value ≤ 16383 :=
    msbFirst_foldl_le calls {} (by decide)
  exact ⟨⟨h1, getNormalised_bounds _ h1⟩, ⟨h2, getNormalised_bounds _ h2⟩,
    ⟨h3, getNormalised_bounds _ h3⟩, fun _ _ _ => ⟨rfl, rfl, rfl⟩⟩

/-- C12 on the calls setMsb 127, setLsb 127, after which `get` is 1 for all three. -/
theorem get_in_unit_interval_witness :
    (LsbOrMSbWithZeroingMidi10.run [Call.msb 127, Call.lsb 127]).fourteenBit.value ≤ 16383 ∧
    (LsbOrMSbWithoutZeroing.run [Call.msb 127, Call.lsb 127]).fourteenBit.value ≤ 16383 ∧
    (MsbFirstWaitForLsb.run [Call.msb 127, Call.lsb 127]).fourteenBit.value ≤ 16383 ∧
    (MsbFirstWaitForLsb.run [Call.msb 127, Call.lsb 127]).get ≤ 1 :=
  ⟨(get_in_unit_interval [Call.msb 127, Call.lsb 127] (by decide)).1.1,
   (get_in_unit_interval [Call.msb 127, Call.lsb 127] (by decide)).2.1.1,
   (get_in_unit_interval [Call.msb 127, Call.lsb 127] (by decide)).2.2.1.1,
   (get_in_unit_interval [Call.msb 127, Call.lsb 127] (by decide)).2.2.1.2.2.1⟩

end Zilah

namespace sspo

theorem toInt32_of_isInt32 (x : Int) (h : isInt32 x) : toInt32 x = x := by
  unfold isInt32 at h
  unfold toInt32
  omega

theorem resize_length (maps : List MidiMapping) (n : Nat) : (resize maps n).length = n := by
  unfold resize
  rw [List.length_append, List.length_take, List.length_replicate]
  omega

theorem loadMapping_mappingToJson (t x : MidiMapping) :
    loadMapping (mappingToJson t) x
      = { controller := toInt32 t.controller, note := toInt32 t.note, cc := toInt32 t.cc,
          paramId := toInt32 t.paramId } := by
  simp [loadMapping, mappingToJson, json_object_get, List.lookup, json_integer_value]

theorem dataToJson_midiBinding (c : Comp) (s : Iverson) :
    json_object_get (some (s.dataToJson c)) "midiBinding"
      = some (Json.array (s.midiMappings.map mappingToJson)) := by
  simp [Iverson.dataToJson, json_object_get, List.lookup]

/-- C13: for every mapping table (any length, any `int` field values, -1 included) and
whatever the table held before the load, `dataFromJson` on the document that `dataToJson`
produced for it gives back the same table: same length, same order, same four fields in every
entry. -/
theorem dataFromJson_dataToJson_mappings (c : Comp) (saved prior : Iverson)
    (htyped : ∀ m ∈ saved.midiMappings, m.wellTyped) :
    (prior.dataFromJson c (some (saved.dataToJson c))).midiMappings = saved.midiMappings := by
  show loadMappings (some (saved.dataToJson c)) prior.midiMappings = saved.midiMappings
  unfold loadMappings
  rw [dataToJson_midiBinding]
  apply List.ext_getElem?
  intro i
  rw [List.getElem?_mapIdx]
  simp only [json_array_size, json_array_get, List.length_map, List.getElem?_map]
  by_cases hi : i < saved.midiMappings.length
  · have hr : i < (resize prior.midiMappings saved.midiMappings.length).length := by
      rw [resize_length]; exact hi
    rw [List.getElem?_eq_getElem hr, List.getElem?_eq_getElem hi]
    simp only [Option.map_some', loadMapping_mappingToJson, Option.some.injEq]
    obtain ⟨h1, h2, h3, h4⟩ := htyped _ (List.getElem_mem hi)
    rw [toInt32_of_isInt32 _ h1, toInt32_of_isInt32 _ h2, toInt32_of_isInt32 _ h3,
      toInt32_of_isInt32 _ h4]
  · have hr : (resize prior.midiMappings saved.midiMappings.length).length ≤ i := by
      rw [resize_length]; omega
    rw [List.getElem?_eq_none hr, List.getElem?_eq_none (by omega)]
    rfl

/-- C13 on a table of three mappings loaded over a table of four others. -/
theorem dataFromJson_dataToJson_mappings_witness :
    (priorMappingsScenario.dataFromJson Comp.layout
      (some (savedMappingsScenario.dataToJson Comp.layout))).midiMappings
      = savedMappingsScenario.midiMappings :=
  dataFromJson_dataToJson_mappings Comp.layout savedMappingsScenario priorMappingsScenario
    (by decide)

end sspo

namespace sspo

theorem loadTracks_of_missing (c : Comp) (rootJ : Option Json) (key : String)
    (f : Track → Json → Track) (tracks : List Track) (h : json_object_get rootJ key = none) :
    loadTracks c rootJ key f tracks = tracks := by
  unfold loadTracks
  apply List.ext_getElem?
  intro i
  rw [List.getElem?_mapIdx, h]
  cases tracks[i]? with
  | none => rfl
  | some tr => simp

theorem loadTracks_map_preserved {β : Type} (proj : Track → β) (c : Comp) (rootJ : Option Json)
    (key : String) (f : Track → Json → Track) (tracks : List Track)
    (hf : ∀ tr j, proj (f tr j) = proj tr) :
    (loadTracks c rootJ key f tracks).map proj = tracks.map proj := by
  unfold loadTracks
  apply List.ext_getElem?
  intro i
  rw [List.getElem?_map, List.getElem?_map, List.getElem?_mapIdx]
  cases tracks[i]? with
  | none => rfl
  | some tr =>
    simp only [Option.map_some', Option.some.injEq]
    split
    · split
      · split
        · exact hf _ _
        · rfl
      · rfl
    · rfl

theorem addSequenceHi_low (tr : Track) (j : Json) :
    (addSequenceHi tr j).sequence % 4294967296 = tr.sequence % 4294967296 := by
  simp only [addSequenceHi, Track.setSequence, Track.getSequence, toUInt64, toInt64]
  omega

theorem loadTracks_present (c : Comp) (rootJ : Option Json) (key : String)
    (f : Track → Json → Track) (tracks : List Track) (i : Nat) (tr : Track) (item : Json)
    (hi : i < c.TRACK_COUNT) (htr : tracks[i]? = some tr)
    (hitem : json_array_get (json_object_get rootJ key) i = some item) :
    (loadTracks c rootJ key f tracks)[i]? = some (f tr item) := by
  rw [loadTracks_getElem? c rootJ key f tracks i item hi hitem, htr]
  rfl

/-- C14 as stated fails: in a document without the member sequenceHi but with sequenceLow, the
load changes the high 32 bits of the sequences. -/
theorem missing_sequenceHi_changes_high_bits :
    (json_object_get (some lowOnlyDocument) "sequenceHi").isNone = true ∧
    (priorScenario.dataFromJson Comp.layout (some lowOnlyDocument)).tracks.map
        (fun tr => tr.sequence / 4294967296)
      ≠ priorScenario.tracks.map (fun tr => tr.sequence / 4294967296) := by
  decide

/-- C14 amended: for each of the members actives, lengths, index and sequenceLow, a load of a
document without that member leaves the active flags, the lengths, the indexes and the low 32
bits of the sequences as they were, whatever other members are present; without sequenceHi
the sequences are as they were if sequenceLow is missing too, while a present sequenceLow item
replaces the whole 64-bit sequence of its track. -/
theorem dataFromJson_missing_member (c : Comp) (prior : Iverson) (rootJ : Option Json) :
    (json_object_get rootJ "actives" = none →
      (prior.dataFromJson c rootJ).tracks.map Track.active = prior.tracks.map Track.active) ∧
    (json_object_get rootJ "lengths" = none →
      (prior.dataFromJson c rootJ).tracks.map Track.length = prior.tracks.map Track.length) ∧
    (json_object_get rootJ "index" = none →
      (prior.dataFromJson c rootJ).tracks.map Track.index = prior.tracks.map Track.index) ∧
    (json_object_get rootJ "sequenceLow" = none →
      (prior.dataFromJson c rootJ).tracks.map (fun tr => tr.sequence % 4294967296)
        = prior.tracks.map (fun tr => tr.sequence % 4294967296)) ∧
    (json_object_get rootJ "sequenceHi" = none → json_object_get rootJ "sequenceLow" = none →
      (prior.dataFromJson c rootJ).tracks.map Track.sequence
        = prior.tracks.map Track.sequence) ∧
    (json_object_get rootJ "sequenceHi" = none →
      ∀ (i : Nat) (tr : Track) (item : Json), i < c.TRACK_COUNT → prior.tracks[i]? = some tr →
        json_array_get (json_object_get rootJ "sequenceLow") i = some item →
        ((prior.dataFromJson c rootJ).tracks.map Track.sequence)[i]?
          = some (json_integer_value item % 18446744073709551616).toNat) := by
  have pA : ∀ {β : Type} (proj : Track → β) (ts : List Track),
      (∀ tr j, proj (tr.setActive (json_boolean_value j)) = proj tr) →
      (loadTracks c rootJ "actives" (fun tr j => tr.setActive (json_boolean_value j)) ts).map proj
        = ts.map proj :=
    fun proj ts hf => loadTracks_map_preserved proj c rootJ "actives" _ ts hf
  have pL : ∀ {β : Type} (proj : Track → β) (ts : List Track),
      (∀ tr j, proj (tr.setLength (json_integer_value j)) = proj tr) →
      (loadTracks c rootJ "lengths" (fun tr j => tr.setLength (json_integer_value j)) ts).map proj
        = ts.map proj :=
    fun proj ts hf => loadTracks_map_preserved proj c rootJ "lengths" _ ts hf
  have pI : ∀ {β : Type} (proj : Track → β) (ts : List Track),
      (∀ tr j, proj (tr.setIndex (json_integer_value j)) = proj tr) →
      (loadTracks c rootJ "index" (fun tr j => tr.setIndex (json_integer_value j)) ts).map proj
        = ts.map proj :=
    fun proj ts hf => loadTracks_map_preserved proj c rootJ "index" _ ts hf
  have pS : ∀ {β : Type} (proj : Track → β) (ts : List Track),
      (∀ tr j, proj (tr.setSequence (json_integer_value j)) = proj tr) →
      (loadTracks c rootJ "sequenceLow" (fun tr j => tr.setSequence (json_integer_value j))
        ts).map proj = ts.map proj :=
    fun proj ts hf => loadTracks_map_preserved proj c rootJ "sequenceLow" _ ts hf
  have pH : ∀ {β : Type} (proj : Track → β) (ts : List Track),
      (∀ tr j, proj (addSequenceHi tr j) = proj tr) →
      (loadTracks c rootJ "sequenceHi" addSequenceHi ts).map proj = ts.map proj :=
    fun proj ts hf => loadTracks_map_preserved proj c rootJ "sequenceHi" _ ts hf
  refine ⟨?_, ?_, ?_, ?_, ?_, ?_⟩
  · intro h
    simp only [Iverson.dataFromJson]
    rw [pH Track.active _ (fun _ _ => rfl), pS Track.active _ (fun _ _ => rfl),
      pI Track.active _ (fun _ _ => rfl), pL Track.active _ (fun _ _ => rfl),
      loadTracks_of_missing _ _ _ _ _ h]
  · intro h
    simp only [Iverson.dataFromJson]
    rw [pH Track.length _ (fun _ _ => rfl), pS Track.length _ (fun _ _ => rfl),
      pI Track.length _ (fun _ _ => rfl), loadTracks_of_missing _ _ _ _ _ h,
      pA Track.length _ (fun _ _ => rfl)]
  · intro h
    simp only [Iverson.dataFromJson]
    rw [pH Track.index _ (fun _ _ => rfl), pS Track.index _ (fun _ _ => rfl),
      loadTracks_of_missing _ _ _ _ _ h, pL Track.index _ (fun _ _ => rfl),
      pA Track.index _ (fun _ _ => rfl)]
  · intro h
    simp only [Iverson.dataFromJson]
    rw [pH (fun tr => tr.sequence % 4294967296) _ addSequenceHi_low,
      loadTracks_of_missing _ _ _ _ _ h,
      pI (fun tr => tr.sequence % 4294967296) _ (fun _ _ => rfl),
      pL (fun tr => tr.sequence % 4294967296) _ (fun _ _ => rfl),
      pA (fun tr => tr.sequence % 4294967296) _ (fun _ _ => rfl)]
  · intro hhi hlow
    simp only [Iverson.dataFromJson]
    rw [loadTracks_of_missing _ _ _ _ _ hhi, loadTracks_of_missing _ _ _ _ _ hlow,
      pI Track.sequence _ (fun _ _ => rfl), pL Track.sequence _ (fun _ _ => rfl),
      pA Track.sequence _ (fun _ _ => rfl)]
  · intro hhi i tr item hi htr hitem
    simp only [Iverson.dataFromJson]
    rw [loadTracks_of_missing _ _ _ _ _ hhi, List.getElem?_map]
    have h3 : ∃ tr3, (loadTracks c rootJ "index" (fun tr j => tr.setIndex (json_integer_value j))
        (loadTracks c rootJ "lengths" (fun tr j => tr.setLength (json_integer_value j))
          (loadTracks c rootJ "actives" (fun tr j => tr.setActive (json_boolean_value j))
            prior.tracks)))[i]? = some tr3 := by
      have hlen : i < prior.tracks.length := (List.getElem?_eq_some_iff.mp htr).1
      refine ⟨_, List.getElem?_eq_getElem ?_⟩
      simp only [loadTracks, List.length_mapIdx]
      exact hlen
    obtain ⟨tr3, h3⟩ := h3
    rw [loadTracks_present c rootJ "sequenceLow" _ _ i tr3 item hi h3 hitem]
    rfl

/-- C14 amended, on a document with the member lengths only, loaded over tracks with another
pattern: the active flags and the sequences are as before. -/
theorem dataFromJson_missing_member_witness :
    (priorScenario.dataFromJson Comp.layout (some lengthsOnlyDocument)).tracks.map Track.active
      = priorScenario.tracks.map Track.active ∧
    (priorScenario.dataFromJson Comp.layout (some lengthsOnlyDocument)).tracks.map Track.sequence
      = priorScenario.tracks.map Track.sequence :=
  ⟨(dataFromJson_missing_member Comp.layout priorScenario (some lengthsOnlyDocument)).1 rfl,
   (dataFromJson_missing_member Comp.layout priorScenario
      (some lengthsOnlyDocument)).2.2.2.2.1 rfl rfl⟩

/-- The table part of a load of a document without the member midiBinding: the resize runs
with size 0 and leaves an empty table. -/
theorem dataFromJson_missing_midiBinding (c : Comp) (prior : Iverson) (rootJ : Option Json)
    (h : json_object_get rootJ "midiBinding" = none) :
    (prior.dataFromJson c rootJ).midiMappings = [] := by
  show loadMappings rootJ prior.midiMappings = []
  unfold loadMappings
  rw [h]
  simp [json_array_size, resize]

end sspo

namespace sspo

/-- As `doLearn_table_induct`, for properties that survive the commit of a complete mapping
only. -/
theorem doLearn_table_induct_complete (Q : List MidiMapping → Prop) (h0 : Q [])
    (herase : ∀ (p : MidiMapping → Bool) (l : List MidiMapping), Q l → Q (l.eraseP p))
    (hcommit : ∀ (l : List MidiMapping) (m : MidiMapping), isComplete m = true → Q l →
      Q (commit l m))
    (c : Comp) (s : Iverson) (h : Q s.midiMappings) : Q (s.doLearn c).midiMappings := by
  have a1 : Q (clearAllStep s).midiMappings := by
    unfold clearAllStep
    split
    · exact h0
    · exact h
  have hfound : ∀ (p : MidiMapping → MidiMapping → Bool) (t : Iverson),
      Q t.midiMappings → Q (clearFound p t).midiMappings := by
    intro p t ht
    unfold clearFound
    split
    · exact herase _ _ ht
    · exact ht
  have a2 : Q (clearMappingStep (clearAllStep s)).midiMappings := by
    unfold clearMappingStep
    split
    · apply hfound
      split
      · exact hfound _ _ a1
      · exact a1
    · exact a1
  unfold Iverson.doLearn
  simp only
  split
  · unfold learnStep
    rw [(scanStep_frame c _).1]
    show Q (commitStep _).midiMappings
    unfold commitStep
    split
    · next hc => exact hcommit _ _ hc a2
    · exact a2
  · exact a2

theorem runCycles_table_induct_complete (Q : List MidiMapping → Prop) (h0 : Q [])
    (herase : ∀ (p : MidiMapping → Bool) (l : List MidiMapping), Q l → Q (l.eraseP p))
    (hcommit : ∀ (l : List MidiMapping) (m : MidiMapping), isComplete m = true → Q l →
      Q (commit l m))
    (c : Comp) (inputs : List CycleInput) (s : Iverson) (h : Q s.midiMappings) :
    Q (runCycles c s inputs).midiMappings := by
  induction inputs generalizing s with
  | nil => exact h
  | cons i rest ih =>
    exact ih _ (doLearn_table_induct_complete Q h0 herase hcommit c _ h)

theorem commit_mem (l : List MidiMapping) (m x : MidiMapping) (hx : x ∈ commit l m) :
    x ∈ l ∨ x = m := by
  unfold commit at hx
  rcases List.mem_append.mp hx with h | h
  · left
    exact (List.eraseP_sublist l).subset
      ((List.eraseP_sublist _).subset ((List.eraseP_sublist _).subset h))
  · right
    exact List.mem_singleton.mp h

/-- C15 as stated fails: after two learn cycles in which a note-on and a CC arrived together,
the table holds an entry with both note and cc set. -/
theorem entry_with_note_and_cc :
    (runCycles Comp.layout Iverson.idle noteAndCcCycles).midiMappings
      = [{ controller := 0, note := 60, cc := 20, paramId := 5 }] ∧
    ¬ ∀ m ∈ (runCycles Comp.layout Iverson.idle noteAndCcCycles).midiMappings,
      (m.note ≠ -1 ∧ m.cc = -1) ∨ (m.note = -1 ∧ m.cc ≠ -1) := by
  decide

/-- C15 amended: starting from an empty mapping table, after any sequence of `doLearn` cycles
every entry of the table has at least one of note and cc set (different from -1), and its
controller and paramId are both set. -/
theorem runCycles_entries_complete (c : Comp) (s : Iverson) (inputs : List CycleInput)
    (hempty : s.midiMappings = []) :
    ∀ m ∈ (runCycles c s inputs).midiMappings,
      (m.note ≠ -1 ∨ m.cc ≠ -1) ∧ m.controller ≠ -1 ∧ m.paramId ≠ -1 := by
  have hq : ∀ m ∈ (runCycles c s inputs).midiMappings, isComplete m = true := by
    apply runCycles_table_induct_complete (fun l => ∀ m ∈ l, isComplete m = true)
    · intro m hm
      simp at hm
    · intro p l hl m hm
      exact hl m ((List.eraseP_sublist l).subset hm)
    · intro l m hc hl x hx
      rcases commit_mem l m x hx with h | h
      · exact hl x h
      · rw [h]; exact hc
    · rw [hempty]
      intro m hm
      simp at hm
  intro m hm
  have h := hq m hm
  simp only [isComplete, Bool.and_eq_true, Bool.or_eq_true, bne_iff_ne, ne_eq] at h
  exact ⟨h.1.2.symm, h.1.1, h.2⟩

/-- C15 amended, on the two learn cycles with a note-on and a CC: the committed entry has its
note, controller and paramId set. -/
theorem runCycles_entries_complete_witness :
    ({ controller := 0, note := 60, cc := 20, paramId := 5 } : MidiMapping)
      ∈ (runCycles Comp.layout Iverson.idle noteAndCcCycles).midiMappings ∧
    (((60 : Int) ≠ -1 ∨ (20 : Int) ≠ -1) ∧ (0 : Int) ≠ -1 ∧ (5 : Int) ≠ -1) :=
  ⟨by decide,
   runCycles_entries_complete Comp.layout Iverson.idle noteAndCcCycles rfl
     { controller := 0, note := 60, cc := 20, paramId := 5 } (by decide)⟩

/-- C16: `setCC (cc, val)` sends the CC message (status 0xb, number cc, value val) exactly
when val differs from the value recorded for cc, and then records val; a second `setCC` with
the same cc and val sends nothing and leaves the output as it is; after `reset` the recorded
value is -1, so the first `setCC` with a val in 0..127 sends. -/
theorem setCC_sends_iff_changed (o : MidiOutput) (cc val : Int) :
    (val ≠ o.currentCC cc →
      (o.setCC cc val).sent = o.sent ++ [{ status := 0xb, note := cc, value := val }]) ∧
    (val = o.currentCC cc → o.setCC cc val = o) ∧
    (o.setCC cc val).currentCC cc = val ∧
    (∀ other, other ≠ cc → (o.setCC cc val).currentCC other = o.currentCC other) ∧
    (o.setCC cc val).currentNotes = o.currentNotes ∧
    (o.setCC cc val).setCC cc val = o.setCC cc val ∧
    o.reset.currentCC cc = -1 ∧
    (0 ≤ val → val ≤ 127 →
      (o.reset.setCC cc val).sent
        = o.reset.sent ++ [{ status := 0xb, note := cc, value := val }]) := by
  have hrec : (o.setCC cc val).currentCC cc = val := by
    unfold MidiOutput.setCC
    split
    · next h => exact h.symm
    · simp
  refine ⟨?_, ?_, hrec, ?_, ?_, ?_, rfl, ?_⟩
  · intro h
    simp [MidiOutput.setCC, h]
  · intro h
    simp [MidiOutput.setCC, h]
  · intro other hne
    unfold MidiOutput.setCC
    split
    · rfl
    · simp [hne]
  · unfold MidiOutput.setCC
    split <;> rfl
  · rw [MidiOutput.setCC.eq_1 (o.setCC cc val), if_pos hrec.symm]
  · intro h0 _
    have hne : ¬ val = o.reset.currentCC cc := by
      show ¬ val = -1
      omega
    simp [MidiOutput.setCC, hne]

/-- C16 on a freshly constructed output: the first `setCC (7, 100)` sends, the second does
not. -/
theorem setCC_sends_iff_changed_witness :
    (MidiOutput.fresh.setCC 7 100).sent = [{ status := 0xb, note := 7, value := 100 }] ∧
    ((MidiOutput.fresh.setCC 7 100).setCC 7 100).sent
      = [{ status := 0xb, note := 7, value := 100 }] :=
  ⟨(setCC_sends_iff_changed MidiOutput.fresh 7 100).1 (by decide),
   by
    rw [(setCC_sends_iff_changed MidiOutput.fresh 7 100).2.2.2.2.2.1]
    exact (setCC_sends_iff_changed MidiOutput.fresh 7 100).1 (by decide)⟩

end sspo

namespace sspo

theorem dispatchMessage_frame (q : Int) (maps : List MidiMapping) (params : Int → ℚ)
    (msg : Message) (i : Int) (h : ∀ m ∈ maps, drives q msg m → m.paramId ≠ i) :
    dispatchMessage q maps params msg i = params i := by
  unfold dispatchMessage
  split
  · next h8 =>
    rw [foldl_setValue (fun m => m.note = msg.note ∧ m.controller = q)]
    apply if_neg
    rintro ⟨m, hm, ⟨hn, hc⟩, hp⟩
    exact h m hm ⟨hc, Or.inl ⟨Or.inl h8, hn⟩⟩ hp
  · split
    · next h9 =>
      rw [foldl_setValue (fun m => m.note = msg.note ∧ m.controller = q)]
      apply if_neg
      rintro ⟨m, hm, ⟨hn, hc⟩, hp⟩
      exact h m hm ⟨hc, Or.inl ⟨Or.inr h9, hn⟩⟩ hp
    · split
      · next hb =>
        rw [foldl_setValue (fun m => m.cc = msg.note ∧ m.controller = q)]
        apply if_neg
        rintro ⟨m, hm, ⟨hn, hc⟩, hp⟩
        exact h m hm ⟨hc, Or.inr ⟨hb, hn⟩⟩ hp
      · rfl

theorem foldl_dispatchMessage_frame (q : Int) (maps : List MidiMapping) (msgs : List Message)
    (params : Int → ℚ) (i : Int)
    (h : ∀ msg ∈ msgs, ∀ m ∈ maps, drives q msg m → m.paramId ≠ i) :
    msgs.foldl (dispatchMessage q maps) params i = params i := by
  induction msgs generalizing params with
  | nil => rfl
  | cons msg rest ih =>
    rw [List.foldl_cons, ih _ (fun x hx => h x (List.mem_cons_of_mem _ hx))]
    exact dispatchMessage_frame q maps params msg i (h msg (List.mem_cons_self _ _))

/-- C17: in `midiToParm` a message of a status other than 0x8, 0x9, 0xb changes no parameter;
a message changes only parameters that are the paramId of a mapping with its queue index as
controller and its note (note-off, note-on) or its number (CC); every other parameter, and the
mapping table, stay as they were. A note message does not address a mapping bound only by cc,
and a CC does not address a mapping bound only by note. -/
theorem midiToParm_frame (s : Iverson) :
    (∀ (q : Int) (params : Int → ℚ) (msg : Message),
      msg.status ≠ 0x8 → msg.status ≠ 0x9 → msg.status ≠ 0xb →
      dispatchMessage q s.midiMappings params msg = params) ∧
    (∀ (q : Int) (params : Int → ℚ) (msg : Message) (i : Int),
      (∀ m ∈ s.midiMappings, drives q msg m → m.paramId ≠ i) →
      dispatchMessage q s.midiMappings params msg i = params i) ∧
    (∀ i : Int,
      (∀ msg ∈ s.midiInputQueues.1, ∀ m ∈ s.midiMappings, drives 0 msg m → m.paramId ≠ i) →
      (∀ msg ∈ s.midiInputQueues.2, ∀ m ∈ s.midiMappings, drives 1 msg m → m.paramId ≠ i) →
      s.midiToParm.params i = s.params i) ∧
    s.midiToParm.midiMappings = s.midiMappings ∧
    (∀ (q : Int) (msg : Message) (m : MidiMapping), 0 ≤ msg.note →
      (m.note = -1 → (msg.status = 0x8 ∨ msg.status = 0x9) → ¬ drives q msg m) ∧
      (m.cc = -1 → msg.status = 0xb → ¬ drives q msg m)) := by
  refine ⟨?_, ?_, ?_, rfl, ?_⟩
  · intro q params msg h8 h9 hb
    unfold dispatchMessage
    rw [if_neg h8, if_neg h9, if_neg hb]
  · intro q params msg i h
    exact dispatchMessage_frame q s.midiMappings params msg i h
  · intro i h0 h1
    show (s.midiInputQueues.2.foldl (dispatchMessage 1 s.midiMappings)
      (s.midiInputQueues.1.foldl (dispatchMessage 0 s.midiMappings) s.params)) i = s.params i
    rw [foldl_dispatchMessage_frame 1 s.midiMappings _ _ i h1,
      foldl_dispatchMessage_frame 0 s.midiMappings _ _ i h0]
  · intro q msg m hnote
    constructor
    · rintro hm hs ⟨-, h | h⟩
      · have := h.2
        omega
      · rcases hs with hs | hs <;> omega
    · rintro hm hs ⟨-, h | h⟩
      · rcases h.1 with h8 | h9 <;> omega
      · have := h.2
        omega

/-- C17 on a note-on for note 60 and a message of status 0xe on controller 0, with one mapping
bound only by note 60 and one bound only by CC 60: the parameter of the CC mapping keeps its
value 1/2, the parameter of the note mapping is driven to 0. -/
theorem midiToParm_frame_witness :
    frameScenario.midiToParm.params 6 = 1 / 2 ∧ frameScenario.midiToParm.params 5 = 0 :=
  ⟨(midiToParm_frame frameScenario).2.2.1 6 (by decide) (by decide), by
    simp [Iverson.midiToParm, frameScenario, Iverson.idle, dispatchMessage, setValue]⟩

end sspo

namespace sspo

theorem clearFound_found (p : MidiMapping → MidiMapping → Bool) (t : Iverson)
    (h : t.midiMappings.any (p t.midiLearnMapping) = true) :
    clearFound p t = { t with
      midiMappings := t.midiMappings.eraseP (p t.midiLearnMapping)
      midiLearnMapping := t.midiLearnMapping.reset
      isClearMapping := false
      isLearning := false } := by
  unfold clearFound
  rw [if_pos h]

theorem clearFound_not_found (p : MidiMapping → MidiMapping → Bool) (t : Iverson)
    (h : t.midiMappings.any (p t.midiLearnMapping) = false) : clearFound p t = t := by
  unfold clearFound
  rw [if_neg (by simp [h])]

theorem sameNote_reset (l x : MidiMapping) : sameNote l.reset x = false := by
  simp only [sameNote, MidiMapping.reset]
  cases h : x.note != -1 with
  | false => simp
  | true =>
    have hne : x.note ≠ -1 := by simpa using h
    simp [hne]

theorem clearAllStep_of_not (s : Iverson) (h : s.isClearAllMapping = false) :
    clearAllStep s = s := by
  unfold clearAllStep
  simp [h]

/-- C18 as stated fails: with the unmapped parameter 9 in the learn mapping, the clear cycle
removes the entry for parameter 5, which matches the learn mapping only by (controller,
note). -/
theorem clear_removes_note_match_despite_paramId :
    clearByNoteScenario.midiLearnMapping.paramId = 9 ∧
    clearByNoteScenario.midiMappings = [{ controller := 0, note := 60, cc := -1, paramId := 5 }] ∧
    (clearByNoteScenario.doLearn Comp.layout).midiMappings = [] := by
  decide

/-- C18 amended: in a `doLearn` cycle with `isClearMapping` set (and `isClearAllMapping`
clear): if the learn mapping has a paramId set and the table holds an entry with that paramId,
the first such entry is the only one removed, and every entry with another paramId, also one
matching the learn mapping by (controller, note), is kept; if the learn mapping has no paramId,
or one that no entry carries, the first entry with a set note and the (controller, note) of
the learn mapping is removed. -/
theorem clearMapping_removes (c : Comp) (s : Iverson) (hclr : s.isClearMapping = true)
    (hall : s.isClearAllMapping = false) :
    (s.midiLearnMapping.paramId ≠ -1 →
      (∃ x ∈ s.midiMappings, x.paramId = s.midiLearnMapping.paramId) →
      (s.doLearn c).midiMappings = s.midiMappings.eraseP (sameParam s.midiLearnMapping) ∧
      ∀ x ∈ s.midiMappings, x.paramId ≠ s.midiLearnMapping.paramId →
        x ∈ (s.doLearn c).midiMappings) ∧
    ((s.midiLearnMapping.paramId = -1 ∨
        ∀ x ∈ s.midiMappings, x.paramId ≠ s.midiLearnMapping.paramId) →
      (∃ x ∈ s.midiMappings, sameNote s.midiLearnMapping x = true) →
      (s.doLearn c).midiMappings = s.midiMappings.eraseP (sameNote s.midiLearnMapping)) := by
  constructor
  · intro hp hex
    have hany : s.midiMappings.any (sameParam s.midiLearnMapping) = true := by
      rw [List.any_eq_true]
      obtain ⟨x, hx, hxp⟩ := hex
      exact ⟨x, hx, by simp [sameParam, hxp]⟩
    have hstep : clearMappingStep s = { s with
        midiMappings := s.midiMappings.eraseP (sameParam s.midiLearnMapping)
        midiLearnMapping := s.midiLearnMapping.reset
        isClearMapping := false
        isLearning := false } := by
      unfold clearMappingStep
      have hb : (s.midiLearnMapping.paramId != -1) = true := by simpa using hp
      simp only [hclr, if_true, hb]
      rw [clearFound_found sameParam s hany]
      apply clearFound_not_found
      rw [List.any_eq_false]
      intro x _
      simp [sameNote_reset]
    have htab : (s.doLearn c).midiMappings
        = s.midiMappings.eraseP (sameParam s.midiLearnMapping) := by
      unfold Iverson.doLearn
      simp only [clearAllStep_of_not s hall, hstep]
      rfl
    refine ⟨htab, ?_⟩
    intro x hx hne
    rw [htab]
    exact (List.mem_eraseP_of_neg (by simp [sameParam, hne])).mpr hx
  · intro hp hex
    have hany : s.midiMappings.any (sameNote s.midiLearnMapping) = true := by
      rw [List.any_eq_true]
      exact hex
    have hfirst : (if (s.midiLearnMapping.paramId != -1) = true then clearFound sameParam s
        else s) = s := by
      split
      · next hb =>
        apply clearFound_not_found
        rw [List.any_eq_false]
        intro x hx
        rcases hp with h | h
        · simp [h] at hb
        · simpa [sameParam] using h x hx
      · rfl
    have hstep : clearMappingStep s = { s with
        midiMappings := s.midiMappings.eraseP (sameNote s.midiLearnMapping)
        midiLearnMapping := s.midiLearnMapping.reset
        isClearMapping := false
        isLearning := false } := by
      unfold clearMappingStep
      simp only [hclr, if_true]
      rw [hfirst]
      exact clearFound_found sameNote s hany
    unfold Iverson.doLearn
    simp only [clearAllStep_of_not s hall, hstep]
    rfl

/-- C18 amended, on a clear cycle whose learn mapping names the mapped parameter 5 and the
note of another entry: the entry for parameter 5 goes, the entry with the note stays. -/
theorem clearMapping_removes_witness :
    (clearByParamScenario.doLearn Comp.layout).midiMappings
      = [{ controller := 0, note := 61, cc := -1, paramId := 6 }] :=
  ((clearMapping_removes Comp.layout clearByParamScenario rfl rfl).1 (by decide)
    ⟨{ controller := 0, note := 60, cc := -1, paramId := 5 }, by decide, rfl⟩).1

end sspo

namespace sspo

theorem learnStep_flags (c : Comp) (t : Iverson) :
    (learnStep c t).isClearMapping = t.isClearMapping ∧
    (learnStep c t).isLearning = t.isLearning ∧
    (learnStep c t).isClearAllMapping = t.isClearAllMapping := by
  have hs := scanStep_frame c (drainStep (commitStep t))
  have hc : (commitStep t).isClearMapping = t.isClearMapping ∧
      (commitStep t).isLearning = t.isLearning ∧
      (commitStep t).isClearAllMapping = t.isClearAllMapping := by
    unfold commitStep
    split <;> exact ⟨rfl, rfl, rfl⟩
  unfold learnStep
  refine ⟨?_, ?_, ?_⟩
  · rw [hs.2.2.2.2.1]; exact hc.1
  · rw [hs.2.2.2.1]; exact hc.2.1
  · rw [hs.2.2.2.2.2.1]; exact hc.2.2

/-- What one find of the clear block does: nothing, or it erases one entry, resets the learn
mapping and clears `isClearMapping` and `isLearning`. -/
theorem clearFound_cases (p : MidiMapping → MidiMapping → Bool) (t : Iverson) :
    clearFound p t = t ∨
    ((clearFound p t).midiMappings.length + 1 = t.midiMappings.length ∧
      (clearFound p t).midiLearnMapping = t.midiLearnMapping.reset ∧
      (clearFound p t).isClearMapping = false ∧ (clearFound p t).isLearning = false) := by
  cases h : t.midiMappings.any (p t.midiLearnMapping) with
  | false => exact Or.inl (clearFound_not_found p t h)
  | true =>
    right
    rw [clearFound_found p t h]
    refine ⟨?_, rfl, rfl, rfl⟩
    obtain ⟨x, hx, hpx⟩ := List.any_eq_true.mp h
    simp only
    rw [List.length_eraseP_of_mem hx hpx]
    have hpos : 0 < t.midiMappings.length := List.length_pos_of_mem hx
    omega

theorem clearMappingStep_cases (t : Iverson) :
    clearMappingStep t = t ∨
    ((clearMappingStep t).midiMappings.length < t.midiMappings.length ∧
      (clearMappingStep t).midiLearnMapping = t.midiLearnMapping.reset ∧
      (clearMappingStep t).isClearMapping = false ∧
      (clearMappingStep t).isLearning = false) := by
  unfold clearMappingStep
  split
  · have hfirst : (if (t.midiLearnMapping.paramId != -1) = true then clearFound sameParam t
        else t) = t ∨
        ((if (t.midiLearnMapping.paramId != -1) = true then clearFound sameParam t
            else t).midiMappings.length + 1 = t.midiMappings.length ∧
          (if (t.midiLearnMapping.paramId != -1) = true then clearFound sameParam t
            else t).midiLearnMapping = t.midiLearnMapping.reset ∧
          (if (t.midiLearnMapping.paramId != -1) = true then clearFound sameParam t
            else t).isClearMapping = false ∧
          (if (t.midiLearnMapping.paramId != -1) = true then clearFound sameParam t
            else t).isLearning = false) := by
      split
      · exact clearFound_cases sameParam t
      · exact Or.inl rfl
    rcases hfirst with h1 | h1
    · simp only at h1 ⊢
      rw [h1]
      rcases clearFound_cases sameNote t with h2 | h2
      · exact Or.inl h2
      · exact Or.inr ⟨by omega, h2.2.1, h2.2.2.1, h2.2.2.2⟩
    · right
      simp only at h1 ⊢
      generalize (if (t.midiLearnMapping.paramId != -1) = true then clearFound sameParam t
        else t) = t1 at h1 ⊢
      rcases clearFound_cases sameNote t1 with h2 | h2
      · rw [h2]
        exact ⟨by omega, h1.2.1, h1.2.2.1, h1.2.2.2⟩
      · refine ⟨by omega, ?_, h2.2.2.1, h2.2.2.2⟩
        rw [h2.2.1, h1.2.1]
        rfl
  · exact Or.inl rfl

/-- C19: in a `doLearn` cycle, whatever the flags (so also with `isClearMapping` set), when
the clear step removes an entry from the table, the learn mapping is empty and `isClearMapping`
and `isLearning` are false at the end of the cycle; when the clear step removes nothing,
`isClearMapping` and `isLearning` keep their values. One of the two always is the case. -/
theorem clearMapping_resets (c : Comp) (s : Iverson) :
    ((clearMappingStep (clearAllStep s)).midiMappings.length
        < (clearAllStep s).midiMappings.length →
      (s.doLearn c).midiLearnMapping
          = { controller := -1, note := -1, cc := -1, paramId := -1 } ∧
      (s.doLearn c).isClearMapping = false ∧ (s.doLearn c).isLearning = false) ∧
    ((clearMappingStep (clearAllStep s)).midiMappings = (clearAllStep s).midiMappings →
      (s.doLearn c).isClearMapping = s.isClearMapping ∧
      (s.doLearn c).isLearning = s.isLearning) ∧
    ((clearMappingStep (clearAllStep s)).midiMappings.length
        < (clearAllStep s).midiMappings.length ∨
      (clearMappingStep (clearAllStep s)).midiMappings = (clearAllStep s).midiMappings) := by
  have hflags : (clearAllStep s).isClearMapping = s.isClearMapping ∧
      (clearAllStep s).isLearning = s.isLearning := by
    unfold clearAllStep
    split <;> exact ⟨rfl, rfl⟩
  have hdo : s.doLearn c = if (clearMappingStep (clearAllStep s)).isLearning = true then
      learnStep c (clearMappingStep (clearAllStep s)) else clearMappingStep (clearAllStep s) :=
    rfl
  rcases clearMappingStep_cases (clearAllStep s) with h | h
  · refine ⟨?_, ?_, Or.inr (by rw [h])⟩
    · intro hlt
      rw [h] at hlt
      omega
    · intro _
      rw [hdo, h]
      split
      · exact ⟨((learnStep_flags c _).1).trans hflags.1, ((learnStep_flags c _).2.1).trans hflags.2⟩
      · exact hflags
  · refine ⟨?_, ?_, Or.inl h.1⟩
    · intro _
      rw [hdo, if_neg (by simp [h.2.2.2])]
      exact ⟨h.2.1, h.2.2.1, h.2.2.2⟩
    · intro heq
      have := h.1
      rw [heq] at this
      omega

/-- C19 on the clear cycle that removes the entry of note 60: the learn mapping is empty and
both flags are false afterwards. -/
theorem clearMapping_resets_witness :
    (clearByNoteScenario.doLearn Comp.layout).midiLearnMapping
      = { controller := -1, note := -1, cc := -1, paramId := -1 } ∧
    (clearByNoteScenario.doLearn Comp.layout).isClearMapping = false ∧
    (clearByNoteScenario.doLearn Comp.layout).isLearning = false :=
  (clearMapping_resets Comp.layout clearByNoteScenario).1 (by decide)

end sspo

namespace sspo

theorem firstPressed_none (params : Int → ℚ) (ids : List Int)
    (h : ∀ i ∈ ids, params i = 0) : firstPressed params ids = none := by
  unfold firstPressed
  rw [List.find?_eq_none]
  intro i hi
  rw [h i hi]
  decide

theorem scanStep_of_none (c : Comp) (s : Iverson) (h : ∀ i, c.learnable i → s.params i = 0) :
    scanStep c s = s := by
  have h1 : firstPressed s.params (idRange c.GRID_1_1_PARAM c.GRID_16_8_PARAM) = none :=
    firstPressed_none _ _ (fun i hi => h i (Or.inl ((mem_idRange _ _ _).mp hi)))
  have h2 : firstPressed s.params (idRange c.ACTIVE_1_PARAM c.ACTIVE_8_PARAM) = none :=
    firstPressed_none _ _ (fun i hi => h i (Or.inr (Or.inl ((mem_idRange _ _ _).mp hi))))
  have h3 : firstPressed s.params (idRange c.PAGE_ONE_PARAM c.PAGE_FOUR_PARAM) = none :=
    firstPressed_none _ _
      (fun i hi => h i (Or.inr (Or.inr (Or.inl ((mem_idRange _ _ _).mp hi)))))
  have h4 : firstPressed s.params [c.SET_LENGTH_PARAM, c.RESET_PARAM] = none := by
    apply firstPressed_none
    intro i hi
    simp only [List.mem_cons, List.mem_singleton, List.not_mem_nil, or_false] at hi
    rcases hi with hi | hi
    · exact h i (Or.inr (Or.inr (Or.inr (Or.inl hi))))
    · exact h i (Or.inr (Or.inr (Or.inr (Or.inr hi))))
  simp only [scanStep, h1, h2, h3, h4]

/-- C20: in a `doLearn` cycle with `isLearning` set, both clear flags false, a complete learn
mapping, empty queues and all learnable parameters at 0: afterwards the learn mapping is the
last entry of the table (the table is the commit of it), the learn mapping is reset to empty
and `isLearning` is still true. -/
theorem learn_commits_and_stays_learning (c : Comp) (s : Iverson)
    (hlearn : s.isLearning = true) (hclr : s.isClearMapping = false)
    (hall : s.isClearAllMapping = false) (hcomplete : isComplete s.midiLearnMapping = true)
    (hq : s.midiInputQueues = ([], [])) (hparams : ∀ i, c.learnable i → s.params i = 0) :
    (s.doLearn c).midiMappings = commit s.midiMappings s.midiLearnMapping ∧
    (s.doLearn c).midiMappings.getLast? = some s.midiLearnMapping ∧
    (s.doLearn c).midiLearnMapping = { controller := -1, note := -1, cc := -1, paramId := -1 } ∧
    (s.doLearn c).isLearning = true := by
  have hdo : s.doLearn c = { s with
      midiMappings := commit s.midiMappings s.midiLearnMapping
      midiLearnMapping := s.midiLearnMapping.reset } := by
    rw [doLearn_of_learning c s hall hclr hlearn, commitStep_of_complete s hcomplete]
    have hs := scanStep_of_none c
      (drainStep { s with
        midiMappings := commit s.midiMappings s.midiLearnMapping
        midiLearnMapping := s.midiLearnMapping.reset })
      (fun i hi => hparams i hi)
    rw [hs]
    simp [drainStep, hq]
  rw [hdo]
  refine ⟨rfl, ?_, rfl, hlearn⟩
  show (commit s.midiMappings s.midiLearnMapping).getLast? = some s.midiLearnMapping
  unfold commit
  exact List.getLast?_concat _

/-- C20 on a learn cycle that commits CC 20 of controller 1 for parameter 130 after one
earlier mapping. -/
theorem learn_commits_and_stays_learning_witness :
    (commitScenario.doLearn Comp.layout).midiMappings
      = [{ controller := 0, note := 60, cc := -1, paramId := 5 },
         { controller := 1, note := -1, cc := 20, paramId := 130 }] ∧
    (commitScenario.doLearn Comp.layout).midiLearnMapping
      = { controller := -1, note := -1, cc := -1, paramId := -1 } ∧
    (commitScenario.doLearn Comp.layout).isLearning = true :=
  ⟨(learn_commits_and_stays_learning Comp.layout commitScenario rfl rfl rfl (by decide) rfl
      (fun _ _ => rfl)).1,
   (learn_commits_and_stays_learning Comp.layout commitScenario rfl rfl rfl (by decide) rfl
      (fun _ _ => rfl)).2.2⟩

end sspo

namespace sspo

theorem drainStep_eq_foldl (s : Iverson) :
    (drainStep s).midiLearnMapping
      = (drainOrder s.midiInputQueues).foldl (fun l qm => learnMessage qm.1 l qm.2)
          s.midiLearnMapping := by
  simp only [drainStep, drainOrder, List.foldl_append, List.foldl_map]

theorem foldl_learnMessage (msgs : List (Int × Message)) (l : MidiMapping) :
    (msgs.foldl (fun l qm => learnMessage qm.1 l qm.2) l).note
      = (match (msgs.filter (fun qm => qm.2.status = 0x9)).getLast? with
         | some qm => qm.2.note
         | none => l.note) ∧
    (msgs.foldl (fun l qm => learnMessage qm.1 l qm.2) l).cc
      = (match (msgs.filter (fun qm => qm.2.status = 0xb)).getLast? with
         | some qm => qm.2.note
         | none => l.cc) ∧
    (msgs.foldl (fun l qm => learnMessage qm.1 l qm.2) l).controller
      = (match (msgs.filter (fun qm => qm.2.status = 0x9 ∨ qm.2.status = 0xb)).getLast? with
         | some qm => qm.1
         | none => l.controller) ∧
    (msgs.foldl (fun l qm => learnMessage qm.1 l qm.2) l).paramId = l.paramId := by
  induction msgs using List.reverseRecOn with
  | nil => exact ⟨rfl, rfl, rfl, rfl⟩
  | append_singleton pre x ih =>
    obtain ⟨h1, h2, h3, h4⟩ := ih
    rw [List.foldl_append, List.foldl_cons, List.foldl_nil]
    simp only [List.filter_append, List.getLast?_append]
    generalize List.foldl (fun l qm => learnMessage qm.1 l qm.2) l pre = m at h1 h2 h3 h4 ⊢
    generalize (List.filter (fun qm => decide (qm.2.status = 0x9)) pre).getLast? = g1 at h1 ⊢
    generalize (List.filter (fun qm => decide (qm.2.status = 0xb)) pre).getLast? = g2 at h2 ⊢
    generalize (List.filter (fun qm => decide (qm.2.status = 0x9 ∨ qm.2.status = 0xb))
      pre).getLast? = g3 at h3 ⊢
    by_cases h9 : x.2.status = 0x9
    · have hb : ¬ x.2.status = 0xb := by omega
      simp [learnMessage, h9, List.filter, h2, h4]
    · by_cases hb : x.2.status = 0xb
      · simp [learnMessage, h9, hb, List.filter, h1, h4]
      · simp [learnMessage, h9, hb, List.filter, h1, h2, h3, h4]

/-- C21: the drain of `doLearn` empties both queues, queue 0 first, and afterwards the learn
note is the note of the last note-on processed (unchanged if none), the learn cc is the number
of the last CC processed (unchanged if none), the learn controller is the queue index of the
last note-on or CC processed (unchanged if none), and the learn paramId is unchanged, so
messages of any other status change nothing; when the learn step runs this is what a `doLearn`
cycle does to these three fields after its commit. -/
theorem drain_takes_last (c : Comp) (s : Iverson) :
    (drainStep s).midiInputQueues = ([], []) ∧
    (drainStep s).midiLearnMapping.note
      = (match ((drainOrder s.midiInputQueues).filter (fun qm => qm.2.status = 0x9)).getLast? with
         | some qm => qm.2.note
         | none => s.midiLearnMapping.note) ∧
    (drainStep s).midiLearnMapping.cc
      = (match ((drainOrder s.midiInputQueues).filter (fun qm => qm.2.status = 0xb)).getLast? with
         | some qm => qm.2.note
         | none => s.midiLearnMapping.cc) ∧
    (drainStep s).midiLearnMapping.controller
      = (match ((drainOrder s.midiInputQueues).filter
            (fun qm => qm.2.status = 0x9 ∨ qm.2.status = 0xb)).getLast? with
         | some qm => qm.1
         | none => s.midiLearnMapping.controller) ∧
    (drainStep s).midiLearnMapping.paramId = s.midiLearnMapping.paramId ∧
    ((clearMappingStep (clearAllStep s)).isLearning = true →
      (s.doLearn c).midiInputQueues = ([], []) ∧
      (s.doLearn c).midiLearnMapping.note
        = (drainStep (commitStep (clearMappingStep (clearAllStep s)))).midiLearnMapping.note ∧
      (s.doLearn c).midiLearnMapping.cc
        = (drainStep (commitStep (clearMappingStep (clearAllStep s)))).midiLearnMapping.cc ∧
      (s.doLearn c).midiLearnMapping.controller
        = (drainStep (commitStep (clearMappingStep
            (clearAllStep s)))).midiLearnMapping.controller) := by
  have h := foldl_learnMessage (drainOrder s.midiInputQueues) s.midiLearnMapping
  rw [← drainStep_eq_foldl] at h
  refine ⟨rfl, h.1, h.2.1, h.2.2.1, h.2.2.2, ?_⟩
  intro hl
  have hdo : s.doLearn c = scanStep c (drainStep (commitStep (clearMappingStep (clearAllStep s)))) := by
    unfold Iverson.doLearn
    simp only [hl, if_true]
    rfl
  have hf := scanStep_frame c (drainStep (commitStep (clearMappingStep (clearAllStep s))))
  rw [hdo]
  exact ⟨hf.2.2.1, hf.2.2.2.2.2.2.2.1, hf.2.2.2.2.2.2.2.2, hf.2.2.2.2.2.2.1⟩

/-- C21 on a drain of a note-on 60, a CC 20 and a note-off on controller 0 and a note-on 61 on
controller 1. -/
theorem drain_takes_last_witness :
    (drainScenario.doLearn Comp.layout).midiInputQueues = ([], []) ∧
    (drainScenario.doLearn Comp.layout).midiLearnMapping
      = { controller := 1, note := 61, cc := 20, paramId := -1 } :=
  ⟨((drain_takes_last Comp.layout drainScenario).2.2.2.2.2 (by decide)).1, by decide⟩

end sspo

namespace sspo

theorem idRange_pairwise (lo hi : Int) : (idRange lo hi).Pairwise (fun a b => a < b) := by
  unfold idRange
  rw [List.pairwise_map]
  exact (List.pairwise_lt_range _).imp (fun h => by omega)

theorem firstPressed_idRange (params : Int → ℚ) (lo hi i : Int)
    (h : firstPressed params (idRange lo hi) = some i) :
    lo ≤ i ∧ i ≤ hi ∧ castInt (params i) ≠ 0 ∧
    ∀ j, lo ≤ j → j < i → castInt (params j) = 0 := by
  unfold firstPressed at h
  have hmem := (mem_idRange lo hi i).mp (List.mem_of_find?_eq_some h)
  obtain ⟨hp, pre, post, hsplit, hpre⟩ := List.find?_eq_some.mp h
  refine ⟨hmem.1, hmem.2, by simpa using hp, ?_⟩
  intro j hlo hji
  have hpw := idRange_pairwise lo hi
  rw [hsplit, List.pairwise_append] at hpw
  have hj : j ∈ idRange lo hi := (mem_idRange lo hi j).mpr ⟨hlo, by omega⟩
  rw [hsplit] at hj
  rcases List.mem_append.mp hj with hj | hj
  · simpa using hpre j hj
  · rcases List.mem_cons.mp hj with hj | hj
    · omega
    · have := (List.pairwise_cons.mp hpw.2.1).1 j hj
      omega

theorem firstPressed_none_iff (params : Int → ℚ) (ids : List Int) :
    firstPressed params ids = none ↔ ∀ i ∈ ids, castInt (params i) = 0 := by
  unfold firstPressed
  rw [List.find?_eq_none]
  simp

theorem mem_scanOrder (c : Comp) (i : Int) : i ∈ scanOrder c ↔ c.learnable i := by
  unfold scanOrder Comp.learnable
  simp only [List.mem_append, mem_idRange, List.mem_cons, List.mem_singleton, List.not_mem_nil,
    or_false]
  tauto

theorem scanStep_paramId (c : Comp) (s : Iverson) :
    (scanStep c s).midiLearnMapping.paramId
      = (match firstPressed s.params (scanOrder c) with
         | some i => i
         | none => s.midiLearnMapping.paramId) := by
  unfold scanStep scanOrder
  simp only [firstPressed, List.find?_append]
  cases h1 : List.find? (fun i => castInt (s.params i) != 0)
      (idRange c.GRID_1_1_PARAM c.GRID_16_8_PARAM) with
  | some i => simp
  | none =>
    cases h2 : List.find? (fun i => castInt (s.params i) != 0)
        (idRange c.ACTIVE_1_PARAM c.ACTIVE_8_PARAM) with
    | some i => simp
    | none =>
      cases h3 : List.find? (fun i => castInt (s.params i) != 0)
          (idRange c.PAGE_ONE_PARAM c.PAGE_FOUR_PARAM) with
      | some i => simp
      | none =>
        cases h4 : List.find? (fun i => castInt (s.params i) != 0)
            [c.SET_LENGTH_PARAM, c.RESET_PARAM] with
        | some i => simp
        | none => simp

theorem foldl_learnMessage_paramId (q : Int) (msgs : List Message) (l : MidiMapping) :
    (msgs.foldl (learnMessage q) l).paramId = l.paramId := by
  induction msgs generalizing l with
  | nil => rfl
  | cons m rest ih =>
    rw [List.foldl_cons, ih]
    unfold learnMessage
    split_ifs <;> rfl

theorem drainStep_paramId (t : Iverson) :
    (drainStep t).midiLearnMapping.paramId = t.midiLearnMapping.paramId ∧
    (drainStep t).params = t.params := by
  refine ⟨?_, rfl⟩
  show ((t.midiInputQueues.2.foldl (learnMessage 1)
    (t.midiInputQueues.1.foldl (learnMessage 0) t.midiLearnMapping))).paramId = _
  rw [foldl_learnMessage_paramId, foldl_learnMessage_paramId]

theorem clearSteps_params (s : Iverson) :
    (commitStep (clearMappingStep (clearAllStep s))).params = s.params := by
  have h1 : (clearAllStep s).params = s.params := by
    unfold clearAllStep
    split <;> rfl
  have hfound : ∀ (p : MidiMapping → MidiMapping → Bool) (u : Iverson),
      (clearFound p u).params = u.params := by
    intro p u
    unfold clearFound
    split <;> rfl
  have h2 : ∀ u : Iverson, (clearMappingStep u).params = u.params := by
    intro u
    unfold clearMappingStep
    split
    · rw [hfound]
      split
      · rw [hfound]
      · rfl
    · rfl
  have h3 : ∀ u : Iverson, (commitStep u).params = u.params := by
    intro u
    unfold commitStep
    split <;> rfl
  rw [h3, h2, h1]

theorem doLearn_scan (c : Comp) (s : Iverson)
    (hl : (clearMappingStep (clearAllStep s)).isLearning = true) :
    s.doLearn c = scanStep c (drainStep (commitStep (clearMappingStep (clearAllStep s)))) ∧
    (drainStep (commitStep (clearMappingStep (clearAllStep s)))).params = s.params ∧
    (drainStep (commitStep (clearMappingStep (clearAllStep s)))).midiLearnMapping.paramId
      = (commitStep (clearMappingStep (clearAllStep s))).midiLearnMapping.paramId := by
  refine ⟨?_, ?_, (drainStep_paramId _).1⟩
  · unfold Iverson.doLearn
    simp only [hl, if_true, learnStep]
  · rw [(drainStep_paramId _).2, clearSteps_params]

/-- C22: in a `doLearn` cycle that runs the learn block (learning is still on after the two
clear blocks), the learn paramId at the end of `doLearn` is the first parameter, in the order
GRID_1_1..GRID_16_8 ascending, ACTIVE_1..ACTIVE_8, PAGE_ONE..PAGE_FOUR, SET_LENGTH, RESET,
whose value cast to int is not 0, and if there is none it is the paramId that the commit at the
start of the learn block left: -1 after a commit, else the one held before. So with a pressed
grid step the captured parameter is the lowest pressed grid step, whatever toggle, page or
button is pressed too. In a cycle that does not run the learn block the learn mapping is the
one the clear blocks left. The scan itself changes nothing else of the learn mapping and
nothing of the table. -/
theorem scan_takes_first (c : Comp) (s : Iverson) :
    ((clearMappingStep (clearAllStep s)).isLearning = true →
      (s.doLearn c).midiLearnMapping.paramId
        = (match firstPressed s.params (scanOrder c) with
           | some i => i
           | none => (commitStep (clearMappingStep (clearAllStep s))).midiLearnMapping.paramId) ∧
      (∀ g, c.GRID_1_1_PARAM ≤ g → g ≤ c.GRID_16_8_PARAM → castInt (s.params g) ≠ 0 →
        c.GRID_1_1_PARAM ≤ (s.doLearn c).midiLearnMapping.paramId ∧
        (s.doLearn c).midiLearnMapping.paramId ≤ g ∧
        castInt (s.params (s.doLearn c).midiLearnMapping.paramId) ≠ 0 ∧
        ∀ j, c.GRID_1_1_PARAM ≤ j → j < (s.doLearn c).midiLearnMapping.paramId →
          castInt (s.params j) = 0) ∧
      ((∀ i, c.learnable i → castInt (s.params i) = 0) →
        (s.doLearn c).midiLearnMapping.paramId
          = (commitStep (clearMappingStep (clearAllStep s))).midiLearnMapping.paramId)) ∧
    (s.isClearAllMapping = false → s.isClearMapping = false → s.isLearning = true →
      (s.doLearn c).midiLearnMapping.paramId
        = (match firstPressed s.params (scanOrder c) with
           | some i => i
           | none => if isComplete s.midiLearnMapping then -1 else s.midiLearnMapping.paramId)) ∧
    ((clearMappingStep (clearAllStep s)).isLearning = false →
      (s.doLearn c).midiLearnMapping = (clearMappingStep (clearAllStep s)).midiLearnMapping) ∧
    scanOrder c
      = idRange c.GRID_1_1_PARAM c.GRID_16_8_PARAM ++ idRange c.ACTIVE_1_PARAM c.ACTIVE_8_PARAM
        ++ idRange c.PAGE_ONE_PARAM c.PAGE_FOUR_PARAM ++ [c.SET_LENGTH_PARAM, c.RESET_PARAM] ∧
    (∀ i, i ∈ scanOrder c ↔ c.learnable i) ∧
    (scanStep c s).midiLearnMapping.paramId
      = (match firstPressed s.params (scanOrder c) with
         | some i => i
         | none => s.midiLearnMapping.paramId) ∧
    (scanStep c s).midiLearnMapping.controller = s.midiLearnMapping.controller ∧
    (scanStep c s).midiLearnMapping.note = s.midiLearnMapping.note ∧
    (scanStep c s).midiLearnMapping.cc = s.midiLearnMapping.cc ∧
    (scanStep c s).midiMappings = s.midiMappings := by
  have hf := scanStep_frame c s
  have hrun : (clearMappingStep (clearAllStep s)).isLearning = true →
      (s.doLearn c).midiLearnMapping.paramId
        = (match firstPressed s.params (scanOrder c) with
           | some i => i
           | none =>
             (commitStep (clearMappingStep (clearAllStep s))).midiLearnMapping.paramId) := by
    intro hl
    obtain ⟨h1, h2, h3⟩ := doLearn_scan c s hl
    rw [h1, scanStep_paramId, h2, h3]
  refine ⟨?_, ?_, ?_, rfl, mem_scanOrder c, scanStep_paramId c s, hf.2.2.2.2.2.2.1,
    hf.2.2.2.2.2.2.2.1, hf.2.2.2.2.2.2.2.2, hf.1⟩
  · intro hl
    obtain ⟨h1, h2, h3⟩ := doLearn_scan c s hl
    refine ⟨hrun hl, ?_, ?_⟩
    · intro g hlo hhi hg
      cases hfp : firstPressed s.params (idRange c.GRID_1_1_PARAM c.GRID_16_8_PARAM) with
      | none =>
        have := (firstPressed_none_iff _ _).mp hfp g ((mem_idRange _ _ _).mpr ⟨hlo, hhi⟩)
        exact absurd this hg
      | some i =>
        have hi := firstPressed_idRange s.params _ _ i hfp
        have hfp2 : firstPressed
            (drainStep (commitStep (clearMappingStep (clearAllStep s)))).params
            (idRange c.GRID_1_1_PARAM c.GRID_16_8_PARAM) = some i := by
          rw [h2]
          exact hfp
        rw [h1, scanStep_of_grid c _ i hfp2]
        simp only
        refine ⟨hi.1, ?_, hi.2.2.1, hi.2.2.2⟩
        by_contra hgt
        exact hg (hi.2.2.2 g hlo (by omega))
    · intro hnone
      rw [hrun hl]
      have : firstPressed s.params (scanOrder c) = none :=
        (firstPressed_none_iff _ _).mpr (fun i hi => hnone i ((mem_scanOrder c i).mp hi))
      rw [this]
  · intro hall hclr hlearn
    have hs2 : clearMappingStep (clearAllStep s) = s := by
      simp [clearAllStep, clearMappingStep, hall, hclr]
    have hl : (clearMappingStep (clearAllStep s)).isLearning = true := by
      rw [hs2]
      exact hlearn
    rw [hrun hl, hs2]
    cases hcomp : isComplete s.midiLearnMapping with
    | true =>
      rw [commitStep_of_complete s hcomp]
      simp [MidiMapping.reset]
    | false =>
      rw [commitStep_of_incomplete s hcomp]
      simp
  · intro hl
    unfold Iverson.doLearn
    simp only [hl]
    rfl

/-- C22 on a learn cycle with the track toggle 130 and the grid steps 9 and 3 pressed and a
learn mapping that holds parameter 77: after `doLearn` the learn mapping holds grid step 3,
with or without messages drained in the same cycle. -/
theorem scan_takes_first_witness :
    (scanScenario.doLearn Comp.layout).midiLearnMapping.paramId ≤ 9 ∧
    (scanScenario.doLearn Comp.layout).midiLearnMapping.paramId = 3 ∧
    (learnScanScenario.doLearn Comp.layout).midiLearnMapping.paramId = 3 :=
  ⟨(((scan_takes_first Comp.layout scanScenario).1 (by decide)).2.1 9 (by decide) (by decide)
      (by decide)).2.1,
   ((scan_takes_first Comp.layout scanScenario).1 (by decide)).1.trans (by decide),
   ((scan_takes_first Comp.layout learnScanScenario).1 (by decide)).1.trans (by decide)⟩

end sspo

namespace sspo

theorem clearMappingStep_of_empty (t : Iverson) (h : t.midiMappings = []) :
    clearMappingStep t = t := by
  have hfound : ∀ (p : MidiMapping → MidiMapping → Bool) (u : Iverson),
      u.midiMappings = [] → clearFound p u = u := by
    intro p u hu
    apply clearFound_not_found
    rw [hu]
    rfl
  unfold clearMappingStep
  split
  · split
    · rw [hfound sameParam t h]
      exact hfound sameNote t h
    · exact hfound sameNote t h
  · rfl

theorem doLearn_params (c : Comp) (s : Iverson) : (s.doLearn c).params = s.params := by
  have h1 : (clearAllStep s).params = s.params := by
    unfold clearAllStep
    split <;> rfl
  have hfound : ∀ (p : MidiMapping → MidiMapping → Bool) (u : Iverson),
      (clearFound p u).params = u.params := by
    intro p u
    unfold clearFound
    split <;> rfl
  have h2 : ∀ u : Iverson, (clearMappingStep u).params = u.params := by
    intro u
    unfold clearMappingStep
    split
    · rw [hfound]
      split
      · rw [hfound]
      · rfl
    · rfl
  have h3 : ∀ u : Iverson, (learnStep c u).params = u.params := by
    intro u
    unfold learnStep
    rw [(scanStep_frame c _).2.1]
    show (commitStep u).params = u.params
    unfold commitStep
    split <;> rfl
  unfold Iverson.doLearn
  simp only
  split
  · rw [h3, h2, h1]
  · rw [h2, h1]

/-- C23 as stated fails: with `isClearAllMapping` and `isLearning` both set the cycle also runs
the learn step, so the table is not empty afterwards and the learn mapping and the queues have
changed. -/
theorem clearAll_not_terminal :
    clearAllWhileLearningScenario.isClearAllMapping = true ∧
    (clearAllWhileLearningScenario.doLearn Comp.layout).midiMappings
      = [{ controller := 1, note := -1, cc := 20, paramId := 130 }] ∧
    (clearAllWhileLearningScenario.doLearn Comp.layout).midiLearnMapping
      ≠ clearAllWhileLearningScenario.midiLearnMapping ∧
    (clearAllWhileLearningScenario.doLearn Comp.layout).midiInputQueues
      ≠ clearAllWhileLearningScenario.midiInputQueues := by
  decide

/-- C23 amended: for every state in which `isClearAllMapping` is set, one `doLearn` cycle
clears the table and resets the flag, and the clear-one step finds nothing in the cleared
table; when `isLearning` is not set the cycle does nothing else, so the table is empty and the
learn mapping, `isLearning`, `isClearMapping` and the queues are as before, whatever
`isClearMapping` and the learn mapping are; when `isLearning` is set the learn step runs on
the cleared table: the queues are drained and the table holds the learn mapping if that was
complete and is empty otherwise. -/
theorem clearAll_then_learn (c : Comp) (s : Iverson) (hall : s.isClearAllMapping = true) :
    (s.doLearn c).isClearAllMapping = false ∧
    (s.isLearning = false →
      (s.doLearn c).midiMappings = [] ∧
      (s.doLearn c).midiLearnMapping = s.midiLearnMapping ∧
      (s.doLearn c).isLearning = s.isLearning ∧
      (s.doLearn c).isClearMapping = s.isClearMapping ∧
      (s.doLearn c).midiInputQueues = s.midiInputQueues) ∧
    (s.isLearning = true →
      (s.doLearn c).midiMappings
        = (if isComplete s.midiLearnMapping then [s.midiLearnMapping] else []) ∧
      (s.doLearn c).midiInputQueues = ([], [])) := by
  have h1 : clearAllStep s = { s with midiMappings := [], isClearAllMapping := false } := by
    unfold clearAllStep
    rw [if_pos hall]
  have h2 : clearMappingStep (clearAllStep s) = clearAllStep s :=
    clearMappingStep_of_empty _ (by rw [h1])
  have hdo : s.doLearn c = if (clearAllStep s).isLearning = true then
      learnStep c (clearAllStep s) else clearAllStep s := by
    unfold Iverson.doLearn
    simp only [h2]
  refine ⟨?_, ?_, ?_⟩
  · rw [hdo]
    split
    · rw [(learnStep_flags c _).2.2, h1]
    · rw [h1]
  · intro hl
    have hl1 : ¬ (clearAllStep s).isLearning = true := by
      rw [h1]
      simp [hl]
    rw [hdo, if_neg hl1, h1]
    exact ⟨rfl, rfl, rfl, rfl, rfl⟩
  · intro hl
    have hl1 : (clearAllStep s).isLearning = true := by
      rw [h1]
      exact hl
    rw [hdo, if_pos hl1]
    unfold learnStep
    refine ⟨?_, ?_⟩
    · rw [(scanStep_frame c _).1]
      show (commitStep (clearAllStep s)).midiMappings = _
      unfold commitStep
      rw [h1]
      simp only
      split
      · rfl
      · rfl
    · rw [(scanStep_frame c _).2.2.1]
      rfl

/-- C23 amended, on the clear-all scenario with learning off and on the one with learning
on. -/
theorem clearAll_then_learn_witness :
    (clearAllScenario.doLearn Comp.layout).midiMappings = [] ∧
    (clearAllWhileLearningScenario.doLearn Comp.layout).midiInputQueues = ([], []) :=
  ⟨((clearAll_then_learn Comp.layout clearAllScenario rfl).2.1 rfl).1,
   ((clearAll_then_learn Comp.layout clearAllWhileLearningScenario rfl).2.2 rfl).2⟩

/-- C24: in a process cycle in which the learn step of `doLearn` runs (`isLearning` still true
after the clear steps), both queues are empty after `doLearn`, so `midiToParm`, when it runs,
shifts no message: after the MIDI part of the cycle every parameter has the value it had
before, whatever was queued and whatever the table holds. -/
theorem learn_diverts_midi (c : Comp) (s : Iverson) (midiDue : Bool)
    (hl : (clearMappingStep (clearAllStep s)).isLearning = true) :
    (s.doLearn c).midiInputQueues = ([], []) ∧
    (s.doLearn c).midiToParm.params = s.params ∧
    (s.processMidi c midiDue).params = s.params ∧
    (s.processMidi c midiDue).midiInputQueues = ([], []) := by
  have hq : (s.doLearn c).midiInputQueues = ([], []) := by
    unfold Iverson.doLearn
    simp only [hl, if_true]
    unfold learnStep
    rw [(scanStep_frame c _).2.2.1]
    rfl
  have hp : (s.doLearn c).midiToParm.params = s.params := by
    unfold Iverson.midiToParm
    simp only [hq, List.foldl_nil]
    exact doLearn_params c s
  refine ⟨hq, hp, ?_, ?_⟩
  · unfold Iverson.processMidi
    cases midiDue with
    | true => simpa using hp
    | false => simpa using doLearn_params c s
  · unfold Iverson.processMidi
    cases midiDue with
    | true => simp [Iverson.midiToParm]
    | false => simpa using hq

/-- C24 on a learn cycle with a queued note-on that matches a committed mapping: the mapped
parameter keeps its value 1/2. -/
theorem learn_diverts_midi_witness :
    (divertScenario.processMidi Comp.layout true).params 5 = 1 / 2 ∧
    (divertScenario.processMidi Comp.layout true).midiInputQueues = ([], []) :=
  ⟨by
    rw [(learn_diverts_midi Comp.layout divertScenario true (by decide)).2.2.1]
    simp [divertScenario],
   (learn_diverts_midi Comp.layout divertScenario true (by decide)).2.2.2⟩

/-- C25: for a note in 0..127, `setNote (note, velocity)` with velocity ≥ 0 returns and sends
exactly one message, of status 0x9 with the given note and the seven-bit value of the velocity,
which is the velocity itself in 0..127, whatever the output held before, so two identical
calls in a row send two messages; afterwards `currentNotes[note]` is true exactly when
velocity > 0, and the other entries and `currentCC` are as before. -/
theorem setNote_always_sends (o : MidiOutput) (note velocity : Int)
    (hn : 0 ≤ note ∧ note ≤ 127) (hv : 0 ≤ velocity) :
    ∃ o1 o2 : MidiOutput,
      o.setNote note velocity = some o1 ∧ o1.setNote note velocity = some o2 ∧
      o1.sent = o.sent ++ [{ status := 0x9, note := note, value := velocity % 128 }] ∧
      o2.sent = o.sent ++ [{ status := 0x9, note := note, value := velocity % 128 },
          { status := 0x9, note := note, value := velocity % 128 }] ∧
      (velocity ≤ 127 →
        o1.sent = o.sent ++ [{ status := 0x9, note := note, value := velocity }] ∧
        o2.sent = o.sent ++ [{ status := 0x9, note := note, value := velocity },
          { status := 0x9, note := note, value := velocity }]) ∧
      (o1.currentNotes note = true ↔ velocity > 0) ∧
      (∀ other, other ≠ note → o1.currentNotes other = o.currentNotes other) ∧
      o1.currentCC = o.currentCC := by
  refine ⟨_, _, setNote_some o note velocity hn hv, setNote_some _ note velocity hn hv, rfl, ?_,
    ?_, ?_, ?_, rfl⟩
  · simp
  · intro hle
    have hm : velocity % 128 = velocity := Int.emod_eq_of_lt hv (by omega)
    rw [hm]
    simp
  · simp
  · intro other hne
    simp [hne]

/-- C25 on a freshly constructed output: two calls `setNote (40, 3)` return and send two
messages. -/
theorem setNote_always_sends_witness :
    ∃ o1 o2 : MidiOutput,
      MidiOutput.fresh.setNote 40 3 = some o1 ∧ o1.setNote 40 3 = some o2 ∧
      o2.sent
        = [{ status := 0x9, note := 40, value := 3 }, { status := 0x9, note := 40, value := 3 }] := by
  obtain ⟨o1, o2, h1, h2, _, _, h5, _⟩ :=
    setNote_always_sends MidiOutput.fresh 40 3 (by decide) (by decide)
  exact ⟨o1, o2, h1, h2, (h5 (by decide)).2⟩

end sspo

namespace Zilah

theorem getElem?_modify_at {α : Type} (f : α → α) (l : List α) (n : Nat) :
    (List.modify f n l)[n]? = l[n]?.map f ∧
    ∀ j, j ≠ n → (List.modify f n l)[j]? = l[j]? := by
  constructor
  · exact List.getElem?_modify_eq f n l
  · intro j hj
    exact List.getElem?_modify_ne f l (Ne.symm hj)

theorem processMessage_cc (z : ZilahModule) (status : Int) (c v : Nat) :
    (c < 32 →
      (z.processMessage { status := 0xb, note := c, value := v }).midi10Aggregator[c]?
        = z.midi10Aggregator[c]?.map (fun a => a.setMsb v) ∧
      (z.processMessage { status := 0xb, note := c, value := v }).lsbOrMsbWithoutZeroing[c]?
        = z.lsbOrMsbWithoutZeroing[c]?.map (fun a => a.setMsb v) ∧
      (z.processMessage { status := 0xb, note := c, value := v }).msbFirstWaitForLsb[c]?
        = z.msbFirstWaitForLsb[c]?.map (fun a => a.setMsb v) ∧
      ∀ j, j ≠ c →
        (z.processMessage { status := 0xb, note := c, value := v }).midi10Aggregator[j]?
          = z.midi10Aggregator[j]? ∧
        (z.processMessage { status := 0xb, note := c, value := v }).lsbOrMsbWithoutZeroing[j]?
          = z.lsbOrMsbWithoutZeroing[j]? ∧
        (z.processMessage { status := 0xb, note := c, value := v }).msbFirstWaitForLsb[j]?
          = z.msbFirstWaitForLsb[j]?) ∧
    (32 ≤ c → c < 64 →
      (z.processMessage { status := 0xb, note := c, value := v }).midi10Aggregator[c - 32]?
        = z.midi10Aggregator[c - 32]?.map (fun a => a.setLsb v) ∧
      (z.processMessage { status := 0xb, note := c, value := v }).lsbOrMsbWithoutZeroing[c - 32]?
        = z.lsbOrMsbWithoutZeroing[c - 32]?.map (fun a => a.setLsb v) ∧
      (z.processMessage { status := 0xb, note := c, value := v }).msbFirstWaitForLsb[c - 32]?
        = z.msbFirstWaitForLsb[c - 32]?.map (fun a => a.setLsb v) ∧
      ∀ j, j ≠ c - 32 →
        (z.processMessage { status := 0xb, note := c, value := v }).midi10Aggregator[j]?
          = z.midi10Aggregator[j]? ∧
        (z.processMessage { status := 0xb, note := c, value := v }).lsbOrMsbWithoutZeroing[j]?
          = z.lsbOrMsbWithoutZeroing[j]? ∧
        (z.processMessage { status := 0xb, note := c, value := v }).msbFirstWaitForLsb[j]?
          = z.msbFirstWaitForLsb[j]?) ∧
    (64 ≤ c → z.processMessage { status := 0xb, note := c, value := v } = z) ∧
    (status ≠ 0xb → z.processMessage { status := status, note := c, value := v } = z) := by
  have hv : ((v : Int)).toNat = v := Int.toNat_ofNat v
  refine ⟨?_, ?_, ?_, ?_⟩
  · intro hlt
    have hlt2 : (c : Int) < 32 := by omega
    have hk : ((c : Int)).toNat = c := Int.toNat_ofNat c
    have he : z.processMessage { status := 0xb, note := c, value := v } =
        { midi10Aggregator := List.modify (fun a => a.setMsb v) c z.midi10Aggregator
          lsbOrMsbWithoutZeroing :=
            List.modify (fun a => a.setMsb v) c z.lsbOrMsbWithoutZeroing
          msbFirstWaitForLsb := List.modify (fun a => a.setMsb v) c z.msbFirstWaitForLsb } := by
      unfold ZilahModule.processMessage
      simp only [if_true, if_pos hlt2, hk, hv]
    rw [he]
    refine ⟨(getElem?_modify_at _ _ _).1, (getElem?_modify_at _ _ _).1,
      (getElem?_modify_at _ _ _).1, ?_⟩
    intro j hj
    exact ⟨(getElem?_modify_at _ _ _).2 j hj, (getElem?_modify_at _ _ _).2 j hj,
      (getElem?_modify_at _ _ _).2 j hj⟩
  · intro hge hlt
    have hn : ¬ (c : Int) < 32 := by omega
    have hlt2 : (c : Int) < 64 := by omega
    have hk : ((c : Int) - 32).toNat = c - 32 := by omega
    have he : z.processMessage { status := 0xb, note := c, value := v } =
        { midi10Aggregator := List.modify (fun a => a.setLsb v) (c - 32) z.midi10Aggregator
          lsbOrMsbWithoutZeroing :=
            List.modify (fun a => a.setLsb v) (c - 32) z.lsbOrMsbWithoutZeroing
          msbFirstWaitForLsb :=
            List.modify (fun a => a.setLsb v) (c - 32) z.msbFirstWaitForLsb } := by
      unfold ZilahModule.processMessage
      simp only [if_true, if_neg hn, if_pos hlt2, hk, hv]
    rw [he]
    refine ⟨(getElem?_modify_at _ _ _).1, (getElem?_modify_at _ _ _).1,
      (getElem?_modify_at _ _ _).1, ?_⟩
    intro j hj
    exact ⟨(getElem?_modify_at _ _ _).2 j hj, (getElem?_modify_at _ _ _).2 j hj,
      (getElem?_modify_at _ _ _).2 j hj⟩
  · intro hge
    have hn : ¬ (c : Int) < 32 := by omega
    have hn2 : ¬ (c : Int) < 64 := by omega
    unfold ZilahModule.processMessage
    simp only [if_true, if_neg hn, if_neg hn2]
  · intro hs
    unfold ZilahModule.processMessage
    rw [if_neg hs]

theorem process_snoc (z : ZilahModule) (pre : List sspo.Message) (msg : sspo.Message) :
    z.process (pre ++ [msg]) = (z.process pre).processMessage msg := by
  unfold ZilahModule.process
  rw [List.foldl_append, List.foldl_cons, List.foldl_nil]

theorem processMessage_untouched (z : ZilahModule) (msg : sspo.Message) (j : Nat)
    (h0 : 0 ≤ msg.note)
    (h : msg.status = 0xb → msg.note ≠ (j : Int) ∧ msg.note ≠ (j : Int) + 32) :
    (z.processMessage msg).midi10Aggregator[j]? = z.midi10Aggregator[j]? ∧
    (z.processMessage msg).lsbOrMsbWithoutZeroing[j]? = z.lsbOrMsbWithoutZeroing[j]? ∧
    (z.processMessage msg).msbFirstWaitForLsb[j]? = z.msbFirstWaitForLsb[j]? := by
  unfold ZilahModule.processMessage
  by_cases hs : msg.status = 0xb
  · obtain ⟨h1, h2⟩ := h hs
    rw [if_pos hs]
    by_cases hlt : msg.note < 32
    · have hne : j ≠ msg.note.toNat := by omega
      simp only [if_pos hlt]
      exact ⟨(getElem?_modify_at _ _ _).2 j hne, (getElem?_modify_at _ _ _).2 j hne,
        (getElem?_modify_at _ _ _).2 j hne⟩
    · by_cases hlt2 : msg.note < 64
      · have hne : j ≠ (msg.note - 32).toNat := by omega
        simp only [if_neg hlt, if_pos hlt2]
        exact ⟨(getElem?_modify_at _ _ _).2 j hne, (getElem?_modify_at _ _ _).2 j hne,
          (getElem?_modify_at _ _ _).2 j hne⟩
      · simp only [if_neg hlt, if_neg hlt2, and_self]
  · rw [if_neg hs]
    exact ⟨rfl, rfl, rfl⟩

/-- C26: `Zilah::process` handles every message of the queue in order: an empty queue changes
nothing and a queue in two parts is processed part after part. A CC message with controller
number c and value v, at any position of the queue, calls, in each of the three banks,
`setMsb v` on register c when c < 32 and `setLsb v` on register c - 32 when 32 ≤ c < 64, on
the registers as the messages before it left them; it leaves every other register as it was,
and changes no register when c ≥ 64; a message of any other status (note-on, note-off or
other) with these numbers changes no register. Over a whole queue, a register that no CC
message addresses is unchanged, and a queue without a CC message below 64 changes nothing. -/
theorem process_routes_cc (z : ZilahModule) (status : Int) (c v : Nat)
    (pre : List sspo.Message) :
    z.process [] = z ∧
    (∀ q1 q2 : List sspo.Message, z.process (q1 ++ q2) = (z.process q1).process q2) ∧
    (c < 32 →
      (z.process (pre ++ [{ status := 0xb, note := c, value := v }])).midi10Aggregator[c]?
        = (z.process pre).midi10Aggregator[c]?.map (fun a => a.setMsb v) ∧
      (z.process (pre ++ [{ status := 0xb, note := c, value := v }])).lsbOrMsbWithoutZeroing[c]?
        = (z.process pre).lsbOrMsbWithoutZeroing[c]?.map (fun a => a.setMsb v) ∧
      (z.process (pre ++ [{ status := 0xb, note := c, value := v }])).msbFirstWaitForLsb[c]?
        = (z.process pre).msbFirstWaitForLsb[c]?.map (fun a => a.setMsb v) ∧
      ∀ j, j ≠ c →
        (z.process (pre ++ [{ status := 0xb, note := c, value := v }])).midi10Aggregator[j]?
          = (z.process pre).midi10Aggregator[j]? ∧
        (z.process
            (pre ++ [{ status := 0xb, note := c, value := v }])).lsbOrMsbWithoutZeroing[j]?
          = (z.process pre).lsbOrMsbWithoutZeroing[j]? ∧
        (z.process (pre ++ [{ status := 0xb, note := c, value := v }])).msbFirstWaitForLsb[j]?
          = (z.process pre).msbFirstWaitForLsb[j]?) ∧
    (32 ≤ c → c < 64 →
      (z.process (pre ++ [{ status := 0xb, note := c, value := v }])).midi10Aggregator[c - 32]?
        = (z.process pre).midi10Aggregator[c - 32]?.map (fun a => a.setLsb v) ∧
      (z.process
          (pre ++ [{ status := 0xb, note := c, value := v }])).lsbOrMsbWithoutZeroing[c - 32]?
        = (z.process pre).lsbOrMsbWithoutZeroing[c - 32]?.map (fun a => a.setLsb v) ∧
      (z.process (pre ++ [{ status := 0xb, note := c, value := v }])).msbFirstWaitForLsb[c - 32]?
        = (z.process pre).msbFirstWaitForLsb[c - 32]?.map (fun a => a.setLsb v) ∧
      ∀ j, j ≠ c - 32 →
        (z.process (pre ++ [{ status := 0xb, note := c, value := v }])).midi10Aggregator[j]?
          = (z.process pre).midi10Aggregator[j]? ∧
        (z.process
            (pre ++ [{ status := 0xb, note := c, value := v }])).lsbOrMsbWithoutZeroing[j]?
          = (z.process pre).lsbOrMsbWithoutZeroing[j]? ∧
        (z.process (pre ++ [{ status := 0xb, note := c, value := v }])).msbFirstWaitForLsb[j]?
          = (z.process pre).msbFirstWaitForLsb[j]?) ∧
    (64 ≤ c → z.process (pre ++ [{ status := 0xb, note := c, value := v }]) = z.process pre) ∧
    (status ≠ 0xb →
      z.process (pre ++ [{ status := status, note := c, value := v }]) = z.process pre) ∧
    (∀ (queue : List sspo.Message) (j : Nat),
      (∀ msg ∈ queue, 0 ≤ msg.note ∧
        (msg.status = 0xb → msg.note ≠ (j : Int) ∧ msg.note ≠ (j : Int) + 32)) →
      (z.process queue).midi10Aggregator[j]? = z.midi10Aggregator[j]? ∧
      (z.process queue).lsbOrMsbWithoutZeroing[j]? = z.lsbOrMsbWithoutZeroing[j]? ∧
      (z.process queue).msbFirstWaitForLsb[j]? = z.msbFirstWaitForLsb[j]?) ∧
    (∀ queue : List sspo.Message, (∀ msg ∈ queue, msg.status ≠ 0xb ∨ 64 ≤ msg.note) →
      z.process queue = z) := by
  have hm := processMessage_cc (z.process pre) status c v
  refine ⟨rfl, ?_, ?_, ?_, ?_, ?_, ?_, ?_⟩
  · intro q1 q2
    unfold ZilahModule.process
    rw [List.foldl_append]
  · intro hlt
    rw [process_snoc]
    exact hm.1 hlt
  · intro hge hlt
    rw [process_snoc]
    exact hm.2.1 hge hlt
  · intro hge
    rw [process_snoc]
    exact hm.2.2.1 hge
  · intro hs
    rw [process_snoc]
    exact hm.2.2.2 hs
  · intro queue j
    induction queue using List.reverseRecOn with
    | nil => intro _; exact ⟨rfl, rfl, rfl⟩
    | append_singleton l x ih =>
      intro h
      have hl := ih (fun msg hmsg => h msg (List.mem_append_left _ hmsg))
      have hx := h x (List.mem_append_right _ (List.mem_singleton_self x))
      have hu := processMessage_untouched (z.process l) x j hx.1 hx.2
      rw [process_snoc]
      exact ⟨hu.1.trans hl.1, hu.2.1.trans hl.2.1, hu.2.2.trans hl.2.2⟩
  · intro queue
    induction queue using List.reverseRecOn with
    | nil => intro _; rfl
    | append_singleton l x ih =>
      intro h
      have hl := ih (fun msg hmsg => h msg (List.mem_append_left _ hmsg))
      have hx := h x (List.mem_append_right _ (List.mem_singleton_self x))
      rw [process_snoc, hl]
      unfold ZilahModule.processMessage
      rcases hx with hx | hx
      · rw [if_neg hx]
      · have h1 : ¬ x.note < 32 := by omega
        have h2 : ¬ x.note < 64 := by omega
        simp only [if_neg h1, if_neg h2, ite_self]

/-- C26 on the fresh module, with the queue CC 3 of value 100, note-on 3, CC 35 of value 7,
CC 70: the first message alone takes register 3 of the zeroing bank to 100 * 128; after the
first two, CC 35 sets the low bits of register 3, which then holds 100 * 128 + 7 in the bank
without zeroing; the note-on and CC 70 change nothing, and register 4, which no message of the
queue addresses, is as it was after the whole queue. -/
theorem process_routes_cc_witness :
    (ZilahModule.fresh.process
        [{ status := 0xb, note := 3, value := 100 }]).midi10Aggregator[3]?
      = some { fourteenBit := { value := 12800 } } ∧
    (ZilahModule.fresh.process
        [{ status := 0xb, note := 3, value := 100 }, { status := 0x9, note := 3, value := 5 },
         { status := 0xb, note := 35, value := 7 }]).lsbOrMsbWithoutZeroing[3]?
      = some { fourteenBit := { value := 12807 } } ∧
    ZilahModule.fresh.process
        [{ status := 0xb, note := 3, value := 100 }, { status := 0x9, note := 3, value := 5 }]
      = ZilahModule.fresh.process [{ status := 0xb, note := 3, value := 100 }] ∧
    (ZilahModule.fresh.process routeQueue).midi10Aggregator[4]?
      = ZilahModule.fresh.midi10Aggregator[4]? ∧
    (ZilahModule.fresh.process routeQueue).lsbOrMsbWithoutZeroing[3]?
      = some { fourteenBit := { value := 12807 } } :=
  ⟨((process_routes_cc ZilahModule.fresh 0x9 3 100 []).2.2.1 (by decide)).1.trans (by decide),
   (((process_routes_cc ZilahModule.fresh 0x9 35 7
      [{ status := 0xb, note := 3, value := 100 },
       { status := 0x9, note := 3, value := 5 }]).2.2.2.1 (by decide) (by decide)).2.1).trans
      (by decide),
   (process_routes_cc ZilahModule.fresh 0x9 3 5
      [{ status := 0xb, note := 3, value := 100 }]).2.2.2.2.2.1 (by decide),
   ((process_routes_cc ZilahModule.fresh 0x9 3 100 []).2.2.2.2.2.2.1 routeQueue 4
      (by decide)).1,
   by decide⟩

end Zilah

namespace sspo

theorem foldl_learnMessage_pending (c : Comp) (q : Int) (hq : q = 0 ∨ q = 1)
    (msgs : List Message) (l : MidiMapping) (h : pendingInBounds c l) :
    pendingInBounds c (msgs.foldl (learnMessage q) l) := by
  induction msgs generalizing l with
  | nil => exact h
  | cons msg rest ih =>
    apply ih
    unfold learnMessage
    split
    · exact ⟨Or.inr hq, h.2⟩
    · split
      · exact ⟨Or.inr hq, h.2⟩
      · exact h

/-- The bounds of the table entries and of the learn mapping survive a `doLearn` cycle. -/
theorem doLearn_inBounds (c : Comp) (s : Iverson)
    (h : (∀ m ∈ s.midiMappings, entryInBounds c m) ∧ pendingInBounds c s.midiLearnMapping) :
    (∀ m ∈ (s.doLearn c).midiMappings, entryInBounds c m) ∧
    pendingInBounds c (s.doLearn c).midiLearnMapping := by
  have hreset : ∀ l : MidiMapping, pendingInBounds c l.reset :=
    fun _ => ⟨Or.inl rfl, Or.inl rfl⟩
  have a1 : (∀ m ∈ (clearAllStep s).midiMappings, entryInBounds c m) ∧
      pendingInBounds c (clearAllStep s).midiLearnMapping := by
    unfold clearAllStep
    split
    · exact ⟨fun m hm => by simp at hm, h.2⟩
    · exact h
  have hfound : ∀ (p : MidiMapping → MidiMapping → Bool) (t : Iverson),
      ((∀ m ∈ t.midiMappings, entryInBounds c m) ∧ pendingInBounds c t.midiLearnMapping) →
      (∀ m ∈ (clearFound p t).midiMappings, entryInBounds c m) ∧
        pendingInBounds c (clearFound p t).midiLearnMapping := by
    intro p t ht
    unfold clearFound
    split
    · exact ⟨fun m hm => ht.1 m ((List.eraseP_sublist _).subset hm),
        hreset t.midiLearnMapping⟩
    · exact ht
  have a2 : (∀ m ∈ (clearMappingStep (clearAllStep s)).midiMappings, entryInBounds c m) ∧
      pendingInBounds c (clearMappingStep (clearAllStep s)).midiLearnMapping := by
    unfold clearMappingStep
    split
    · apply hfound
      split
      · exact hfound _ _ a1
      · exact a1
    · exact a1
  have hcommit : ∀ t : Iverson,
      ((∀ m ∈ t.midiMappings, entryInBounds c m) ∧ pendingInBounds c t.midiLearnMapping) →
      (∀ m ∈ (commitStep t).midiMappings, entryInBounds c m) ∧
        pendingInBounds c (commitStep t).midiLearnMapping := by
    intro t ht
    unfold commitStep
    split
    · next hc =>
      refine ⟨?_, hreset t.midiLearnMapping⟩
      intro m hm
      rcases commit_mem _ _ _ hm with hm | hm
      · exact ht.1 m hm
      · rw [hm]
        simp only [isComplete, Bool.and_eq_true, Bool.or_eq_true, bne_iff_ne, ne_eq] at hc
        refine ⟨?_, ?_⟩
        · rcases ht.2.1 with h1 | h1
          · exact absurd h1 hc.1.1
          · exact h1
        · rcases ht.2.2 with h1 | h1
          · exact absurd h1 hc.2
          · exact h1
    · exact ht
  have hdrain : ∀ t : Iverson,
      ((∀ m ∈ t.midiMappings, entryInBounds c m) ∧ pendingInBounds c t.midiLearnMapping) →
      (∀ m ∈ (drainStep t).midiMappings, entryInBounds c m) ∧
        pendingInBounds c (drainStep t).midiLearnMapping := by
    intro t ht
    refine ⟨ht.1, ?_⟩
    exact foldl_learnMessage_pending c 1 (Or.inr rfl) _ _
      (foldl_learnMessage_pending c 0 (Or.inl rfl) _ _ ht.2)
  have hscan : ∀ t : Iverson,
      ((∀ m ∈ t.midiMappings, entryInBounds c m) ∧ pendingInBounds c t.midiLearnMapping) →
      (∀ m ∈ (scanStep c t).midiMappings, entryInBounds c m) ∧
        pendingInBounds c (scanStep c t).midiLearnMapping := by
    intro t ht
    have hf := scanStep_frame c t
    refine ⟨by rw [hf.1]; exact ht.1, ?_, ?_⟩
    · rw [hf.2.2.2.2.2.2.1]
      exact ht.2.1
    · rw [scanStep_paramId]
      cases hfp : firstPressed t.params (scanOrder c) with
      | none => exact ht.2.2
      | some i =>
        right
        exact (mem_scanOrder c i).mp (List.mem_of_find?_eq_some hfp)
  unfold Iverson.doLearn
  simp only
  split
  · exact hscan _ (hdrain _ (hcommit _ a2))
  · exact a2

theorem runCycles_inBounds (c : Comp) (inputs : List CycleInput) (s : Iverson)
    (h : (∀ m ∈ s.midiMappings, entryInBounds c m) ∧ pendingInBounds c s.midiLearnMapping) :
    (∀ m ∈ (runCycles c s inputs).midiMappings, entryInBounds c m) ∧
    pendingInBounds c (runCycles c s inputs).midiLearnMapping := by
  induction inputs generalizing s with
  | nil => exact h
  | cons i rest ih => exact ih _ (doLearn_inBounds c _ h)

theorem idRange_length (lo hi : Int) : (idRange lo hi).length = (hi + 1 - lo).toNat := by
  unfold idRange
  rw [List.length_map, List.length_range]

/-- C27: starting from the constructed module (empty table, learn mapping with no parameter or
a learnable one), after any sequence of `doLearn` cycles the table has at most as many entries
as there are parameters in the scan order; with 128 grid steps, 8 toggles and 4 page selects
that is at most 142 entries. -/
theorem runCycles_table_size (c : Comp) (s : Iverson) (inputs : List CycleInput)
    (hempty : s.midiMappings = []) (hlm : pendingInBounds c s.midiLearnMapping) :
    (runCycles c s inputs).midiMappings.length ≤ (scanOrder c).length ∧
    (c.GRID_16_8_PARAM = c.GRID_1_1_PARAM + 127 → c.ACTIVE_8_PARAM = c.ACTIVE_1_PARAM + 7 →
      c.PAGE_FOUR_PARAM = c.PAGE_ONE_PARAM + 3 →
      (runCycles c s inputs).midiMappings.length ≤ 128 + 8 + 4 + 2) := by
  have hb := (runCycles_inBounds c inputs s
    ⟨by rw [hempty]; intro m hm; simp at hm, hlm⟩).1
  have hu : UniqueControls (runCycles c s inputs).midiMappings := by
    apply runCycles_table_induct UniqueControls UniqueControls.nil
    · intro p l h
      exact h.eraseP p
    · intro l m h
      exact h.commit m
    · rw [hempty]
      exact UniqueControls.nil
  have hnodup : ((runCycles c s inputs).midiMappings.map MidiMapping.paramId).Nodup := by
    unfold List.Nodup
    rw [List.pairwise_map]
    exact hu.1
  have hsub : (runCycles c s inputs).midiMappings.map MidiMapping.paramId ⊆ scanOrder c := by
    intro i hi
    obtain ⟨m, hm, rfl⟩ := List.mem_map.mp hi
    exact (mem_scanOrder c _).mpr (hb m hm).2
  have hlen := (List.subperm_of_subset hnodup hsub).length_le
  rw [List.length_map] at hlen
  refine ⟨hlen, ?_⟩
  intro h1 h2 h3
  have hso : (scanOrder c).length = 142 := by
    unfold scanOrder
    simp only [List.length_append, idRange_length, List.length_cons, List.length_nil]
    omega
  omega

/-- C27 on the learn cycles that bind CC 20 of controller 1. -/
theorem runCycles_table_size_witness :
    (runCycles Comp.layout Iverson.idle ccLearnCycles).midiMappings.length ≤ 128 + 8 + 4 + 2 :=
  (runCycles_table_size Comp.layout Iverson.idle ccLearnCycles rfl (by decide)).2 rfl rfl rfl

/-- C29: starting from the constructed module (empty table, learn mapping with no controller
or controller 0 or 1 and no parameter or a learnable one), after any sequence of `doLearn`
cycles every entry of the table has controller 0 or 1 and a learnable paramId; with the grid
first in the parameter numbering, the track index `pageLights` computes for a grid entry and
for a track toggle entry is within 0..TRACK_COUNT-1. -/
theorem runCycles_entries_inBounds (c : Comp) (s : Iverson) (inputs : List CycleInput)
    (hempty : s.midiMappings = []) (hlm : pendingInBounds c s.midiLearnMapping) :
    (∀ m ∈ (runCycles c s inputs).midiMappings,
      (m.controller = 0 ∨ m.controller = 1) ∧ c.learnable m.paramId) ∧
    (c.gridFirst → ∀ m ∈ (runCycles c s inputs).midiMappings,
      0 ≤ m.paramId ∧
      (m.paramId ≤ c.GRID_16_8_PARAM →
        0 ≤ Int.tdiv m.paramId c.GRID_WIDTH ∧
        Int.tdiv m.paramId c.GRID_WIDTH < c.TRACK_COUNT) ∧
      (m.paramId ≥ c.ACTIVE_1_PARAM ∧ m.paramId ≤ c.ACTIVE_8_PARAM →
        0 ≤ m.paramId - c.ACTIVE_1_PARAM ∧ m.paramId - c.ACTIVE_1_PARAM < c.TRACK_COUNT)) := by
  have hb := (runCycles_inBounds c inputs s
    ⟨by rw [hempty]; intro m hm; simp at hm, hlm⟩).1
  refine ⟨hb, ?_⟩
  intro hg m hm
  obtain ⟨g0, gw, gle, gsize, ga, gcount, gp, gs, gr⟩ := hg
  have hl := (hb m hm).2
  unfold Comp.learnable at hl
  have h0 : 0 ≤ m.paramId := by omega
  refine ⟨h0, ?_, ?_⟩
  · intro hle
    rw [(tdiv_split m.paramId c.GRID_WIDTH h0 gw).1]
    refine ⟨Int.ediv_nonneg h0 (le_of_lt gw), ?_⟩
    apply Int.ediv_lt_of_lt_mul gw
    have : (c.TRACK_COUNT : Int) * c.GRID_WIDTH = c.GRID_WIDTH * c.TRACK_COUNT :=
      Int.mul_comm _ _
    omega
  · intro hr
    omega

/-- C29 on the learn cycles that bind CC 20 of controller 1 to the grid parameter 7. -/
theorem runCycles_entries_inBounds_witness :
    ({ controller := 1, note := -1, cc := 20, paramId := 7 } : MidiMapping)
      ∈ (runCycles Comp.layout Iverson.idle ccLearnCycles).midiMappings ∧
    (((1 : Int) = 0 ∨ (1 : Int) = 1) ∧ Comp.layout.learnable 7) :=
  ⟨by decide,
   (runCycles_entries_inBounds Comp.layout Iverson.idle ccLearnCycles rfl (by decide)).1
     { controller := 1, note := -1, cc := 20, paramId := 7 } (by decide)⟩

end sspo

namespace sspo

/-- The clear block removes at most one entry and adds none. -/
theorem clearMappingStep_table (t : Iverson) :
    (clearMappingStep t).midiMappings.Sublist t.midiMappings ∧
    t.midiMappings.length ≤ (clearMappingStep t).midiMappings.length + 1 := by
  have hfound : ∀ (p : MidiMapping → MidiMapping → Bool) (u : Iverson),
      (clearFound p u).midiMappings.Sublist u.midiMappings ∧
      u.midiMappings.length ≤ (clearFound p u).midiMappings.length + 1 := by
    intro p u
    rcases clearFound_cases p u with h | h
    · rw [h]
      exact ⟨List.Sublist.refl _, by omega⟩
    · refine ⟨?_, by omega⟩
      unfold clearFound
      split
      · exact List.eraseP_sublist _
      · exact List.Sublist.refl _
  unfold clearMappingStep
  split
  · split
    · rcases clearFound_cases sameParam t with h | h
      · rw [h]
        exact hfound sameNote t
      · have hnone : clearFound sameNote (clearFound sameParam t) = clearFound sameParam t := by
          apply clearFound_not_found
          rw [List.any_eq_false]
          intro x _
          rw [h.2.1]
          simp [sameNote_reset]
        rw [hnone]
        exact hfound sameParam t
    · exact hfound sameNote t
  · exact ⟨List.Sublist.refl _, by omega⟩

/-- C28 as stated fails: in clear mode, after a note-on for an unmapped note arrived while an
unmapped parameter was held, the next `doLearn` cycle starts with `isClearMapping` set and
`isClearAllMapping` clear and adds the mapping of that note to that parameter. -/
theorem clear_cycle_adds_mapping :
    (runCycles Comp.layout Iverson.idle clearModeCycles).isClearMapping = true ∧
    (runCycles Comp.layout Iverson.idle clearModeCycles).isClearAllMapping = false ∧
    (runCycles Comp.layout Iverson.idle clearModeCycles).midiMappings
      = [{ controller := 0, note := 60, cc := -1, paramId := 5 }] ∧
    ((runCycles Comp.layout Iverson.idle clearModeCycles).doLearn Comp.layout).midiMappings
      = [{ controller := 0, note := 60, cc := -1, paramId := 5 },
         { controller := 0, note := 62, cc := -1, paramId := 9 }] := by
  decide

/-- C28 amended: in a `doLearn` cycle that starts with `isClearAllMapping` not set (so also
one with `isClearMapping` set): when after the clear step `isLearning` is false, as it is
whenever the clear step removed an entry, or the learn mapping is not complete, the table
after the cycle is a sublist of the table before it with at most one entry removed; when after
the clear step `isLearning` is set and the learn mapping is complete, the clear step has
removed nothing and the cycle commits the learn mapping. -/
theorem clear_cycle_table (c : Comp) (s : Iverson) (hall : s.isClearAllMapping = false) :
    ((clearMappingStep s).isLearning = false ∨
        isComplete (clearMappingStep s).midiLearnMapping = false →
      (s.doLearn c).midiMappings.Sublist s.midiMappings ∧
      s.midiMappings.length ≤ (s.doLearn c).midiMappings.length + 1) ∧
    ((clearMappingStep s).midiMappings.length < s.midiMappings.length →
      (clearMappingStep s).isLearning = false) ∧
    ((clearMappingStep s).isLearning = true →
        isComplete (clearMappingStep s).midiLearnMapping = true →
      clearMappingStep s = s ∧
      (s.doLearn c).midiMappings = commit s.midiMappings s.midiLearnMapping) := by
  have hdo : s.doLearn c = if (clearMappingStep s).isLearning = true then
      learnStep c (clearMappingStep s) else clearMappingStep s := by
    unfold Iverson.doLearn
    simp only [clearAllStep_of_not s hall]
  have hlearn : ∀ t : Iverson, (learnStep c t).midiMappings = (commitStep t).midiMappings := by
    intro t
    unfold learnStep
    rw [(scanStep_frame c _).1]
    rfl
  refine ⟨?_, ?_, ?_⟩
  · intro h
    have htab : (s.doLearn c).midiMappings = (clearMappingStep s).midiMappings := by
      rw [hdo]
      split
      · next hl =>
        rcases h with h | h
        · rw [h] at hl
          exact absurd hl (by decide)
        · rw [hlearn, commitStep_of_incomplete _ h]
      · rfl
    rw [htab]
    exact clearMappingStep_table s
  · intro hlt
    rcases clearMappingStep_cases s with h | h
    · rw [h] at hlt
      omega
    · exact h.2.2.2
  · intro hl hc
    have hsame : clearMappingStep s = s := by
      rcases clearMappingStep_cases s with h | h
      · exact h
      · rw [h.2.2.2] at hl
        exact absurd hl (by decide)
    refine ⟨hsame, ?_⟩
    rw [hdo, if_pos hl, hlearn, commitStep_of_complete _ hc, hsame]

/-- C28 amended, on the clear cycle that removes the entry of note 60 and on the clear cycle
that commits. -/
theorem clear_cycle_table_witness :
    (clearByNoteScenario.doLearn Comp.layout).midiMappings.Sublist
      clearByNoteScenario.midiMappings ∧
    ((runCycles Comp.layout Iverson.idle clearModeCycles).doLearn Comp.layout).midiMappings
      = commit (runCycles Comp.layout Iverson.idle clearModeCycles).midiMappings
          (runCycles Comp.layout Iverson.idle clearModeCycles).midiLearnMapping :=
  ⟨((clear_cycle_table Comp.layout clearByNoteScenario rfl).1 (Or.inl (by decide))).1,
   ((clear_cycle_table Comp.layout (runCycles Comp.layout Iverson.idle clearModeCycles)
      (by decide)).2.2 (by decide) (by decide)).2⟩

/-- C30 at the failing input: after two learn cycles have bound CC 20 of controller 1 to the
grid parameter 7, the table entry has note -1, and `pageLights` calls `setNote` with the note
-1 for it, in learn mode and in dispatch mode; the write `currentNotes[-1]` of that call is
outside the array, so the call and with it `pageLights` have no defined result. -/
theorem pageLights_note_out_of_range :
    (runCycles Comp.layout Iverson.idle ccLearnCycles).midiMappings
      = [{ controller := 1, note := -1, cc := 20, paramId := 7 }] ∧
    (runCycles Comp.layout Iverson.idle ccLearnCycles).isLearning = true ∧
    pageLightsNote Comp.layout (runCycles Comp.layout Iverson.idle ccLearnCycles)
        { controller := 1, note := -1, cc := 20, paramId := 7 } = some (1, -1, 1) ∧
    pageLightsNote Comp.layout
        { runCycles Comp.layout Iverson.idle ccLearnCycles with isLearning := false }
        { controller := 1, note := -1, cc := 20, paramId := 7 } = some (1, -1, 0) ∧
    ((runCycles Comp.layout Iverson.idle ccLearnCycles).midiOutputs.2.setNote (-1) 1).isNone
      = true ∧
    ((runCycles Comp.layout Iverson.idle ccLearnCycles).midiOutputs.2.setNote (-1) 0).isNone
      = true ∧
    ((runCycles Comp.layout Iverson.idle ccLearnCycles).pageLights Comp.layout).isNone = true ∧
    (Iverson.pageLights Comp.layout
      { runCycles Comp.layout Iverson.idle ccLearnCycles with isLearning := false }).isNone
      = true := by
  decide

end sspo
